import Mathlib

/-!
# UCP backend: account lifecycle, signed action tokens, privileged workflow

A shallow embedding of the Go sources of the `sarp_backend` repository
(`service/email.go`, `model/*.go`, `repository/repository.go`,
`service/*.go`, `handler/handlers.go`) together with theorems about them.

Conventions of the embedding

* A Go `string` is a sequence of bytes (`GoString`); `len` is the number of
  bytes and `for _, c := range s` walks the UTF-8 decoding of those bytes.
* Go `int64` values are integers together with an explicit wrap-around
  (`wrapInt64`) wherever the source does arithmetic on them.
* A Go `error` is `Option GoError`: `none` is `nil`, `some msg` is an error
  whose `Error()` text is `msg`.
* Standard-library code the repository calls is embedded from the library
  (`crypto/sha256`, `crypto/hmac`, `crypto/subtle`, `encoding/hex`,
  `strconv`, `unicode/utf8`, the Latin-1 part of `unicode`); what is not
  embedded is a field of `Lib` (the Whirlpool digest, the address grammar of
  `net/mail` behind its first step, the Unicode tables above Latin-1).
-/

namespace Ucp

/-! ## Go strings -/

/-- One byte of a Go string. -/
abbrev Byte := Fin 256

/-- A Go `string`: an immutable sequence of bytes, not necessarily UTF-8. -/
abbrev GoString := List Byte

/-- Conversion `byte(n)` of a non-negative integer: the low eight bits. -/
def byteOf (n : Nat) : Byte := ⟨n % 256, Nat.mod_lt n (by decide)⟩

/-- The bytes `utf8.EncodeRune` produces for a code point. -/
def encodeRune (r : Nat) : GoString :=
  if r < 0x80 then [byteOf r]
  else if r < 0x800 then [byteOf (0xC0 ||| (r >>> 6)), byteOf (0x80 ||| (r &&& 0x3F))]
  else if r < 0x10000 then
    [byteOf (0xE0 ||| (r >>> 12)), byteOf (0x80 ||| ((r >>> 6) &&& 0x3F)),
     byteOf (0x80 ||| (r &&& 0x3F))]
  else
    [byteOf (0xF0 ||| (r >>> 18)), byteOf (0x80 ||| ((r >>> 12) &&& 0x3F)),
     byteOf (0x80 ||| ((r >>> 6) &&& 0x3F)), byteOf (0x80 ||| (r &&& 0x3F))]

/-- A string literal of the Go source, as the bytes of its UTF-8 encoding. -/
def lit (s : String) : GoString := (s.data.map (fun c => encodeRune c.toNat)).flatten

/-! ## `strconv`: decimal rendering and parsing of `int64` -/

/-- Largest `int64`. -/
def maxInt64 : Int := 9223372036854775807

/-- Smallest `int64`. -/
def minInt64 : Int := -9223372036854775808

/-- Membership in the range of `int64`. -/
def isInt64 (x : Int) : Prop := minInt64 ≤ x ∧ x ≤ maxInt64

instance (x : Int) : Decidable (isInt64 x) := by unfold isInt64; infer_instance

/-- Two's-complement wrap-around of an integer to `int64`. -/
def wrapInt64 (x : Int) : Int := (x + 2 ^ 63) % 2 ^ 64 - 2 ^ 63

/-- The ASCII digit of a value below ten. -/
def digitByte (d : Nat) : Byte := byteOf (48 + d % 10)

/-- Decimal digits of a natural number, most significant first; `fuel` bounds
the number of digits. -/
def formatDigits : Nat → Nat → GoString
  | 0, _ => []
  | fuel + 1, n => if n < 10 then [digitByte n] else formatDigits fuel (n / 10) ++ [digitByte n]

/-- The decimal rendering `strconv.FormatUint(n, 10)`. -/
def FormatUint (n : Nat) : GoString := formatDigits (n + 1) n

/-- The decimal rendering `strconv.FormatInt(x, 10)`, which is what the verb
`%d` of `fmt.Sprintf` prints for an `int64`. -/
def FormatInt (x : Int) : GoString :=
  if x < 0 then lit "-" ++ FormatUint x.natAbs else FormatUint x.natAbs

/-- Value of a run of ASCII digits read left to right onto `acc`; `none` when
a byte is not a digit. -/
def parseDigits : GoString → Nat → Option Nat
  | [], acc => some acc
  | b :: rest, acc =>
    if 48 ≤ b.val ∧ b.val ≤ 57 then parseDigits rest (acc * 10 + (b.val - 48)) else none

/-- The call `strconv.ParseInt(s, 10, 64)`: an optional sign, at least one
digit, nothing else, and a value in the range of `int64`; `none` is the
`*NumError` the call returns otherwise. -/
def ParseInt (s : GoString) : Option Int :=
  match s with
  | [] => none
  | b :: rest =>
    let neg := b.val == 45
    let body := if b.val == 43 ∨ b.val == 45 then rest else s
    match body with
    | [] => none
    | _ :: _ =>
      match parseDigits body 0 with
      | none => none
      | some n =>
        if neg then (if n ≤ 9223372036854775808 then some (-(n : Int)) else none)
        else (if n ≤ 9223372036854775807 then some (n : Int) else none)

/-! ## `crypto/sha256` -/

/-- Primality by trial division. -/
def isPrimeNat (n : Nat) : Bool :=
  decide (2 ≤ n) && (List.range n).all (fun d => decide (d < 2) || n % d != 0)

/-- The first `count` primes (for `count` up to 64). -/
def firstPrimes (count : Nat) : List Nat := ((List.range 312).filter isPrimeNat).take count

/-- The integer part of the `k`-th root of `n`, for roots below `2 ^ 40`,
found bit by bit from the top. -/
def iroot (k n : Nat) : Nat :=
  (List.range 40).reverse.foldl (fun r i => if (r + 2 ^ i) ^ k ≤ n then r + 2 ^ i else r) 0

/-- Round constants of SHA-256 (the table `_K` of `crypto/sha256`): the first
32 bits of the fractional parts of the cube roots of the first 64 primes. -/
def sha256K : List Nat := (firstPrimes 64).map (fun p => iroot 3 (p * 2 ^ 96) % 2 ^ 32)

/-- Initial hash words of SHA-256: the first 32 bits of the fractional parts of
the square roots of the first 8 primes. -/
def sha256IV : List Nat := (firstPrimes 8).map (fun p => iroot 2 (p * 2 ^ 64) % 2 ^ 32)

/-- Chaining value of SHA-256: eight 32-bit words. -/
structure Sha256State where
  a : Nat
  b : Nat
  c : Nat
  d : Nat
  e : Nat
  f : Nat
  g : Nat
  h : Nat
  deriving DecidableEq, Repr

/-- Initial chaining value of SHA-256. -/
def sha256Init : Sha256State :=
  ⟨sha256IV.getD 0 0, sha256IV.getD 1 0, sha256IV.getD 2 0, sha256IV.getD 3 0,
   sha256IV.getD 4 0, sha256IV.getD 5 0, sha256IV.getD 6 0, sha256IV.getD 7 0⟩

/-- Addition of `uint32` values. -/
def add32 (x y : Nat) : Nat := (x + y) % 2 ^ 32

/-- Rotation `bits.RotateLeft32(x, -n)` of a `uint32`. -/
def rotr32 (x n : Nat) : Nat := ((x >>> n) ||| (x <<< (32 - n))) % 2 ^ 32

/-- One step of the message schedule: the next word from the sixteen before
it, the schedule being kept newest word first. -/
def sha256NextWord (w : List Nat) : Nat :=
  let v1 := w.getD 1 0
  let v2 := w.getD 14 0
  let t1 := rotr32 v1 17 ^^^ rotr32 v1 19 ^^^ (v1 >>> 10)
  let t2 := rotr32 v2 7 ^^^ rotr32 v2 18 ^^^ (v2 >>> 3)
  add32 (add32 (add32 t1 (w.getD 6 0)) t2) (w.getD 15 0)

/-- Extension of the schedule by `n` further words (newest first). -/
def sha256Extend : Nat → List Nat → List Nat
  | 0, w => w
  | n + 1, w => sha256Extend n (sha256NextWord w :: w)

/-- One round of the compression function on the working variables. -/
def sha256Round (s : Sha256State) (kw : Nat × Nat) : Sha256State :=
  let t1 := add32 (add32 (add32 (add32 s.h
      (rotr32 s.e 6 ^^^ rotr32 s.e 11 ^^^ rotr32 s.e 25))
      ((s.e &&& s.f) ^^^ ((s.e ^^^ 0xffffffff) &&& s.g))) kw.1) kw.2
  let t2 := add32 (rotr32 s.a 2 ^^^ rotr32 s.a 13 ^^^ rotr32 s.a 22)
      ((s.a &&& s.b) ^^^ (s.a &&& s.c) ^^^ (s.b &&& s.c))
  ⟨add32 t1 t2, s.a, s.b, s.c, add32 s.d t1, s.e, s.f, s.g⟩

/-- Big-endian `uint32` words of a block, `n` of them. -/
def wordsBE : Nat → List Byte → List Nat
  | 0, _ => []
  | n + 1, bs =>
    ((bs.getD 0 0).val * 2 ^ 24 + (bs.getD 1 0).val * 2 ^ 16 + (bs.getD 2 0).val * 2 ^ 8
      + (bs.getD 3 0).val) :: wordsBE n (bs.drop 4)

/-- The block function: one 64-byte block folded into the chaining value. -/
def sha256Block (s : Sha256State) (block : List Byte) : Sha256State :=
  let w := (sha256Extend 48 (wordsBE 16 block).reverse).reverse
  let t := (sha256K.zip w).foldl sha256Round s
  ⟨add32 s.a t.a, add32 s.b t.b, add32 s.c t.c, add32 s.d t.d,
   add32 s.e t.e, add32 s.f t.f, add32 s.g t.g, add32 s.h t.h⟩

/-- The block function over `n` consecutive blocks. -/
def sha256Blocks : Nat → List Byte → Sha256State → Sha256State
  | 0, _, s => s
  | n + 1, bs, s => sha256Blocks n (bs.drop 64) (sha256Block s (bs.take 64))

/-- Big-endian bytes of a `uint32`. -/
def be32 (x : Nat) : List Byte :=
  [byteOf (x >>> 24), byteOf (x >>> 16), byteOf (x >>> 8), byteOf x]

/-- Padding of SHA-256: a `0x80` byte, zeros up to 56 modulo 64, and the length
of the message in bits as a big-endian `uint64`. -/
def sha256Pad (msg : List Byte) : List Byte :=
  let n := msg.length
  msg ++ [byteOf 0x80] ++ List.replicate ((119 - n % 64) % 64) (byteOf 0)
    ++ be32 ((n * 8 / 2 ^ 32) % 2 ^ 32) ++ be32 (n * 8 % 2 ^ 32)

/-- The digest `sha256.Sum256(msg)`: 32 bytes. -/
def sha256 (msg : List Byte) : List Byte :=
  let p := sha256Pad msg
  let s := sha256Blocks (p.length / 64) p sha256Init
  be32 s.a ++ be32 s.b ++ be32 s.c ++ be32 s.d ++ be32 s.e ++ be32 s.f ++ be32 s.g ++ be32 s.h

/-! ## `crypto/hmac`, `crypto/subtle`, `encoding/hex` -/

/-- The MAC computed by `hmac.New(sha256.New, key)` after `Write(msg)` and
`Sum(nil)`. -/
def hmacSha256 (key msg : List Byte) : List Byte :=
  let k0 := if key.length > 64 then sha256 key else key
  let k := k0 ++ List.replicate (64 - k0.length) (byteOf 0)
  let ipad := k.map (fun b => byteOf (b.val ^^^ 0x36))
  let opad := k.map (fun b => byteOf (b.val ^^^ 0x5c))
  sha256 (opad ++ sha256 (ipad ++ msg))

/-- The digit of the table `"0123456789abcdef"` for a value below sixteen. -/
def hexDigit (n : Nat) : Byte := if n < 10 then byteOf (48 + n) else byteOf (87 + n)

/-- The string `hex.EncodeToString(bs)`: two lower-case digits per byte. -/
def hexEncodeToString : List Byte → GoString
  | [] => []
  | b :: rest => hexDigit (b.val / 16) :: hexDigit (b.val % 16) :: hexEncodeToString rest

/-- The function `subtle.ConstantTimeByteEq(x, y)`: `int((uint32(x^y) - 1) >> 31)`. -/
def ConstantTimeByteEq (x y : Byte) : Nat :=
  (((x.val ^^^ y.val) + 2 ^ 32 - 1) % 2 ^ 32) >>> 31

/-- The accumulator `v |= x[i] ^ y[i]` of `subtle.ConstantTimeCompare` over two
slices walked in step. -/
def xorAccumulate : List Byte → List Byte → Byte → Byte
  | x :: xs, y :: ys, v => xorAccumulate xs ys (byteOf (v.val ||| (x.val ^^^ y.val)))
  | _, _, v => v

/-- The function `subtle.ConstantTimeCompare(x, y)`: 0 when the lengths differ,
otherwise 1 exactly when the accumulated difference is zero. -/
def ConstantTimeCompare (x y : List Byte) : Nat :=
  if x.length ≠ y.length then 0 else ConstantTimeByteEq (xorAccumulate x y (byteOf 0)) (byteOf 0)

/-- The function `hmac.Equal(mac1, mac2)`. -/
def hmacEqual (mac1 mac2 : List Byte) : Bool := ConstantTimeCompare mac1 mac2 == 1

/-! ## `service/email.go`: the signed action token -/

/-- The constant `secretKey` of `GenerateToken`. -/
def secretKey : GoString := lit "$ecretKey_).r0@+"

/-- The message `fmt.Sprintf("%s:%d", email, timestamp)` that is signed. -/
def tokenData (email : GoString) (timestamp : Int) : GoString :=
  email ++ lit ":" ++ FormatInt timestamp

/-- The function `GenerateToken(email, timestamp)` of `service/email.go`. -/
def GenerateToken (email : GoString) (timestamp : Int) : GoString :=
  let data := tokenData email timestamp
  hexEncodeToString (hmacSha256 secretKey data)

/-- The function `ValidateToken(email, token, timestamp)` of `service/email.go`. -/
def ValidateToken (email token : GoString) (timestamp : Int) : Bool :=
  let expectedToken := GenerateToken email timestamp
  hmacEqual expectedToken token

/-! ## `unicode/utf8` and `unicode` -/

/-- The constant `utf8.RuneError`. -/
def RuneError : Nat := 0xFFFD

/-- Test `lo ≤ b ≤ hi` on a continuation byte. -/
def inRange (b : Byte) (lo hi : Nat) : Bool := decide (lo ≤ b.val) && decide (b.val ≤ hi)

/-- The function `utf8.DecodeRuneInString`: the first rune of `p` and its width
in bytes; an invalid or short encoding gives `(RuneError, 1)`, the empty
string `(RuneError, 0)`. -/
def decodeRune (p : List Byte) : Nat × Nat :=
  match p with
  | [] => (RuneError, 0)
  | p0 :: rest =>
    let c := p0.val
    if c < 0x80 then (c, 1)
    else if c < 0xC2 then (RuneError, 1)
    else if c < 0xE0 then
      match rest with
      | b1 :: _ =>
        if inRange b1 0x80 0xBF then (((c &&& 0x1F) <<< 6) ||| (b1.val &&& 0x3F), 2)
        else (RuneError, 1)
      | _ => (RuneError, 1)
    else if c < 0xF0 then
      match rest with
      | b1 :: b2 :: _ =>
        if inRange b1 (if c = 0xE0 then 0xA0 else 0x80) (if c = 0xED then 0x9F else 0xBF) then
          if inRange b2 0x80 0xBF then
            (((c &&& 0x0F) <<< 12) ||| ((b1.val &&& 0x3F) <<< 6) ||| (b2.val &&& 0x3F), 3)
          else (RuneError, 1)
        else (RuneError, 1)
      | _ => (RuneError, 1)
    else if c < 0xF5 then
      match rest with
      | b1 :: b2 :: b3 :: _ =>
        if inRange b1 (if c = 0xF0 then 0x90 else 0x80) (if c = 0xF4 then 0x8F else 0xBF) then
          if inRange b2 0x80 0xBF then
            if inRange b3 0x80 0xBF then
              (((c &&& 0x07) <<< 18) ||| ((b1.val &&& 0x3F) <<< 12) ||| ((b2.val &&& 0x3F) <<< 6)
                ||| (b3.val &&& 0x3F), 4)
            else (RuneError, 1)
          else (RuneError, 1)
        else (RuneError, 1)
      | _ => (RuneError, 1)
    else (RuneError, 1)

/-- The runes `for _, c := range s` yields, at most `fuel` of them. -/
def runesAux : Nat → List Byte → List Nat
  | 0, _ => []
  | _ + 1, [] => []
  | fuel + 1, b :: rest =>
    (decodeRune (b :: rest)).1 :: runesAux fuel ((b :: rest).drop (decodeRune (b :: rest)).2)

/-- The runes `for _, c := range s` yields. -/
def runes (s : GoString) : List Nat := runesAux s.length s

/-- The text the verb `%s` of `fmt.Sprintf` writes for a Go string, as a
`String`: its characters. The verb writes the bytes as they are; a byte that
is not part of a valid UTF-8 encoding appears here as U+FFFD. -/
def textOf (s : GoString) : String := String.mk ((runes s).map Char.ofNat)

/-- Code of the Go standard library and of third-party packages that is not
embedded here. -/
structure Lib where
  /-- Membership in the table `unicode.Letter` for runes above Latin-1. -/
  letterTable : Nat → Bool
  /-- Membership in the table `unicode.Digit` for runes above Latin-1. -/
  digitTable : Nat → Bool
  /-- Membership in the table `unicode.Lower` for runes above Latin-1. -/
  lowerTable : Nat → Bool
  /-- Whether the address grammar of `net/mail` accepts a string that is not
  empty after its leading spaces and tabs are skipped. -/
  mailGrammar : GoString → Bool
  /-- The digest of `github.com/jzelinskie/whirlpool`. -/
  whirlpool : List Byte → List Byte
  /-- The rendering `time.Unix(t, 0).Format("2006-01-02 15:04:05")`. -/
  formatDateTime : Int → GoString
  /-- The rendering `time.Unix(t, 0).Format("02/01/2006, 15:04")`. -/
  formatMinute : Int → GoString
  /-- The function `unicode.SimpleFold` on the runes above ASCII, U+017F and
  U+212A apart. -/
  foldTable : Nat → Nat

/-- The function `unicode.IsLetter`: the Latin-1 property table for runes up to
`MaxLatin1`, the table `unicode.Letter` above. -/
def IsLetter (lib : Lib) (r : Nat) : Bool :=
  if r ≤ 0xFF then
    decide ((65 ≤ r ∧ r ≤ 90) ∨ (97 ≤ r ∧ r ≤ 122) ∨ r = 0xAA ∨ r = 0xB5 ∨ r = 0xBA
      ∨ (0xC0 ≤ r ∧ r ≤ 0xD6) ∨ (0xD8 ≤ r ∧ r ≤ 0xF6) ∨ 0xF8 ≤ r)
  else lib.letterTable r

/-- The function `unicode.IsDigit`: `'0' <= r && r <= '9'` for runes up to
`MaxLatin1`, the table `unicode.Digit` above. -/
def IsDigit (lib : Lib) (r : Nat) : Bool :=
  if r ≤ 0xFF then decide (48 ≤ r ∧ r ≤ 57) else lib.digitTable r

/-- The function `unicode.IsLower`: the Latin-1 property table for runes up to
`MaxLatin1`, the table `unicode.Lower` above. -/
def IsLower (lib : Lib) (r : Nat) : Bool :=
  if r ≤ 0xFF then
    decide ((97 ≤ r ∧ r ≤ 122) ∨ r = 0xB5 ∨ (0xDF ≤ r ∧ r ≤ 0xF6) ∨ 0xF8 ≤ r)
  else lib.lowerTable r

/-- The table `unicode.asciiFold`: `unicode.SimpleFold` on the runes up to
`MaxASCII`. A letter goes to its other case, except that "k" goes to U+212A
(the Kelvin sign) and "s" to U+017F (the long s), the next runes of their
orbits; every other rune goes to itself. -/
def asciiFold (r : Nat) : Nat :=
  if r = 0x4B then 0x6B
  else if r = 0x53 then 0x73
  else if r = 0x6B then 0x212A
  else if r = 0x73 then 0x17F
  else if 0x41 ≤ r ∧ r ≤ 0x5A then r + 0x20
  else if 0x61 ≤ r ∧ r ≤ 0x7A then r - 0x20
  else r

/-- The function `unicode.SimpleFold`: the table `asciiFold` up to `MaxASCII`;
above it, the two entries of `caseOrbit` that close the orbits of "k" and "s"
(U+017F goes to "S", U+212A to "K") and the table of the library for every
other rune. -/
def SimpleFold (lib : Lib) (r : Nat) : Nat :=
  if r ≤ 0x7F then asciiFold r
  else if r = 0x17F then 0x53
  else if r = 0x212A then 0x4B
  else lib.foldTable r

/-- The loop `for r != sr && r < tr { r = unicode.SimpleFold(r) }` of
`strings.EqualFold`, at most `fuel` turns: the rune it stops at, `none` when
it has not stopped by then. -/
def foldSearch (lib : Lib) : Nat → Nat → Nat → Nat → Option Nat
  | 0, _, _, _ => none
  | fuel + 1, sr, tr, r =>
    if r ≠ sr ∧ r < tr then foldSearch lib fuel sr tr (SimpleFold lib r) else some r

/-- The second loop of `strings.EqualFold` (label `hasUnicode`): the runes
`range s` yields against the runes decoded one by one from `t`. No orbit of
the case tables has more than four runes; `none` is a search of an orbit that
does not stop within eight turns. -/
def equalFoldRunes (lib : Lib) : List Nat → GoString → Option Bool
  | [], t => some (t.length == 0)
  | sr :: srs, t =>
    match t with
    | [] => some false
    | t0 :: trest =>
      let tr : Nat := if t0.val < 0x80 then t0.val else (decodeRune (t0 :: trest)).1
      let t1 : GoString :=
        if t0.val < 0x80 then trest else (t0 :: trest).drop (decodeRune (t0 :: trest)).2
      if tr = sr then equalFoldRunes lib srs t1
      else
        let lo := if tr < sr then tr else sr
        let hi := if tr < sr then sr else tr
        if hi < 0x80 then
          if 0x41 ≤ lo ∧ lo ≤ 0x5A ∧ hi = lo + 0x20 then equalFoldRunes lib srs t1
          else some false
        else
          match foldSearch lib 8 lo hi (SimpleFold lib lo) with
          | none => none
          | some r => if r = hi then equalFoldRunes lib srs t1 else some false

/-- The function `strings.EqualFold`: the ASCII fast path byte by byte, and
the second loop from the first position where one of the two bytes is not
ASCII. -/
def EqualFold (lib : Lib) : GoString → GoString → Option Bool
  | sb :: srest, tb :: trest =>
    if (sb.val ||| tb.val) ≥ 0x80 then equalFoldRunes lib (runes (sb :: srest)) (tb :: trest)
    else if tb = sb then EqualFold lib srest trest
    else
      let lo := if tb.val < sb.val then tb.val else sb.val
      let hi := if tb.val < sb.val then sb.val else tb.val
      if 0x41 ≤ lo ∧ lo ≤ 0x5A ∧ hi = lo + 0x20 then EqualFold lib srest trest
      else some false
  | [], t => some (t.length == 0)
  | _ :: _, [] => some false

/-- The call `mail.ParseAddress(s)` reduced to `err == nil`: the parser skips
leading spaces and tabs, fails with "mail: no address" on what is then empty,
and otherwise runs the address grammar. -/
def ParseAddress (lib : Lib) (s : GoString) : Bool :=
  match s.dropWhile (fun b => b.val == 32 || b.val == 9) with
  | [] => false
  | b :: rest => lib.mailGrammar (b :: rest)

/-- The match `regexp.MustCompile("^[a-zA-Z0-9]+$").MatchString(s)`: at least
one byte, every byte an ASCII letter or digit. -/
def validUsername (s : GoString) : Bool :=
  !s.isEmpty && s.all (fun b =>
    decide ((97 ≤ b.val ∧ b.val ≤ 122) ∨ (65 ≤ b.val ∧ b.val ≤ 90) ∨ (48 ≤ b.val ∧ b.val ≤ 57)))

/-! ## `model/utils.go`, `model/models.go`, `model/errors.go` -/

/-- The function `containsLetter` of `model/utils.go`. -/
def containsLetter (lib : Lib) (s : GoString) : Bool := (runes s).any (IsLetter lib)

/-- The function `containsDigit` of `model/utils.go`. -/
def containsDigit (lib : Lib) (s : GoString) : Bool := (runes s).any (IsDigit lib)

/-- The constant `specialChars` of `containsSpecialChar`; the braces, the
apostrophe, the double quote and the backquote are written as escapes. -/
def specialChars : GoString := lit "!@#$%^&*()-_=+[]\x7b\x7d|;:\x27\x22,.<>?/\x60~"

/-- The function `containsSpecialChar` of `model/utils.go`. -/
def containsSpecialChar (s : GoString) : Bool :=
  (runes s).any (fun c => (runes specialChars).any (fun sc => c == sc))

/-- The type `RegisterAPI` of `model/models.go`. -/
structure RegisterAPI where
  Username : GoString
  Email : GoString
  Password : GoString
  deriving DecidableEq

/-- The method `(*RegisterAPI).Validate`; the result is the text of the error,
`none` for `nil`. -/
def RegisterAPI.Validate (lib : Lib) (r : RegisterAPI) : Option String :=
  if r.Username = [] ∨ r.Email = [] ∨ r.Password = [] then
    some "one or more fields are empty"
  else if !validUsername r.Username then
    some "username can only contain letters and digits"
  else if !ParseAddress lib r.Email then
    some "invalid email address"
  else if r.Password.length < 8 then
    some "password length must be greater than 8"
  else if !containsLetter lib r.Password then
    some "password must contain at least one letter"
  else if !containsDigit lib r.Password then
    some "password must contain at least one digit"
  else if !containsSpecialChar r.Password then
    some "password must contain at least one special character"
  else none

/-- The type `LoginAPI` of `model/models.go`. -/
structure LoginAPI where
  Username : GoString
  Password : GoString
  deriving DecidableEq

/-- The method `(*LoginAPI).Validate`. -/
def LoginAPI.Validate (l : LoginAPI) : Option String :=
  if l.Username = [] ∨ l.Password = [] then
    some "one or more fields are empty"
  else if !validUsername l.Username then
    some "username can only contain letters and digits"
  else none

/-- The type `UpdatePassword` of `model/models.go`. -/
structure UpdatePassword where
  Email : GoString
  Token : GoString
  Timestamp : Int
  NewPassword : GoString
  deriving DecidableEq

/-- The method `(*UpdatePassword).Validate`. -/
def UpdatePassword.Validate (lib : Lib) (r : UpdatePassword) : Option String :=
  if !ParseAddress lib r.Email then
    some "invalid email address"
  else if r.NewPassword.length < 8 then
    some "password length must be greater than 8"
  else if !containsLetter lib r.NewPassword then
    some "password must contain at least one letter"
  else if !containsDigit lib r.NewPassword then
    some "password must contain at least one digit"
  else if !containsSpecialChar r.NewPassword then
    some "password must contain at least one special character"
  else none

/-- The function `ErrorMsg` of `model/errors.go`. -/
def ErrorMsg (s : String) : String :=
  if s = "invalid email address" then "Adresa de email folosita este invalida."
  else if s = "username can only contain letters and digits" then
    "Numele contului nu poate contine spatii si caractere speciale."
  else if s = "name cannot be empty" then "Numele caracterului trebuie completat."
  else if s = "origin cannot be empty" then "Originea caracterului trebuie completata."
  else if s = "origin contains wrong characters" then
    "Originea caracterului trebuie sa contina doar litere."
  else if s = "age must be between 12 and 80 years old" then
    "Varsta caracterului trebuie sa fie intre 12 si 80 de ani."
  else if s = "invalid character name" then
    "Numele caracterului trebuie sa fie de forma Prenume_Nume."
  else if s = "invalid length for character origin" then
    "Originrea caracterului trebuie aiba minim 4 caractere."
  else "Parola trebuie sa aiba minim 8 caractere (litere, cifre si caractere speciale)"

/-- The call `strings.Split(s, sep)` for a separator of one byte: the pieces
between the occurrences of the byte, `[""]` for the empty string. -/
def splitByte (sep : Byte) : GoString → List GoString
  | [] => [[]]
  | b :: rest =>
    if b = sep then [] :: splitByte sep rest
    else
      match splitByte sep rest with
      | [] => [[b]]
      | piece :: pieces => (b :: piece) :: pieces

/-- The loop of `checkCharacterName` over the pieces: `str[0]` of an empty
piece is an index out of range, a run-time panic (`none`). -/
def checkNameParts (lib : Lib) : List GoString → Bool → Option Bool
  | [], ok => some ok
  | str :: rest, ok =>
    match str with
    | [] => none
    | b0 :: _ =>
      checkNameParts lib rest
        (if containsDigit lib str || containsSpecialChar str || IsLower lib b0.val then false
         else ok)

/-- The function `checkCharacterName` of `model/utils.go`; `none` is a
run-time panic. -/
def checkCharacterName (lib : Lib) (s : GoString) : Option Bool :=
  let sep := splitByte (byteOf 95) s
  if sep.length ≠ 2 then some false else checkNameParts lib sep true

/-- The type `CharacterDataAPI` of `model/models.go`. -/
structure CharacterDataAPI where
  Username : GoString
  CharacterName : GoString
  CharacterAge : Int
  CharacterGender : Int
  CharacterOrigin : GoString
  deriving DecidableEq

/-- The method `(*CharacterDataAPI).Validate`: `none` is a run-time panic,
`some none` is `nil`, `some (some msg)` an error with text `msg`. -/
def CharacterDataAPI.Validate (lib : Lib) (c : CharacterDataAPI) : Option (Option String) :=
  if c.CharacterName = [] then some (some "name cannot be empty")
  else
    match checkCharacterName lib c.CharacterName with
    | none => none
    | some nameOk =>
      if !nameOk then some (some "invalid character name")
      else if c.CharacterOrigin = [] then some (some "origin cannot be empty")
      else if ¬ (c.CharacterAge > 12 ∧ c.CharacterAge < 80) then
        some (some "age must be between 12 and 80 years old")
      else if containsDigit lib c.CharacterOrigin || containsSpecialChar c.CharacterOrigin then
        some (some "origin contains wrong characters")
      else if c.CharacterOrigin.length < 4 then
        some (some "invalid length for character origin")
      else some none

/-- The type `CharacterAPI` of `model/models.go`. -/
structure CharacterAPI where
  Username : GoString
  CharacterName : GoString
  AcceptedBy : GoString
  deriving DecidableEq

/-- The type `RejectCharacterAPI` of `model/models.go`. -/
structure RejectCharacterAPI where
  Username : GoString
  CharacterName : GoString
  Reason : GoString
  deriving DecidableEq

/-- The type `BanAPI` of `model/models.go`; `Expire` is a `uint`. -/
structure BanAPI where
  Username : GoString
  Expire : Nat
  Reason : GoString
  AdminName : GoString
  Characters : List CharacterAPI
  deriving DecidableEq

/-- The type `AjailAPI` of `model/models.go`. -/
structure AjailAPI where
  Character : GoString
  AdminName : GoString
  Time : Int
  Reason : GoString
  deriving DecidableEq

/-- The type `LogsAPI` of `model/models.go`; its field `Type` is `LogType`
here. -/
structure LogsAPI where
  LogType : GoString
  deriving DecidableEq

/-- The type `CharacterStatsAPI` of `model/models.go`. -/
structure CharacterStatsAPI where
  Name : GoString
  Created : Int
  Level : Int
  PlayingHours : Int
  deriving DecidableEq

/-- The type `GetStatsAPI` of `model/models.go`. -/
structure GetStatsAPI where
  Username : GoString
  Admin : Int
  Tester : Int
  DonateRank : Int
  Characters : Int
  LastLogin : Int
  CharacterList : List CharacterStatsAPI
  deriving DecidableEq

/-- The type `GetStaffAPI` of `model/models.go`. -/
structure GetStaffAPI where
  Username : GoString
  Role : GoString
  deriving DecidableEq

/-! ## Storage: the tables behind `repository.UserRepository`

A table is the list of its rows in the order the engine returns them; the
comparison `=` of SQL on strings is equality of the byte strings, and columns
are taken as they are scanned by the Go code (no `NULL`). -/

/-- The text of a Go `error`. -/
abbrev GoError := String

/-- The error `sql.ErrNoRows`, by its text. -/
def ErrNoRows : GoError := "sql: no rows in result set"

/-- A row of the table `accounts` (the columns the repository reads or writes). -/
structure AccountRow where
  Username : GoString
  Email : GoString
  NumeForum : GoString
  NumePrenume : GoString
  Password : GoString
  Serial : GoString
  RegisterDate : GoString
  LoginDate : Int
  IP : GoString
  secret_code : GoString
  Characters : Int
  Admin : Int
  Tester : Int
  DonateRank : Int
  AcceptedBy : GoString
  Accepted : Int
  Activated : Int
  CaractereAcceptate : Int
  deriving DecidableEq

/-- A row of the table `characters` (the columns the repository reads or writes). -/
structure CharacterRow where
  Username : GoString
  Character : GoString
  Created : Int
  Status : Int
  Level : Int
  PlayingHours : Int
  Age : Int
  Gender : Int
  Origin : GoString
  Skin : Int
  AcceptedBy : GoString
  JailTime : Int
  Prisoned : Int
  Online : Int
  deriving DecidableEq

/-- A row of the table `blacklist`; `Expire` is the expiry instant in unix
seconds. -/
structure BlacklistRow where
  IP : GoString
  Username : GoString
  BannedBy : GoString
  Reason : GoString
  Date : GoString
  perm : Int
  Expire : Int
  deriving DecidableEq

/-- The database the repository talks to. -/
structure DB where
  accounts : List AccountRow
  characters : List CharacterRow
  blacklist : List BlacklistRow
  deriving DecidableEq

/-- A value stored in a session (`interface{}`): the code stores strings and
booleans. -/
inductive SessionValue where
  | str (s : GoString)
  | bool (b : Bool)
  deriving DecidableEq

/-- A call of a method of the service interfaces of `service/interface.go`
(`UserServiceInterface`, `CharacterServiceInterface`, `AuthServiceInterface`,
`EmailInterface`), with its arguments; `Queryx` is the text of a query that
`FetchLogs` builds and sends. -/
inductive Call where
  | Create (data : RegisterAPI)
  | ActivateAccount (email : GoString)
  | CheckActivation (name : GoString)
  | CheckForBan (name : GoString)
  | Verify (data : LoginAPI)
  | UpdatePassword (email password : GoString)
  | Fetch (name email : GoString)
  | IsTester (name : GoString)
  | IsAdmin (name : GoString)
  | CheckSession
  | SaveSession (name : GoString) (isTester isAdmin : Bool)
  | DestroySession
  | SendEmail (recipient subject body : GoString)
  | GetStats (name : GoString)
  | GetStaff
  | GetServerStats
  | FetchMail (name : GoString)
  | FetchCharacter (name : GoString)
  | Ban (data : BanAPI)
  | BanList
  | Unban (data : BanAPI)
  | Ajail (data : AjailAPI)
  | Logs (data : LogsAPI)
  | DeleteExpired
  | CharacterCreate (data : CharacterDataAPI)
  | FetchWaiting
  | AcceptCharacter (data : CharacterAPI)
  | DeclineCharacter (data : RejectCharacterAPI)
  | Authenticate
  | Queryx (query : GoString)
  deriving DecidableEq

/-- Everything outside the handler that a request can observe or change.

* `db` is the database, `session` the data the session store holds for the
  client of the request, `now` the clock (`time.Now().Unix()` and `NOW()`),
  one instant for the whole request.
* `fault n` is the failure, if any, of the `n`-th round trip to an external
  collaborator (SQL engine, session store, mail relay); `ops` counts the
  round trips made so far.
* `calls` is the record of the service methods called so far (ghost state). -/
structure World where
  db : DB
  session : List (String × SessionValue)
  now : Int
  fault : Nat → Option GoError
  ops : Nat
  calls : List Call

/-- One round trip consumed. -/
def World.tick (w : World) : World := { w with ops := w.ops + 1 }

/-- A service call recorded. -/
def World.record (w : World) (c : Call) : World := { w with calls := w.calls ++ [c] }

/-- The call `DB.Get(&dest, query, args...)` for a query that selects from one
table the rows satisfying `p`: the first such row, `sql.ErrNoRows` when there
is none, the fault when the round trip fails. -/
def dbGet {ρ : Type} (table : DB → List ρ) (p : ρ → Bool) (w : World) :
    Except GoError ρ × World :=
  match w.fault w.ops with
  | some err => (.error err, w.tick)
  | none =>
    match (table w.db).find? p with
    | some row => (.ok row, w.tick)
    | none => (.error ErrNoRows, w.tick)

/-- The call `tx.Exec` of an `UPDATE accounts SET ... WHERE ...` followed by
`RowsAffected`: rows satisfying `p` are replaced by their image under `f`;
the count is the number of rows whose value changed. -/
def execUpdateAccounts (p : AccountRow → Bool) (f : AccountRow → AccountRow) (w : World) :
    (Nat × Option GoError) × World :=
  match w.fault w.ops with
  | some err => ((0, some err), w.tick)
  | none =>
    (((w.db.accounts.filter (fun r => p r && decide (f r ≠ r))).length, none),
     { w.tick with db := { w.db with accounts := w.db.accounts.map (fun r => if p r then f r else r) } })

/-- The call `tx.Exec` of an `INSERT INTO accounts` followed by `RowsAffected`. -/
def execInsertAccount (row : AccountRow) (w : World) : (Nat × Option GoError) × World :=
  match w.fault w.ops with
  | some err => ((0, some err), w.tick)
  | none => ((1, none), { w.tick with db := { w.db with accounts := w.db.accounts ++ [row] } })

/-- The function `withTransaction` of `repository/repository.go`: `Beginx`,
the body, then `Rollback` when the body failed and `Commit` otherwise. A
transaction that is rolled back, or whose commit fails, leaves the database
as it was at `Beginx`. -/
def withTransaction (txFunc : World → Option GoError × World) (w : World) :
    Option GoError × World :=
  match w.fault w.ops with
  | some err => (some err, w.tick)
  | none =>
    match txFunc w.tick with
    | (some err, w1) =>
      match w1.fault w1.ops with
      | some rbErr => (some rbErr, { w1.tick with db := w.db })
      | none => (some err, { w1.tick with db := w.db })
    | (none, w1) =>
      match w1.fault w1.ops with
      | some err => (some err, { w1.tick with db := w.db })
      | none => (none, w1.tick)

/-- The check `errRows != nil || rows == 0` after an `Exec`, as every
transaction body of the repository does it. -/
def expectRows (r : (Nat × Option GoError) × World) : Option GoError × World :=
  match r with
  | ((_, some errTx), w) => (some errTx, w)
  | ((rows, none), w) => if rows = 0 then (some "no rows affected, expected one", w) else (none, w)

/-! ## `repository/repository.go` -/

/-- The type `UserDB` of `repository/data.go` (the fields `Create` and
`Verify` use). -/
structure UserDB where
  Username : GoString
  Email : GoString
  Password : GoString
  RegisterDate : GoString

/-- The method `valueExists` for a count over `accounts`. -/
def UserRepository.valueExists (p : AccountRow → Bool) (w : World) :
    (Bool × Option GoError) × World :=
  match w.fault w.ops with
  | some err => ((false, some err), w.tick)
  | none => ((decide ((w.db.accounts.filter p).length > 0), none), w.tick)

/-- The row `INSERT INTO accounts` of `Create` writes: the listed values and
the column defaults of the table. -/
def newAccountRow (data : UserDB) : AccountRow :=
  { Username := data.Username, Email := data.Email, NumeForum := data.Username,
    NumePrenume := lit "N/A", Password := data.Password, Serial := lit "000000",
    RegisterDate := data.RegisterDate, LoginDate := 0, IP := lit "n/a",
    secret_code := lit "000000", Characters := 0, Admin := 0, Tester := 0, DonateRank := 0,
    AcceptedBy := [], Accepted := 2, Activated := 0, CaractereAcceptate := 0 }

/-- The method `UserRepository.Create`. -/
def UserRepository.Create (data : UserDB) (w : World) : Option GoError × World :=
  match UserRepository.valueExists
      (fun r => r.Username == data.Username || r.Email == data.Email) w with
  | ((_, some err), w1) => (some err, w1)
  | ((exists_, none), w1) =>
    if exists_ then (some "account already exists", w1)
    else withTransaction (fun tx => expectRows (execInsertAccount (newAccountRow data) tx)) w1

/-- The method `UserRepository.Activate`. -/
def UserRepository.Activate (email : GoString) (w : World) : Option GoError × World :=
  withTransaction (fun tx => expectRows
    (execUpdateAccounts (fun r => r.Email == email && r.Activated == 0)
      (fun r => { r with Activated := 2 }) tx)) w

/-- The method `UserRepository.CheckActivation`. -/
def UserRepository.CheckActivation (name : GoString) (w : World) :
    (Bool × Option GoError) × World :=
  match dbGet DB.accounts (fun r => r.Username == name) w with
  | (.error err, w1) => ((false, some err), w1)
  | (.ok row, w1) => ((row.Activated == 2, none), w1)

/-- The method `UserRepository.Verify`. -/
def UserRepository.Verify (data : UserDB) (w : World) : Option GoError × World :=
  match dbGet DB.accounts (fun r => r.Username == data.Username && r.Password == data.Password) w with
  | (.error err, w1) => (some err, w1)
  | (.ok _, w1) => (none, w1)

/-- The method `UserRepository.UpdatePassword`. -/
def UserRepository.UpdatePassword (email password : GoString) (w : World) :
    Option GoError × World :=
  withTransaction (fun tx => expectRows
    (execUpdateAccounts (fun r => r.Email == email)
      (fun r => { r with Password := password }) tx)) w

/-- The method `UserRepository.Fetch`: an error of `DB.Get` other than
`sql.ErrNoRows` leaves `fetch` empty and falls through to the last line. -/
def UserRepository.Fetch (name email : GoString) (w : World) : (Bool × Option GoError) × World :=
  match dbGet DB.accounts (fun r => r.Username == name || r.Email == email) w with
  | (.error err, w1) =>
    if err = ErrNoRows then ((false, none), w1)
    else ((decide (([] : GoString).length ≠ 0), none), w1)
  | (.ok row, w1) => ((decide (row.Username.length ≠ 0), none), w1)

/-- The method `UserRepository.FetchTesterLevel`. -/
def UserRepository.FetchTesterLevel (name : GoString) (w : World) :
    (Bool × Option GoError) × World :=
  match dbGet DB.accounts (fun r => r.Username == name) w with
  | (.error err, w1) => ((false, some err), w1)
  | (.ok row, w1) => ((decide (row.Tester > 0), none), w1)

/-- The method `UserRepository.FetchAdminLevel`. -/
def UserRepository.FetchAdminLevel (name : GoString) (w : World) :
    (Bool × Option GoError) × World :=
  match dbGet DB.accounts (fun r => r.Username == name) w with
  | (.error err, w1) => ((false, some err), w1)
  | (.ok row, w1) => ((decide (row.Admin > 0), none), w1)

/-- The method `UserRepository.CheckForBan`: the query keeps the rows with
`Expire >= NOW()`. -/
def UserRepository.CheckForBan (name : GoString) (w : World) : (Bool × Option GoError) × World :=
  match dbGet DB.blacklist (fun r => r.Username == name && decide (r.Expire ≥ w.now)) w with
  | (.error err, w1) =>
    if err ≠ ErrNoRows then ((false, some err), w1)
    else ((decide (([] : GoString).length > 0), none), w1)
  | (.ok row, w1) => ((decide (row.Username.length > 0), none), w1)

/-! ### Characters, bans and statistics -/

/-- The call `tx.Exec(query, args...)` followed by `RowsAffected`, for a
statement whose effect on the database and whose count of affected rows are
`effect`. -/
def execStatement (effect : World → Nat × DB) (w : World) : (Nat × Option GoError) × World :=
  match w.fault w.ops with
  | some err => ((0, some err), w.tick)
  | none => (((effect w).1, none), { w.tick with db := (effect w).2 })

/-- The call `DB.Select(&dest, query, args...)` for a query that selects from
one table the rows satisfying `p`. -/
def dbSelect {ρ : Type} (table : DB → List ρ) (p : ρ → Bool) (w : World) :
    Except GoError (List ρ) × World :=
  match w.fault w.ops with
  | some err => (.error err, w.tick)
  | none => (.ok ((table w.db).filter p), w.tick)

/-- The statement `UPDATE characters SET ... WHERE ...`: rows satisfying `p`
are replaced by their image under `f`; the count is the number of rows whose
value changed. -/
def updateCharacters (p : CharacterRow → Bool) (f : CharacterRow → CharacterRow) (w : World) :
    Nat × DB :=
  ((w.db.characters.filter (fun r => p r && decide (f r ≠ r))).length,
   { w.db with characters := w.db.characters.map (fun r => if p r then f r else r) })

/-- The statement `DELETE FROM characters WHERE ...`. -/
def deleteCharacters (p : CharacterRow → Bool) (w : World) : Nat × DB :=
  ((w.db.characters.filter p).length,
   { w.db with characters := w.db.characters.filter (fun r => !p r) })

/-- The statement `INSERT INTO characters`. -/
def insertCharacter (row : CharacterRow) (w : World) : Nat × DB :=
  (1, { w.db with characters := w.db.characters ++ [row] })

/-- The statement `INSERT INTO blacklist`. -/
def insertBlacklist (row : BlacklistRow) (w : World) : Nat × DB :=
  (1, { w.db with blacklist := w.db.blacklist ++ [row] })

/-- The statement `UPDATE blacklist SET ... WHERE ...`. -/
def updateBlacklist (p : BlacklistRow → Bool) (f : BlacklistRow → BlacklistRow) (w : World) :
    Nat × DB :=
  ((w.db.blacklist.filter (fun r => p r && decide (f r ≠ r))).length,
   { w.db with blacklist := w.db.blacklist.map (fun r => if p r then f r else r) })

/-- The type `CharacterStatsDB` of `repository/data.go`. -/
structure CharacterStatsDB where
  Name : GoString
  Created : Int
  Level : Int
  PlayingHours : Int
  deriving DecidableEq

/-- The type `GetStatsDB` of `repository/data.go`. -/
structure GetStatsDB where
  Username : GoString
  Admin : Int
  Tester : Int
  DonateRank : Int
  Characters : Int
  LoginDate : Int
  CharactersData : List CharacterStatsDB
  deriving DecidableEq

/-- The method `UserRepository.FetchStats`: the account's columns, then the
owner's characters with `Created >= 0`; `Characters` is overwritten with their
number. -/
def UserRepository.FetchStats (name : GoString) (w : World) :
    (Option GetStatsDB × Option GoError) × World :=
  match dbGet DB.accounts (fun r => r.Username == name) w with
  | (.error err, w1) => ((none, some err), w1)
  | (.ok row, w1) =>
    match dbSelect DB.characters (fun c => c.Username == name && decide (c.Created ≥ 0)) w1 with
    | (.error err, w2) => ((none, some err), w2)
    | (.ok characters, w2) =>
      let data : List CharacterStatsDB :=
        characters.map (fun c => ⟨c.Character, c.Created, c.Level, c.PlayingHours⟩)
      ((some { Username := name, Admin := row.Admin, Tester := row.Tester,
               DonateRank := row.DonateRank, Characters := (data.length : Int),
               LoginDate := row.LoginDate, CharactersData := data }, none), w2)

/-- The type `CharacterDB` of `repository/data.go` (the fields
`CreateCharacter` uses). -/
structure CharacterDB where
  Username : GoString
  Character : GoString
  Age : Int
  Gender : Int
  Origin : GoString
  Skin : Int
  deriving DecidableEq

/-- The row `INSERT INTO characters` of `CreateCharacter` writes: the listed
values and the column defaults of the table. -/
def newCharacterRow (data : CharacterDB) : CharacterRow :=
  { Username := data.Username, Character := data.Character, Created := 0, Status := 0,
    Level := 1, PlayingHours := 0, Age := data.Age, Gender := data.Gender,
    Origin := data.Origin, Skin := data.Skin, AcceptedBy := lit "N/A", JailTime := 0,
    Prisoned := 0, Online := 0 }

/-- The method `UserRepository.CreateCharacter`. -/
def UserRepository.CreateCharacter (data : CharacterDB) (w : World) : Option GoError × World :=
  match dbGet DB.characters (fun c => c.Character == data.Character) w with
  | (.error err, w1) =>
    if err ≠ ErrNoRows then (some err, w1)
    else withTransaction (fun tx => expectRows (execStatement (insertCharacter (newCharacterRow data)) tx)) w1
  | (.ok row, w1) =>
    if row.Character.length > 0 then
      (some ("character with name " ++ textOf data.Character ++ " already exists"), w1)
    else withTransaction (fun tx => expectRows (execStatement (insertCharacter (newCharacterRow data)) tx)) w1

/-- The transaction body of `UserRepository.AcceptCharacter`. -/
def acceptCharacterTx (username characterName acceptedBy : GoString) (tx : World) :
    Option GoError × World :=
  match dbGet DB.accounts (fun r => r.Username == username) tx with
  | (.error err, tx1) => (some err, tx1)
  | (.ok row, tx1) =>
    let charCount := row.Characters
    match expectRows (execStatement
        (updateCharacters (fun c => c.Character == characterName)
          (fun c => { c with Created := 1, Status := 1 })) tx1) with
    | (some err, tx2) => (some err, tx2)
    | (none, tx2) =>
      expectRows (execUpdateAccounts (fun r => r.Username == username)
        (fun r => { r with Characters := charCount + 1, AcceptedBy := acceptedBy,
                           Accepted := 2 }) tx2)

/-- The method `UserRepository.AcceptCharacter`. -/
def UserRepository.AcceptCharacter (username characterName acceptedBy : GoString) (w : World) :
    Option GoError × World :=
  withTransaction (acceptCharacterTx username characterName acceptedBy) w

/-- The method `UserRepository.DeclineCharacter`. -/
def UserRepository.DeclineCharacter (characterName : GoString) (w : World) :
    Option GoError × World :=
  withTransaction (fun tx => expectRows (execStatement
    (deleteCharacters (fun c => c.Character == characterName && c.Status == 0)) tx)) w

/-- The type `BlacklistDB` of `repository/data.go`; `Expire` is the number of
days, a `uint`. -/
structure BlacklistDB where
  IP : GoString
  Username : GoString
  BannedBy : GoString
  Reason : GoString
  Date : GoString
  Expire : Nat
  deriving DecidableEq

/-- The row `INSERT INTO blacklist` of `AddBan` writes: `perm` is 0 and
`expire` is `DATE_ADD(NOW(), INTERVAL ? DAY)`. -/
def newBlacklistRow (data : BlacklistDB) (ip : GoString) (now : Int) : BlacklistRow :=
  { IP := ip, Username := data.Username, BannedBy := data.BannedBy, Reason := data.Reason,
    Date := data.Date, perm := 0, Expire := now + (data.Expire : Int) * 86400 }

/-- The method `UserRepository.AddBan`. -/
def UserRepository.AddBan (data : BlacklistDB) (w : World) : Option GoError × World :=
  match dbGet DB.accounts (fun r => r.Username == data.Username) w with
  | (.error err, w1) => (some err, w1)
  | (.ok row, w1) =>
    if row.IP = [] then (some "can\x27t get IP", w1)
    else
      withTransaction (fun tx => expectRows (execStatement
        (fun x => insertBlacklist (newBlacklistRow data row.IP x.now) x) tx)) w1

/-- The method `UserRepository.Unban`: `expire` becomes
`DATE_SUB(NOW(), INTERVAL 1 SECOND)` on every row of the name. -/
def UserRepository.Unban (name : GoString) (w : World) : Option GoError × World :=
  withTransaction (fun tx => expectRows (execStatement
    (fun x => updateBlacklist (fun r => r.Username == name)
      (fun r => { r with Expire := x.now - 1 }) x) tx)) w

/-- The type `AjailDB` of `repository/data.go`. -/
structure AjailDB where
  Character : GoString
  Prisoned : Int
  JailTime : Int
  deriving DecidableEq

/-- The method `UserRepository.Ajail`. -/
def UserRepository.Ajail (data : AjailDB) (w : World) : Option GoError × World :=
  withTransaction (fun tx => expectRows (execStatement
    (updateCharacters (fun c => c.Character == data.Character)
      (fun c => { c with JailTime := data.JailTime, Prisoned := data.Prisoned })) tx)) w

/-- The method `UserRepository.DeleteExp`. -/
def UserRepository.DeleteExp (w : World) : Option GoError × World :=
  withTransaction (fun tx =>
    match execStatement (deleteCharacters (fun c => c.Created == -1)) tx with
    | ((_, some err), tx1) => (some err, tx1)
    | ((_, none), tx1) => (none, tx1)) w

/-- The comparison `a < b` of two Go strings: lexicographic on the bytes. -/
def stringLess : GoString → GoString → Bool
  | [], [] => false
  | [], _ :: _ => true
  | _ :: _, [] => false
  | a :: as, b :: bs =>
    if a.val < b.val then true else if b.val < a.val then false else stringLess as bs

/-- The function `FetchStaff` passes to `sort.Slice`, on two rows. -/
def staffLess (a b : GetStatsDB) : Bool :=
  if a.Tester < b.Tester then true
  else if a.Tester > b.Tester then false
  else if a.Admin ≠ b.Admin then decide (a.Admin > b.Admin)
  else stringLess a.Username b.Username

/-- The call `sort.Slice(x, less)`, as the insertion sort it runs on short
slices. Where `less` is a strict total order on the elements, as in
`FetchStaff`, every sorting algorithm returns the same slice. -/
def sortSlice {α : Type} (less : α → α → Bool) (x : List α) : List α :=
  x.insertionSort (fun a b => less b a = false)

/-- The rows `SELECT Username, Admin, Tester FROM accounts WHERE Admin > 0 OR
Tester > 0` scans into `[]GetStatsDB`: the other fields keep their zero
value. -/
def staffRows (db : DB) : List GetStatsDB :=
  (db.accounts.filter (fun r => decide (r.Admin > 0) || decide (r.Tester > 0))).map
    (fun r => { Username := r.Username, Admin := r.Admin, Tester := r.Tester, DonateRank := 0,
                Characters := 0, LoginDate := 0, CharactersData := [] })

/-- The method `UserRepository.FetchStaff`. -/
def UserRepository.FetchStaff (w : World) : (List GetStatsDB × Option GoError) × World :=
  match w.fault w.ops with
  | some err => (([], some err), w.tick)
  | none => ((sortSlice staffLess (staffRows w.db), none), w.tick)

/-- The method `UserRepository.FetchMail`. -/
def UserRepository.FetchMail (name : GoString) (w : World) :
    (GoString × Option GoError) × World :=
  match dbGet DB.accounts (fun r => r.Username == name) w with
  | (.error err, w1) =>
    if err = ErrNoRows then (([], none), w1) else (([], some err), w1)
  | (.ok row, w1) => ((row.Email, none), w1)

/-- The method `UserRepository.FetchWaitingCharacters`. -/
def UserRepository.FetchWaitingCharacters (w : World) :
    (List CharacterDB × Option GoError) × World :=
  match dbSelect DB.characters (fun c => c.Created == 0) w with
  | (.error err, w1) => (([], some err), w1)
  | (.ok rows, w1) =>
    ((rows.map (fun c => { Username := c.Username, Character := c.Character, Age := c.Age,
                           Gender := c.Gender, Origin := c.Origin, Skin := 0 }), none), w1)

/-- The method `UserRepository.FetchCharacter`; the columns it does not select
keep their zero value. -/
def UserRepository.FetchCharacter (character : GoString) (w : World) :
    (Option CharacterDB × Option GoError) × World :=
  match dbGet DB.characters (fun c => c.Character == character) w with
  | (.error err, w1) => ((none, some err), w1)
  | (.ok row, w1) =>
    if row.Username = [] ∨ row.Character = [] then
      ((none, some "unexpected empty values fetched"), w1)
    else
      ((some { Username := row.Username, Character := row.Character, Age := 0, Gender := 0,
               Origin := [], Skin := 0 }, none), w1)

/-- The method `UserRepository.FetchBans`. The query of the loop has a
placeholder and is run without an argument, into a `string`: it fails for the
first ban, with the fault of the round trip or else with the error of the SQL
engine. -/
def UserRepository.FetchBans (w : World) : (List BlacklistDB × Option GoError) × World :=
  match dbSelect DB.blacklist (fun r => decide (r.Expire ≥ w.now)) w with
  | (.error err, w1) => (([], some err), w1)
  | (.ok rows, w1) =>
    match rows with
    | [] => (([], none), w1)
    | _ :: _ =>
      match w1.fault w1.ops with
      | some err => (([], some err), w1.tick)
      | none => (([], some "Error 1064 (42000): You have an error in your SQL syntax"), w1.tick)

/-- The text `fmt.Sprintf("SELECT * FROM %s ORDER BY ID DESC LIMIT 100",
logsType)` of `FetchLogs`. -/
def FetchLogsQuery (logsType : GoString) : GoString :=
  lit "SELECT * FROM " ++ logsType ++ lit " ORDER BY ID DESC LIMIT 100"

/-- The method `UserRepository.FetchLogs`, reduced to its error: the query
text is recorded and sent in one round trip; the rows it returns are not
modelled. -/
def UserRepository.FetchLogs (logsType : GoString) (w : World) : Option GoError × World :=
  let q := FetchLogsQuery logsType
  let w0 := w.record (.Queryx q)
  (w0.fault w0.ops, w0.tick)

/-! ## `service/user.go`, `service/auth.go`, `service/email.go`

Every method of a service records its call before it does its work. -/

/-- The function `hashWP` of `service/user.go`. -/
def hashWP (lib : Lib) (payload : GoString) : GoString :=
  hexEncodeToString (lib.whirlpool payload)

/-- The method `UserService.Create`. -/
def UserService.Create (lib : Lib) (data : RegisterAPI) (w : World) : Option GoError × World :=
  UserRepository.Create
    { Username := data.Username, Email := data.Email, Password := hashWP lib data.Password,
      RegisterDate := lib.formatDateTime w.now } (w.record (.Create data))

/-- The method `UserService.ActivateAccount`. -/
def UserService.ActivateAccount (email : GoString) (w : World) : Option GoError × World :=
  UserRepository.Activate email (w.record (.ActivateAccount email))

/-- The method `UserService.CheckActivation`. -/
def UserService.CheckActivation (name : GoString) (w : World) :
    (Bool × Option GoError) × World :=
  UserRepository.CheckActivation name (w.record (.CheckActivation name))

/-- The method `UserService.Verify`. -/
def UserService.Verify (lib : Lib) (data : LoginAPI) (w : World) : Option GoError × World :=
  UserRepository.Verify
    { Username := data.Username, Email := [], Password := hashWP lib data.Password,
      RegisterDate := [] } (w.record (.Verify data))

/-- The method `UserService.UpdatePassword`. -/
def UserService.UpdatePassword (lib : Lib) (email password : GoString) (w : World) :
    Option GoError × World :=
  UserRepository.UpdatePassword email (hashWP lib password)
    (w.record (.UpdatePassword email password))

/-- The method `UserService.Fetch`. -/
def UserService.Fetch (name email : GoString) (w : World) : (Bool × Option GoError) × World :=
  UserRepository.Fetch name email (w.record (.Fetch name email))

/-- The method `UserService.IsTester`. -/
def UserService.IsTester (name : GoString) (w : World) : (Bool × Option GoError) × World :=
  UserRepository.FetchTesterLevel name (w.record (.IsTester name))

/-- The method `UserService.IsAdmin`. -/
def UserService.IsAdmin (name : GoString) (w : World) : (Bool × Option GoError) × World :=
  UserRepository.FetchAdminLevel name (w.record (.IsAdmin name))

/-- The method `UserService.CheckForBan`. -/
def UserService.CheckForBan (name : GoString) (w : World) : (Bool × Option GoError) × World :=
  UserRepository.CheckForBan name (w.record (.CheckForBan name))

/-- The call `sess.Get(key)`: `none` is `nil`. -/
def sessGet (sess : List (String × SessionValue)) (key : String) : Option SessionValue :=
  sess.lookup key

/-- The call `sess.Set(key, val)`. -/
def sessSet (sess : List (String × SessionValue)) (key : String) (val : SessionValue) :
    List (String × SessionValue) :=
  (key, val) :: sess.filter (fun kv => kv.1 != key)

/-- The result `(name, isAdmin, isTester, err)` of `CheckSession`. -/
structure SessionInfo where
  name : GoString
  isAdmin : Bool
  isTester : Bool
  err : Option GoError
  deriving DecidableEq

/-- The method `AuthService.CheckSession`. When the assertion of `name` fails,
`name` is empty in the text of the error. -/
def AuthService.CheckSession (w : World) : SessionInfo × World :=
  let w0 := w.record .CheckSession
  match w0.fault w0.ops with
  | some err => (⟨[], false, false, some err⟩, w0.tick)
  | none =>
    let sess := w0.session
    match sessGet sess "name" with
    | some (.bool _) =>
      (⟨[], false, false, some "can't type cast to string session for user "⟩, w0.tick)
    | r =>
      let name : GoString := match r with
        | some (.str s) => s
        | _ => []
      match sessGet sess "is_admin" with
      | some (.str _) =>
        (⟨name, false, false,
            some ("can't type cast to bool is_admin for user " ++ textOf name)⟩, w0.tick)
      | r1 =>
        let isAdmin : Bool := match r1 with
          | some (.bool b) => b
          | _ => false
        match sessGet sess "is_tester" with
        | some (.str _) =>
          (⟨name, isAdmin, false,
              some ("can't type cast to bool is_tester for user " ++ textOf name)⟩, w0.tick)
        | r2 =>
          let isTester : Bool := match r2 with
            | some (.bool b) => b
            | _ => false
          (⟨name, isAdmin, isTester, none⟩, w0.tick)

/-- The method `AuthService.SaveSession`: `Store.Get`, three `Set`, `Save`.
The expiry `SetExpiry` gives the session is not modelled. -/
def AuthService.SaveSession (name : GoString) (isTester isAdmin : Bool) (w : World) :
    Option GoError × World :=
  let w0 := w.record (.SaveSession name isTester isAdmin)
  match w0.fault w0.ops with
  | some err => (some err, w0.tick)
  | none =>
    let w1 := w0.tick
    let sess := sessSet (sessSet (sessSet w1.session "name" (.str name))
      "is_tester" (.bool isTester)) "is_admin" (.bool isAdmin)
    match w1.fault w1.ops with
    | some err => (some err, w1.tick)
    | none => (none, { w1.tick with session := sess })

/-- The method `EmailService.SendEmail`: the outcome of the delivery is that
of the round trip to the mail relay. -/
def EmailService.SendEmail (recipient subject body : GoString) (w : World) :
    Option GoError × World :=
  let w0 := w.record (.SendEmail recipient subject body)
  (w0.fault w0.ops, w0.tick)

/-- The constant `ConfirmAccountEmail` of `service/email_html.go` with its two
`%s` filled in. -/
def ConfirmAccountEmail (username link : GoString) : GoString :=
  lit "\n<!DOCTYPE html>\n<html lang=\x22en\x22>\n<head>\n    <meta charset=\x22UTF-8\x22>\n    <meta name=\x22viewport\x22 content=\x22width=device-width, initial-scale=1.0\x22>\n</head>\n\tConfirm "
    ++ username ++ lit " " ++ link ++ lit "\n<body>\n    \n</body>\n</html>\n"

/-! ### `service/user.go` (statistics, bans), `service/character.go`,
`service/auth.go` (`Authenticate`), `service/auth_middleware.go` -/

/-- The method `UserService.GetStats`. -/
def UserService.GetStats (name : GoString) (w : World) :
    (Option GetStatsAPI × Option GoError) × World :=
  match UserRepository.FetchStats name (w.record (.GetStats name)) with
  | ((_, some err), w1) => ((none, some err), w1)
  | ((none, none), w1) => ((none, none), w1)
  | ((some data, none), w1) =>
    ((some { Username := data.Username, Admin := data.Admin, Tester := data.Tester,
             DonateRank := data.DonateRank, Characters := data.Characters,
             LastLogin := data.LoginDate,
             CharacterList := data.CharactersData.map
               (fun c => ⟨c.Name, c.Created, c.Level, c.PlayingHours⟩) }, none), w1)

/-- The method `UserService.Ban`. -/
def UserService.Ban (lib : Lib) (data : BanAPI) (w : World) : Option GoError × World :=
  if data.AdminName = [] ∨ data.Username = [] ∨ data.Reason = [] then
    (some "fields can\x27t be empty", w.record (.Ban data))
  else if data.Expire ≤ 0 ∨ data.Expire ≥ 30 then
    (some "invalid expire value", w.record (.Ban data))
  else
    UserRepository.AddBan
      { IP := [], Username := data.Username, BannedBy := data.AdminName, Reason := data.Reason,
        Date := lib.formatDateTime w.now, Expire := data.Expire } (w.record (.Ban data))

/-- The method `UserService.Unban`. -/
def UserService.Unban (data : BanAPI) (w : World) : Option GoError × World :=
  UserRepository.Unban data.Username (w.record (.Unban data))

/-- The method `CharacterService.Create`. -/
def CharacterService.Create (data : CharacterDataAPI) (w : World) : Option GoError × World :=
  UserRepository.CreateCharacter
    { Username := data.Username, Character := data.CharacterName, Age := data.CharacterAge,
      Gender := data.CharacterGender, Origin := data.CharacterOrigin,
      Skin := if data.CharacterGender = 1 then 98 else 93 } (w.record (.CharacterCreate data))

/-- The method `AuthService.Authenticate`. -/
def AuthService.Authenticate (w : World) : Option GoError × World :=
  match AuthService.CheckSession (w.record .Authenticate) with
  | (info, w1) =>
    match info.err with
    | some err => (some err, w1)
    | none =>
      if info.name = [] then
        (some "WaitingList(): session doesn\x27t exist: user is not logged in", w1)
      else if !info.isAdmin || !info.isTester then
        (some ("WaitingList(): user " ++ textOf info.name ++ " doesn\x27t have admin rights"),
          w1)
      else (none, w1)

/-- The method `UserService.GetStaff`. -/
def UserService.GetStaff (w : World) : (List GetStaffAPI × Option GoError) × World :=
  match UserRepository.FetchStaff (w.record .GetStaff) with
  | ((_, some err), w1) => (([], some err), w1)
  | ((staff, none), w1) =>
    ((staff.map (fun c =>
        { Username := c.Username, Role := if (c.Admin : Int) ≠ 0 then lit "Admin" else lit "Tester" }),
      none), w1)

/-- The method `UserService.FetchMail`. -/
def UserService.FetchMail (name : GoString) (w : World) : (GoString × Option GoError) × World :=
  UserRepository.FetchMail name (w.record (.FetchMail name))

/-- The method `UserService.FetchCharacter`. -/
def UserService.FetchCharacter (name : GoString) (w : World) :
    (Option CharacterAPI × Option GoError) × World :=
  if name = [] then ((none, some "character name can\x27t be empty"), w.record (.FetchCharacter name))
  else
    match UserRepository.FetchCharacter name (w.record (.FetchCharacter name)) with
    | ((_, some err), w1) => ((none, some err), w1)
    | ((none, none), w1) => ((none, none), w1)
    | ((some fetch, none), w1) =>
      ((some { Username := fetch.Username, CharacterName := fetch.Character, AcceptedBy := [] },
        none), w1)

/-- The method `UserService.BanList`. -/
def UserService.BanList (w : World) : (List BanAPI × Option GoError) × World :=
  match UserRepository.FetchBans (w.record .BanList) with
  | ((_, some err), w1) => (([], some err), w1)
  | ((bans, none), w1) =>
    ((bans.map (fun ban =>
        { Username := ban.Username, Expire := ban.Expire, Reason := ban.Reason,
          AdminName := ban.BannedBy, Characters := [] }), none), w1)

/-- The method `UserService.Ajail`: the minutes become seconds, in `int`
arithmetic. -/
def UserService.Ajail (data : AjailAPI) (w : World) : Option GoError × World :=
  UserRepository.Ajail
    { Character := data.Character, Prisoned := 0, JailTime := wrapInt64 (data.Time * 60) }
    (w.record (.Ajail data))

/-- The slice `logsType` of `UserService.Logs`. -/
def logsType : List GoString :=
  [lit "logs_ajail", lit "logs_ban", lit "logs_warn", lit "logs_kick", lit "logs_unban",
   lit "logs_charity", lit "hit_logs", lit "logs_ck", lit "logs_transfer",
   lit "logs_givecash", lit "logs_givedrug", lit "logs_givegun", lit "logs_pay",
   lit "logs_ask", lit "logs_report", lit "namechanges"]

/-- The loop of `UserService.Logs` over `logsType`: the value of `ok` after
it; `none` when a call of `strings.EqualFold` does not return. -/
def logsTypeMatches (lib : Lib) (s : GoString) : List GoString → Option Bool
  | [] => some false
  | l :: rest =>
    match EqualFold lib s l with
    | none => none
    | some true => some true
    | some false => logsTypeMatches lib s rest

/-- The method `UserService.Logs`; `none` when it does not return. -/
def UserService.Logs (lib : Lib) (data : LogsAPI) (w : World) : Option (Option GoError × World) :=
  match logsTypeMatches lib data.LogType logsType with
  | none => none
  | some false => some (some "invalid log type", w.record (.Logs data))
  | some true => some (UserRepository.FetchLogs data.LogType (w.record (.Logs data)))

/-- The method `CharacterService.FetchWaiting`. -/
def CharacterService.FetchWaiting (w : World) : (List CharacterDataAPI × Option GoError) × World :=
  match UserRepository.FetchWaitingCharacters (w.record .FetchWaiting) with
  | ((_, some err), w1) => (([], some err), w1)
  | ((dataList, none), w1) =>
    ((dataList.map (fun data =>
        { Username := data.Username, CharacterName := data.Character, CharacterAge := data.Age,
          CharacterGender := data.Gender, CharacterOrigin := data.Origin }), none), w1)

/-- The method `CharacterService.AcceptCharacter`. -/
def CharacterService.AcceptCharacter (data : CharacterAPI) (w : World) : Option GoError × World :=
  if data.CharacterName = [] then
    (some "unexpected character name data", w.record (.AcceptCharacter data))
  else
    UserRepository.AcceptCharacter data.Username data.CharacterName data.AcceptedBy
      (w.record (.AcceptCharacter data))

/-- The method `CharacterService.DeclineCharacter`. -/
def CharacterService.DeclineCharacter (data : RejectCharacterAPI) (w : World) :
    Option GoError × World :=
  if data.CharacterName = [] then
    (some "unexpected character name data", w.record (.DeclineCharacter data))
  else
    UserRepository.DeclineCharacter data.CharacterName (w.record (.DeclineCharacter data))

/-! ## `handler/handlers.go`

A handler takes what `fiber.Ctx` gives it (the parsed body, `none` when
`BodyParser` fails; the query parameters, empty when absent) and the world,
and returns the response with the world after it. Calls to the logger are
left out. The goroutine that sends a mail and the receive from `EmailErrors`
that waits for it are one step: the handler receives the error of its own
`SendEmail`. -/

/-- The type `BaseResponse` of `model/models.go`. -/
structure BaseResponse where
  Error : Bool
  Message : String
  deriving DecidableEq

/-- The body of a response. -/
inductive Body where
  | json (br : BaseResponse)
  | statusText
  | redirect (location : GoString)
  | waiting (list : List CharacterDataAPI)
  | character (br : BaseResponse) (data : Option CharacterAPI)
  | bans (list : List BanAPI)
  | logs (br : BaseResponse)
  deriving DecidableEq

/-- A response: HTTP status and body. -/
structure Response where
  status : Nat
  body : Body
  deriving DecidableEq

/-- The call `ctx.Status(status).JSON(br)`. -/
def jsonResponse (status : Nat) (br : BaseResponse) : Response := ⟨status, .json br⟩

/-- The method `UserHandler.Register`. -/
def UserHandler.Register (lib : Lib) (body : Option RegisterAPI) (w : World) : Response × World :=
  match body with
  | none => (jsonResponse 422 ⟨true, "A aparut o eroare interna."⟩, w)
  | some registerData =>
    match registerData.Validate lib with
    | some err => (jsonResponse 422 ⟨true, ErrorMsg err⟩, w)
    | none =>
      match UserService.Fetch registerData.Username registerData.Email w with
      | ((_, some _), w1) =>
        (jsonResponse 409 ⟨true, "Exista deja un cont cu acest nume sau aceasta adresa de mail."⟩, w1)
      | ((fetched, none), w1) =>
        if fetched then
          (jsonResponse 409
            ⟨true, "Exista deja un cont cu acest nume sau aceasta adresa de mail."⟩, w1)
        else
          match UserService.Create lib registerData w1 with
          | (some _, w2) => (jsonResponse 500 ⟨true, "A aparut o eroare interna."⟩, w2)
          | (none, w2) =>
            let timestamp := w2.now
            let token := GenerateToken registerData.Email timestamp
            let confirmationLink :=
              lit "https://app.ro/internal-ucp-api/v1/confirm?email=" ++ registerData.Email
                ++ lit "&token=" ++ token ++ lit "&timestamp=" ++ FormatInt timestamp
            let emailBody := ConfirmAccountEmail registerData.Username confirmationLink
            match EmailService.SendEmail registerData.Email (lit "Confirmare cont UCP")
                emailBody w2 with
            | (some _, w3) =>
              (jsonResponse 500 ⟨true, "Nu a putut fi trimis mailul catre adresa oferita."⟩, w3)
            | (none, w3) => (jsonResponse 201 ⟨false, ""⟩, w3)

/-- The method `UserHandler.Confirm`; `email`, `token` and `timestampStr` are
the query parameters of those names. -/
def UserHandler.Confirm (email token timestampStr : GoString) (w : World) : Response × World :=
  if email = [] ∨ token = [] ∨ timestampStr = [] then
    (jsonResponse 422 ⟨true, "Parametrii trebuie completati."⟩, w)
  else
    match ParseInt timestampStr with
    | none => (jsonResponse 400 ⟨true, "A aparut o eroare interna."⟩, w)
    | some timestamp =>
      if !ValidateToken email token timestamp then
        (jsonResponse 401 ⟨true, "Token-ul este incorect."⟩, w)
      else if wrapInt64 (w.now - timestamp) > 15 * 60 then
        (jsonResponse 401 ⟨true, "Token-ul a expirat."⟩, w)
      else
        match UserService.ActivateAccount email w with
        | (some _, w1) => (jsonResponse 500 ⟨true, "Contul nu poate fi activat."⟩, w1)
        | (none, w1) => (⟨302, .redirect (lit "/")⟩, w1)

/-- The method `UserHandler.Login`. -/
def UserHandler.Login (lib : Lib) (body : Option LoginAPI) (w : World) : Response × World :=
  match body with
  | none => (jsonResponse 422 ⟨true, "Numele sau parola sunt gresite."⟩, w)
  | some loginData =>
    match loginData.Validate with
    | some _ => (jsonResponse 422 ⟨true, "Numele sau parola sunt gresite."⟩, w)
    | none =>
      match UserService.CheckForBan loginData.Username w with
      | ((_, some _), w1) => (jsonResponse 200 ⟨true, "Numele sau parola sunt gresite."⟩, w1)
      | ((banned, none), w1) =>
        if banned then (jsonResponse 200 ⟨true, "You are banned."⟩, w1)
        else
          match UserService.Fetch loginData.Username [] w1 with
          | ((_, some _), w2) => (jsonResponse 409 ⟨true, "Numele sau parola sunt gresite."⟩, w2)
          | ((fetched, none), w2) =>
            if !fetched then (jsonResponse 409 ⟨true, "Numele sau parola sunt gresite."⟩, w2)
            else
              match UserService.CheckActivation loginData.Username w2 with
              | ((_, some _), w3) =>
                (jsonResponse 409 ⟨true, "Contul nu este activat. Verifica adresa de email."⟩, w3)
              | ((activated, none), w3) =>
                if !activated then
                  (jsonResponse 409
                    ⟨true, "Contul nu este activat. Verifica adresa de email."⟩, w3)
                else
                  match UserService.Verify lib loginData w3 with
                  | (some _, w4) =>
                    (jsonResponse 401 ⟨true, "Numele sau parola sunt gresite."⟩, w4)
                  | (none, w4) =>
                    match UserService.IsTester loginData.Username w4 with
                    | ((isTester, _), w5) =>
                      match UserService.IsAdmin loginData.Username w5 with
                      | ((_, some _), w6) => (⟨500, .statusText⟩, w6)
                      | ((isAdmin, none), w6) =>
                        match AuthService.SaveSession loginData.Username isTester isAdmin w6 with
                        | (some _, w7) => (⟨500, .statusText⟩, w7)
                        | (none, w7) => (jsonResponse 202 ⟨false, ""⟩, w7)

/-- The call `ctx.QueryInt(key)` of fiber on the value of the parameter:
`strconv.Atoi`, and 0 when it fails. -/
def QueryInt (value : GoString) : Int := (ParseInt value).getD 0

/-- The method `UserHandler.ConfirmReset`; `email`, `token` and `timestampStr`
are the query parameters of those names. -/
def UserHandler.ConfirmReset (lib : Lib) (email token timestampStr : GoString) (w : World) :
    Response × World :=
  let resetPwd : UpdatePassword :=
    { Email := email, Token := token, Timestamp := QueryInt timestampStr, NewPassword := [] }
  if !ParseAddress lib resetPwd.Email ∨ resetPwd.Token = [] ∨ resetPwd.Timestamp = 0 then
    (jsonResponse 400 ⟨true, "A fost intampinata o eroare interna."⟩, w)
  else
    let ts := w.now
    if wrapInt64 (ts - resetPwd.Timestamp) > 15 * 60 then
      (jsonResponse 400 ⟨true, "Token-ul este expirat."⟩, w)
    else if !ValidateToken resetPwd.Email resetPwd.Token resetPwd.Timestamp then
      (jsonResponse 400 ⟨true, "Token-ul este invalid."⟩, w)
    else
      (⟨302, .redirect (lit "/password-reset?email=" ++ resetPwd.Email ++ lit "&token="
        ++ resetPwd.Token ++ lit "&timestamp=" ++ FormatInt resetPwd.Timestamp)⟩, w)

/-- The method `UserHandler.UpdatePassword`. -/
def UserHandler.UpdatePassword (lib : Lib) (body : Option UpdatePassword) (w : World) :
    Response × World :=
  match body with
  | none => (jsonResponse 422 ⟨true, "A fost intampinata o eroare interna."⟩, w)
  | some resetPwd =>
    match resetPwd.Validate lib with
    | some err => (jsonResponse 422 ⟨true, ErrorMsg err⟩, w)
    | none =>
      let ts := w.now
      if wrapInt64 (ts - resetPwd.Timestamp) > 15 * 60 then
        (jsonResponse 400 ⟨true, "Token-ul este expirat."⟩, w)
      else if !ValidateToken resetPwd.Email resetPwd.Token resetPwd.Timestamp then
        (jsonResponse 400 ⟨true, "Token-ul este invalid."⟩, w)
      else
        match UserService.UpdatePassword lib resetPwd.Email resetPwd.NewPassword w with
        | (some _, w1) => (jsonResponse 500 ⟨true, "A fost intampinata o eroare interna."⟩, w1)
        | (none, w1) => (jsonResponse 200 ⟨false, ""⟩, w1)

/-- The method `Middleware.EnsurePrivilege`: the response that stops the
request, or `none` for `ctx.Next()`. -/
def Middleware.EnsurePrivilege (w : World) : Option Response × World :=
  match AuthService.CheckSession w with
  | (info, w1) =>
    match info.err with
    | some _ => (some (jsonResponse 500 ⟨true, "Error checking for session"⟩), w1)
    | none =>
      if info.name = [] ∨ (!info.isAdmin && !info.isTester) then
        (some (jsonResponse 200
          ⟨true, "You must have correct privileges to access this resource"⟩), w1)
      else (none, w1)

/-- The constant `ResetPasswordEmail` of `service/email_html.go` with its `%s`
filled in. -/
def ResetPasswordEmail (link : GoString) : GoString :=
  lit "\n<!DOCTYPE html>\n<html lang=\x22en\x22>\n<head>\n    <meta charset=\x22UTF-8\x22>\n    <meta name=\x22viewport\x22 content=\x22width=device-width, initial-scale=1.0\x22>\n</head>\n\n<body>\n    Reset "
    ++ link ++ lit "\n</body>\n</html>\n"

/-- The method `UserHandler.ResetRequest`; `email` is the query parameter of
that name. -/
def UserHandler.ResetRequest (lib : Lib) (email : GoString) (w : World) : Response × World :=
  if !ParseAddress lib email then
    (jsonResponse 400 ⟨true, "Adresa de email este invalida."⟩, w)
  else
    let timestamp := w.now
    let token := GenerateToken email timestamp
    let confirmationLink :=
      lit "https://app.ro/internal-ucp-api/v1/confirm-reset?email=" ++ email
        ++ lit "&token=" ++ token ++ lit "&timestamp=" ++ FormatInt timestamp
    let emailBody := ResetPasswordEmail confirmationLink
    match EmailService.SendEmail email (lit "Confirmare cont UCP") emailBody w with
    | (some _, w1) =>
      (jsonResponse 500 ⟨true, "Nu a putut fi trimis mailul catre adresa oferita."⟩, w1)
    | (none, w1) => (jsonResponse 200 ⟨false, ""⟩, w1)

/-- The method `UserHandler.CreateCharacter`; `none` is a run-time panic (of
`Validate`). -/
def UserHandler.CreateCharacter (lib : Lib) (body : Option CharacterDataAPI) (w : World) :
    Option (Response × World) :=
  match AuthService.CheckSession w with
  | (info, w1) =>
    match info.err with
    | some _ => some (jsonResponse 500 ⟨true, "A fost intampinata o eroare interna."⟩, w1)
    | none =>
      if info.name = [] then
        some (jsonResponse 401 ⟨true, "A fost intampinata o eroare interna."⟩, w1)
      else
        match body with
        | none => some (jsonResponse 422 ⟨true, "A fost intampinata o eroare interna."⟩, w1)
        | some createChar =>
          match UserService.GetStats info.name w1 with
          | ((_, some _), w2) =>
            some (jsonResponse 500 ⟨true, "A fost intampinata o eroare interna."⟩, w2)
          | ((stats, none), w2) =>
            if (match stats with
                | some st => decide (st.Characters ≥ 5)
                | none => false) then
              some (jsonResponse 409 ⟨true, "Ai atins numarul maxim de caractere."⟩, w2)
            else
              match createChar.Validate lib with
              | none => none
              | some (some err) => some (jsonResponse 422 ⟨true, ErrorMsg err⟩, w2)
              | some none =>
                match CharacterService.Create { createChar with Username := info.name } w2 with
                | (some _, w3) =>
                  some (jsonResponse 500
                    ⟨true, "Un caracter a fost deja creat cu acest nume."⟩, w3)
                | (none, w3) => some (jsonResponse 201 ⟨false, ""⟩, w3)

/-- The constant `AcceptCharacterEmail` of `service/email_html.go` with its
three `%s` filled in. -/
def AcceptCharacterEmail (username character date : GoString) : GoString :=
  lit "\n<!DOCTYPE html>\n<html lang=\x22en\x22>\n<head>\n    <meta charset=\x22UTF-8\x22>\n    <meta name=\x22viewport\x22 content=\x22width=device-width, initial-scale=1.0\x22>\n</head>\n\n<body>\n    Accept "
    ++ username ++ lit " " ++ character ++ lit " " ++ date ++ lit "\n</body>\n</html>\n"

/-- The constant `DeclineCharacterEmail` of `service/email_html.go` with its
five `%s` filled in. -/
def DeclineCharacterEmail (username character date reason reviewer : GoString) : GoString :=
  lit "\n<!DOCTYPE html>\n<html lang=\x22en\x22>\n<head>\n    <meta charset=\x22UTF-8\x22>\n    <meta name=\x22viewport\x22 content=\x22width=device-width, initial-scale=1.0\x22>\n</head>\n\n<body>\n    Decline "
    ++ username ++ lit " " ++ character ++ lit " " ++ date ++ lit " " ++ reason ++ lit " "
    ++ reviewer ++ lit "\n</body>\n</html>\n"

/-- The method `UserHandler.WaitingList`. -/
def UserHandler.WaitingList (w : World) : Response × World :=
  match AuthService.CheckSession w with
  | (info, w1) =>
    match info.err with
    | some _ => (⟨500, .statusText⟩, w1)
    | none =>
      if info.name = [] then (⟨401, .statusText⟩, w1)
      else if !info.isAdmin && !info.isTester then (⟨401, .statusText⟩, w1)
      else
        match CharacterService.FetchWaiting w1 with
        | ((_, some _), w2) => (⟨401, .statusText⟩, w2)
        | ((list, none), w2) => (⟨200, .waiting list⟩, w2)

/-- The method `UserHandler.AcceptCharacter`. The goroutine that sends the mail
is one step after `FetchMail`; its error is only logged. -/
def UserHandler.AcceptCharacter (lib : Lib) (body : Option CharacterAPI) (w : World) :
    Response × World :=
  match AuthService.CheckSession w with
  | (info, w1) =>
    match info.err with
    | some _ => (jsonResponse 500 ⟨true, "Caracterul nu a putut fi acceptat."⟩, w1)
    | none =>
      if info.name = [] then
        (jsonResponse 401 ⟨true, "Caracterul nu a putut fi acceptat."⟩, w1)
      else if !info.isAdmin && !info.isTester then
        (jsonResponse 401 ⟨true, "Caracterul nu a putut fi acceptat."⟩, w1)
      else
        match body with
        | none => (jsonResponse 422 ⟨true, "Caracterul nu a putut fi acceptat."⟩, w1)
        | some parsed =>
          let acceptChar : CharacterAPI := { parsed with AcceptedBy := info.name }
          match CharacterService.AcceptCharacter acceptChar w1 with
          | (some _, w2) => (jsonResponse 500 ⟨true, "Caracterul nu a putut fi acceptat."⟩, w2)
          | (none, w2) =>
            match UserService.FetchMail acceptChar.Username w2 with
            | ((_, some _), w3) =>
              (jsonResponse 500 ⟨true, "Caracterul nu a putut fi acceptat."⟩, w3)
            | ((email, none), w3) =>
              let emailBody := AcceptCharacterEmail acceptChar.Username acceptChar.CharacterName
                (lib.formatMinute w3.now)
              (jsonResponse 200 ⟨false, ""⟩,
                (EmailService.SendEmail email (lit "SA-RP: Caracter acceptat") emailBody w3).2)

/-- The method `UserHandler.RejectCharacter`. The goroutine that sends the mail
is one step after `FetchMail`; its error is only logged. -/
def UserHandler.RejectCharacter (lib : Lib) (body : Option RejectCharacterAPI) (w : World) :
    Response × World :=
  match AuthService.CheckSession w with
  | (info, w1) =>
    match info.err with
    | some _ => (jsonResponse 500 ⟨true, "Caracterul nu a putut fi refuzat"⟩, w1)
    | none =>
      if info.name = [] then
        (jsonResponse 401 ⟨true, "Caracterul nu a putut fi refuzat"⟩, w1)
      else if !info.isAdmin && !info.isTester then
        (jsonResponse 401 ⟨true, "Caracterul nu a putut fi refuzat"⟩, w1)
      else
        match body with
        | none => (jsonResponse 422 ⟨true, "Caracterul nu a putut fi refuzat"⟩, w1)
        | some declineChar =>
          match CharacterService.DeclineCharacter declineChar w1 with
          | (some _, w2) => (jsonResponse 500 ⟨true, "Caracterul nu a putut fi refuzat"⟩, w2)
          | (none, w2) =>
            match UserService.FetchMail declineChar.Username w2 with
            | ((_, some _), w3) =>
              (jsonResponse 500 ⟨true, "Caracterul nu a putut fi refuzat"⟩, w3)
            | ((email, none), w3) =>
              let emailBody := DeclineCharacterEmail declineChar.Username
                declineChar.CharacterName (lib.formatMinute w3.now) declineChar.Reason info.name
              (jsonResponse 200 ⟨false, ""⟩,
                (EmailService.SendEmail email (lit "SA-RP: Caracter refuzat") emailBody w3).2)

/-- The method `UserHandler.FetchCharacter`. -/
def UserHandler.FetchCharacter (body : Option CharacterAPI) (w : World) : Response × World :=
  match AuthService.CheckSession w with
  | (info, w1) =>
    match info.err with
    | some _ => (jsonResponse 500 ⟨true, "Caracterul nu a putut fi gasit."⟩, w1)
    | none =>
      if info.name = [] then (jsonResponse 401 ⟨true, "Caracterul nu a putut fi gasit."⟩, w1)
      else if !info.isAdmin then
        (jsonResponse 401 ⟨true, "Caracterul nu a putut fi gasit."⟩, w1)
      else
        match body with
        | none => (jsonResponse 422 ⟨true, "Caracterul nu a putut fi gasit."⟩, w1)
        | some data =>
          match UserService.FetchCharacter data.CharacterName w1 with
          | ((_, some _), w2) => (jsonResponse 404 ⟨true, "Caracterul nu a putut fi gasit."⟩, w2)
          | ((fetchData, none), w2) => (⟨200, .character ⟨false, ""⟩ fetchData⟩, w2)

/-- The method `UserHandler.BanList`. -/
def UserHandler.BanList (w : World) : Response × World :=
  match AuthService.CheckSession w with
  | (info, w1) =>
    match info.err with
    | some _ => (⟨500, .statusText⟩, w1)
    | none =>
      if info.name = [] then (⟨401, .statusText⟩, w1)
      else if !info.isAdmin then (⟨401, .statusText⟩, w1)
      else
        match UserService.BanList w1 with
        | ((_, some _), w2) => (⟨404, .statusText⟩, w2)
        | ((bans, none), w2) => (⟨200, .bans bans⟩, w2)

/-- The method `UserHandler.Ban`. -/
def UserHandler.Ban (lib : Lib) (body : Option BanAPI) (w : World) : Response × World :=
  match AuthService.CheckSession w with
  | (info, w1) =>
    match info.err with
    | some _ => (jsonResponse 500 ⟨true, "Jucatorul nu a putut fi banat."⟩, w1)
    | none =>
      if info.name = [] then (jsonResponse 401 ⟨true, "Jucatorul nu a putut fi banat."⟩, w1)
      else if !info.isAdmin then
        (jsonResponse 401 ⟨true, "Jucatorul nu a putut fi banat."⟩, w1)
      else
        match body with
        | none => (jsonResponse 422 ⟨true, "Jucatorul nu a putut fi banat."⟩, w1)
        | some parsed =>
          match UserService.Ban lib { parsed with AdminName := info.name } w1 with
          | (some _, w2) => (jsonResponse 404 ⟨true, "Jucatorul nu a putut fi banat."⟩, w2)
          | (none, w2) => (jsonResponse 200 ⟨false, ""⟩, w2)

/-- The method `UserHandler.Unban`. -/
def UserHandler.Unban (body : Option BanAPI) (w : World) : Response × World :=
  match AuthService.CheckSession w with
  | (info, w1) =>
    match info.err with
    | some _ => (jsonResponse 500 ⟨true, "Jucatorul nu a putut fi debanat."⟩, w1)
    | none =>
      if info.name = [] then (jsonResponse 401 ⟨true, "Jucatorul nu a putut fi debanat."⟩, w1)
      else if !info.isAdmin then
        (jsonResponse 401 ⟨true, "Jucatorul nu a putut fi debanat."⟩, w1)
      else
        match body with
        | none => (jsonResponse 422 ⟨true, "Jucatorul nu a putut fi debanat."⟩, w1)
        | some parsed =>
          let data : BanAPI := { parsed with AdminName := info.name }
          if data.Username = [] then
            (jsonResponse 422 ⟨true, "Jucatorul nu a putut fi debanat."⟩, w1)
          else
            match UserService.Unban data w1 with
            | (some _, w2) => (jsonResponse 404 ⟨true, "Jucatorul nu a putut fi debanat."⟩, w2)
            | (none, w2) => (jsonResponse 200 ⟨false, ""⟩, w2)

/-- The method `UserHandler.Ajail`: it reads the name of the session and
checks neither the name nor a role flag. -/
def UserHandler.Ajail (body : Option AjailAPI) (w : World) : Response × World :=
  match AuthService.CheckSession w with
  | (info, w1) =>
    match info.err with
    | some _ => (jsonResponse 500 ⟨true, "Jucatorul nu a putut fi sanctionat."⟩, w1)
    | none =>
      match body with
      | none => (jsonResponse 422 ⟨true, "Jucatorul nu a putut fi sanctionat."⟩, w1)
      | some parsed =>
        let data : AjailAPI := { parsed with AdminName := info.name }
        if data.Character = [] ∨ data.Reason = [] ∨ data.Time = 0 then
          (jsonResponse 422 ⟨true, "Unul sau mai multe campuri nu sunt completate."⟩, w1)
        else
          match UserService.Ajail data w1 with
          | (some _, w2) => (jsonResponse 404 ⟨true, "Jucatorul nu a putut fi sanctionat."⟩, w2)
          | (none, w2) => (jsonResponse 200 ⟨false, ""⟩, w2)

/-- The method `UserHandler.Logs`: it does not read the session; `none` when
`UserService.Logs` does not return. -/
def UserHandler.Logs (lib : Lib) (body : Option LogsAPI) (w : World) :
    Option (Response × World) :=
  match body with
  | none => some (jsonResponse 422 ⟨true, "Log-urile nu au putut fi obtinute."⟩, w)
  | some data =>
    match UserService.Logs lib data w with
    | none => none
    | some (some _, w1) =>
      some (jsonResponse 500 ⟨true, "Log-urile nu au putut fi obtinute."⟩, w1)
    | some (none, w1) => some (⟨200, .logs ⟨false, ""⟩⟩, w1)

/-- A request to one of the routes `SetupRoutes` of `server.go` registers
under `/restricted` for a handler that performs an action, with what
`BodyParser` makes of its body. -/
inductive RestrictedRequest where
  | waitingList
  | acceptCharacter (body : Option CharacterAPI)
  | rejectCharacter (body : Option RejectCharacterAPI)
  | fetchCharacter (body : Option CharacterAPI)
  | banList
  | ban (body : Option BanAPI)
  | unban (body : Option BanAPI)
  | ajail (body : Option AjailAPI)
  | logs (body : Option LogsAPI)

/-- The handler `SetupRoutes` registers for a route under `/restricted`. -/
def restrictedHandler (lib : Lib) (req : RestrictedRequest) (w : World) :
    Option (Response × World) :=
  match req with
  | .waitingList => some (UserHandler.WaitingList w)
  | .acceptCharacter body => some (UserHandler.AcceptCharacter lib body w)
  | .rejectCharacter body => some (UserHandler.RejectCharacter lib body w)
  | .fetchCharacter body => some (UserHandler.FetchCharacter body w)
  | .banList => some (UserHandler.BanList w)
  | .ban body => some (UserHandler.Ban lib body w)
  | .unban body => some (UserHandler.Unban body w)
  | .ajail body => some (UserHandler.Ajail body w)
  | .logs body => UserHandler.Logs lib body w

/-- A request under `/restricted` as `SetupRoutes` serves it: the middleware
`v1.Use("/restricted", ...)` runs `EnsurePrivilege` first, and the handler of
the route runs when the middleware calls `ctx.Next()`. -/
def serveRestricted (lib : Lib) (req : RestrictedRequest) (w : World) :
    Option (Response × World) :=
  match Middleware.EnsurePrivilege w with
  | (some response, w1) => some (response, w1)
  | (none, w1) => restrictedHandler lib req w1

/-- The part of the world a repository method never touches: the session,
the clock, the fault oracle and the record of calls. -/
def sameFrame (w1 w : World) : Prop :=
  w1.calls = w.calls ∧ w1.session = w.session ∧ w1.now = w.now ∧ w1.fault = w.fault

/-! ## Sample states -/

/-- A world with empty tables, an empty session, no fault, and the clock at
1700000000. -/
def quietWorld : World :=
  { db := { accounts := [], characters := [], blacklist := [] }, session := [],
    now := 1700000000, fault := fun _ => none, ops := 0, calls := [] }

/-- An instance of `Lib` for examples: the address grammar accepts every
string, the tables above Latin-1 are empty, the digest is the identity. -/
def sampleLib : Lib :=
  { letterTable := fun _ => false, digitTable := fun _ => false, lowerTable := fun _ => false,
    mailGrammar := fun _ => true, whirlpool := fun bs => bs, formatDateTime := fun _ => [],
    formatMinute := fun _ => [], foldTable := fun r => r }

/-- The constant `testUsername` of `handler/testUtils.go`. -/
def testUsername : GoString := lit "test"

/-- The constant `testEmail` of `handler/testUtils.go`. -/
def testEmail : GoString := lit "test@test.ro"

/-- The constant `testPassword` of `handler/testUtils.go`. -/
def testPassword : GoString := lit "test123."

/-- A body for `UpdatePassword`: the token issued for `testEmail` at
1699999100 and `testPassword` as the new password. -/
def sampleReset : UpdatePassword :=
  { Email := testEmail, Token := GenerateToken testEmail 1699999100, Timestamp := 1699999100,
    NewPassword := testPassword }

/-- The row `Register` stores for the test account of `handler/testUtils.go`
(with `sampleLib`): activation 0, no role. -/
def sampleAccount : AccountRow :=
  newAccountRow
    { Username := testUsername, Email := testEmail, Password := hashWP sampleLib testPassword,
      RegisterDate := [] }

/-- The world `quietWorld` with the one account `sampleAccount`. -/
def registeredWorld : World :=
  { quietWorld with db := { accounts := [sampleAccount], characters := [], blacklist := [] } }

/-- A ban of the test account that expires a day after the clock of
`quietWorld`. -/
def sampleBan : BlacklistRow :=
  { IP := lit "n/a", Username := testUsername, BannedBy := lit "admin", Reason := lit "reason",
    Date := [], perm := 0, Expire := 1700086400 }

/-- The world `registeredWorld` with the ban `sampleBan`. -/
def bannedWorld : World :=
  { quietWorld with
    db := { accounts := [sampleAccount], characters := [], blacklist := [sampleBan] } }

/-- The world `registeredWorld` after the test account is confirmed. -/
def confirmedWorld : World :=
  { quietWorld with
    db := { accounts := [{ sampleAccount with Activated := 2 }], characters := [],
            blacklist := [] } }

/-- The login request of the tests: `testUsername` with `testPassword`. -/
def sampleLogin : LoginAPI := { Username := testUsername, Password := testPassword }

/-- The registration of the tests: `testUsername`, `testEmail`, `testPassword`. -/
def sampleRegister : RegisterAPI :=
  { Username := testUsername, Email := testEmail, Password := testPassword }

/-- The world `quietWorld` with the mail relay down: the sixth round trip (the
delivery, after the five of a registration) fails. -/
def mailDownWorld : World :=
  { quietWorld with fault := fun n => if n = 5 then some "mail relay down" else none }

/-- The relation between the table `accounts` before and after an operation
that C13 is about: every row that was there is still there, at its place,
the same account (user name and email), and its activation is what it was or
went from 0 to 2. Rows may have been added after them. -/
def activationKept : List AccountRow → List AccountRow → Bool
  | [], _ => true
  | _ :: _, [] => false
  | r :: rs, r' :: rs' =>
    (r'.Username == r.Username && r'.Email == r.Email
      && (r'.Activated == r.Activated || (r.Activated == 0 && r'.Activated == 2)))
    && activationKept rs rs'

/-- A ban of the test account that expires at the very instant of the clock
of `quietWorld`. -/
def expiringBan : BlacklistRow := { sampleBan with Expire := 1700000000 }

/-- The world `registeredWorld` with the ban `expiringBan`. -/
def expiringBanWorld : World :=
  { quietWorld with
    db := { accounts := [sampleAccount], characters := [], blacklist := [expiringBan] } }

/-- A request to ban the test account for seven days. -/
def sampleBanRequest : BanAPI :=
  { Username := testUsername, Expire := 7, Reason := lit "reason", AdminName := lit "admin",
    Characters := [] }

/-- The world `confirmedWorld` with the session of an administrator who is
not a tester: name "test", `is_admin` true, `is_tester` false. -/
def adminOnlyWorld : World :=
  { confirmedWorld with
    session := [("name", .str testUsername), ("is_tester", .bool false),
                ("is_admin", .bool true)] }

/-- A character request of the test account with the given character name,
age 18 and origin "test". -/
def sampleCharacter (name : GoString) : CharacterDataAPI :=
  { Username := testUsername, CharacterName := name, CharacterAge := 18, CharacterGender := 1,
    CharacterOrigin := lit "test" }

/-- The world `confirmedWorld` with the test account logged in (no role) and
`k` characters of that account proposed and not accepted (`Created` 0,
`Status` 0), as `CreateCharacter` stores them. -/
def proposalsWorld (k : Nat) : World :=
  { confirmedWorld with
    session := [("name", .str testUsername), ("is_tester", .bool false),
                ("is_admin", .bool false)],
    db := { accounts := [{ sampleAccount with Activated := 2 }],
            characters := (List.range k).map (fun i =>
              newCharacterRow { Username := testUsername,
                                Character := lit "Test_" ++ [byteOf (65 + i)],
                                Age := 18, Gender := 1, Origin := lit "test", Skin := 98 }),
            blacklist := [] } }

/-- The world `registeredWorld` with the database unreachable: every round
trip fails with "connection refused". -/
def storageDownWorld : World :=
  { registeredWorld with fault := fun _ => some "dial tcp 127.0.0.1:3306: connect: connection refused" }

/-- The world `proposalsWorld 1` where the fourth round trip fails: in
`AcceptCharacter` that is the update of `accounts`, after `Beginx`, the read
of the character count and the update of `characters`. -/
def acceptFailsWorld : World :=
  { proposalsWorld 1 with fault := fun n => if n = 3 then some "connection lost" else none }

/-- The world `proposalsWorld 2` after the first of the two characters,
"Test_A", has been accepted (`Created` 1, `Status` 1). -/
def oneAcceptedWorld : World :=
  { proposalsWorld 2 with
    db := { (proposalsWorld 2).db with
            characters := (proposalsWorld 2).db.characters.map (fun c =>
              if c.Character == lit "Test_A" then { c with Created := 1, Status := 1 } else c) } }

/-- A world for the review of characters: the test account with five accepted
characters ("Test_A" to "Test_E") and a character count of 5, the account
"other" with one proposed character "Other_A" and a count of 0, and the
session of the administrator "admin". -/
def reviewWorld : World :=
  { quietWorld with
    session := [("name", .str (lit "admin")), ("is_tester", .bool false),
                ("is_admin", .bool true)],
    db := { accounts :=
              [{ sampleAccount with Activated := 2, Characters := 5 },
               { newAccountRow { Username := lit "other", Email := lit "other@test.ro",
                                 Password := [], RegisterDate := [] } with Activated := 2 }],
            characters :=
              (List.range 5).map (fun i =>
                { newCharacterRow { Username := testUsername,
                                    Character := lit "Test_" ++ [byteOf (65 + i)],
                                    Age := 18, Gender := 1, Origin := lit "test", Skin := 98 }
                  with Created := 1, Status := 1 })
              ++ [newCharacterRow { Username := lit "other", Character := lit "Other_A",
                                    Age := 18, Gender := 1, Origin := lit "test", Skin := 98 }],
            blacklist := [] } }

/-- The invariant of C22 on a database: for every account, the stored
character count is the number of the rows of `characters` of that user name
whose status is accepted (1), and is at most 5. -/
def charactersInvariant (db : DB) : Bool :=
  db.accounts.all (fun a =>
    decide (a.Characters
      = ((db.characters.filter (fun c => c.Username == a.Username && c.Status == 1)).length : Int))
    && decide (a.Characters ≤ 5))

/-- A request to jail the character "Test_A" for ten minutes. -/
def sampleAjail : AjailAPI :=
  { Character := lit "Test_A", AdminName := [], Time := 10, Reason := lit "reason" }

/-- A world with four members of staff and a player, stored in no particular
order. -/
def staffWorld : World :=
  { quietWorld with
    db := { accounts :=
              [{ sampleAccount with Username := lit "zoe", Tester := 1 },
               { sampleAccount with Username := lit "bob", Admin := 2 },
               { sampleAccount with Username := lit "player" },
               { sampleAccount with Username := lit "amy", Admin := 5 },
               { sampleAccount with Username := lit "al", Tester := 1 }],
            characters := [], blacklist := [] } }

/-- A byte of the names in `logsType`: a lower-case ASCII letter or "_". -/
def nameByte (b : Byte) : Bool := decide ((97 ≤ b.val ∧ b.val ≤ 122) ∨ b.val = 95)

/-- A rune that `strings.EqualFold` matches with a byte of a name in
`logsType`: an ASCII letter, "_", U+017F (long s) or U+212A (Kelvin sign). -/
def nameRune (r : Nat) : Bool :=
  decide ((65 ≤ r ∧ r ≤ 90) ∨ (97 ≤ r ∧ r ≤ 122) ∨ r = 95 ∨ r = 0x17F ∨ r = 0x212A)

/-! # Theorems -/

/-! ## Test vectors for the embedded library code -/

/-- The digest of "abc" (FIPS 180-4, appendix B.1). -/
theorem sha256_abc :
    hexEncodeToString (sha256 (lit "abc"))
      = lit "ba7816bf8f01cfea414140de5dae2223b00361a396177a9cb410ff61f20015ad" := by
  decide!

/-- The MAC of RFC 4231, test case 2. -/
theorem hmacSha256_rfc4231_case2 :
    hexEncodeToString (hmacSha256 (lit "Jefe") (lit "what do ya want for nothing?"))
      = lit "5bdcc146bf60754e6a042426089575c75a003f089d2739839dec58b964ec3843" := by
  decide!

/-- The token of `testEmail` at 1700000000: the HMAC-SHA256 of
"test@test.ro:1700000000" under `secretKey`, in hexadecimal. -/
theorem GenerateToken_testEmail :
    GenerateToken testEmail 1700000000
      = lit "67ede513ea9ed0ca2af52aa9505bda0b9751a50211c4b2a893e14b8f4e8b6445" := by
  decide!

/-! ## The token: `ConstantTimeCompare` is equality -/

theorem or_eq_zero_iff_both (a b : Nat) : a ||| b = 0 ↔ a = 0 ∧ b = 0 := by
  constructor
  · intro h
    have key : ∀ i, (a.testBit i || b.testBit i) = false := by
      intro i
      have := congrArg (fun n => Nat.testBit n i) h
      simpa [Nat.testBit_or] using this
    constructor
    · apply Nat.eq_of_testBit_eq
      intro i
      have := key i
      simp only [Bool.or_eq_false_iff] at this
      simp [this.1]
    · apply Nat.eq_of_testBit_eq
      intro i
      have := key i
      simp only [Bool.or_eq_false_iff] at this
      simp [this.2]
  · rintro ⟨rfl, rfl⟩
    simp

theorem byteOf_val_of_lt (n : Nat) (h : n < 256) : (byteOf n).val = n := by
  simp [byteOf, Nat.mod_eq_of_lt h]

theorem xor_byte_lt (x y : Byte) : x.val ^^^ y.val < 256 :=
  Nat.xor_lt_two_pow (n := 8) x.isLt y.isLt

theorem xorAccumulate_val_eq_zero (x : List Byte) :
    ∀ (y : List Byte) (v : Byte), x.length = y.length →
      ((xorAccumulate x y v).val = 0 ↔ v.val = 0 ∧ x = y) := by
  induction x with
  | nil =>
    intro y v h
    cases y with
    | nil => simp [xorAccumulate]
    | cons b ys => simp at h
  | cons a xs ih =>
    intro y v h
    cases y with
    | nil => simp at h
    | cons b ys =>
      have hlen : xs.length = ys.length := by simpa using h
      have hlt : v.val ||| (a.val ^^^ b.val) < 256 :=
        Nat.or_lt_two_pow (n := 8) v.isLt (xor_byte_lt a b)
      rw [xorAccumulate, ih ys _ hlen, byteOf_val_of_lt _ hlt, or_eq_zero_iff_both,
        Nat.xor_eq_zero]
      constructor
      · rintro ⟨⟨hv, hab⟩, rfl⟩
        exact ⟨hv, by rw [Fin.ext hab]⟩
      · rintro ⟨hv, heq⟩
        injection heq with h1 h2
        exact ⟨⟨hv, by rw [h1]⟩, h2⟩

theorem ConstantTimeByteEq_zero_iff (v : Byte) :
    ConstantTimeByteEq v (byteOf 0) = 1 ↔ v.val = 0 := by
  have hv := v.isLt
  have h0 : (byteOf 0).val = 0 := rfl
  simp only [ConstantTimeByteEq, h0, Nat.xor_zero, Nat.shiftRight_eq_div_pow]
  norm_num
  omega

theorem ConstantTimeCompare_eq_one_iff (x y : List Byte) :
    ConstantTimeCompare x y = 1 ↔ x = y := by
  unfold ConstantTimeCompare
  by_cases h : x.length = y.length
  · simp only [h, ne_eq, not_true_eq_false, if_false]
    rw [ConstantTimeByteEq_zero_iff, xorAccumulate_val_eq_zero x y _ h]
    simp [byteOf]
  · simp only [ne_eq, h, not_false_eq_true, if_true]
    constructor
    · intro h0
      exact absurd h0 (by decide)
    · intro hxy
      exact absurd (congrArg List.length hxy) h

theorem hmacEqual_iff (x y : List Byte) : hmacEqual x y = true ↔ x = y := by
  simp [hmacEqual, ConstantTimeCompare_eq_one_iff]

theorem ValidateToken_iff (email token : GoString) (timestamp : Int) :
    ValidateToken email token timestamp = true ↔ token = GenerateToken email timestamp := by
  simp only [ValidateToken, hmacEqual_iff]
  exact eq_comm

theorem ValidateToken_GenerateToken (email : GoString) (t : Int) :
    ValidateToken email (GenerateToken email t) t = true :=
  (ValidateToken_iff email (GenerateToken email t) t).2 rfl

theorem hexEncodeToString_length (bs : List Byte) :
    (hexEncodeToString bs).length = 2 * bs.length := by
  induction bs with
  | nil => rfl
  | cons b rest ih => simp [hexEncodeToString, ih]; omega

theorem sha256_length (msg : List Byte) : (sha256 msg).length = 32 := by
  simp [sha256, be32]

theorem GenerateToken_length (email : GoString) (timestamp : Int) :
    (GenerateToken email timestamp).length = 64 := by
  simp [GenerateToken, hexEncodeToString_length, hmacSha256, sha256_length]

theorem ValidateToken_nil (email : GoString) (timestamp : Int) :
    ValidateToken email [] timestamp = false := by
  rw [Bool.eq_false_iff, ne_eq, ValidateToken_iff]
  intro h
  have := congrArg List.length h
  rw [GenerateToken_length] at this
  simp at this

theorem ValidateToken_of_length_ne (email token : GoString) (timestamp : Int)
    (h : token.length ≠ 64) : ValidateToken email token timestamp = false := by
  rw [Bool.eq_false_iff, ne_eq, ValidateToken_iff]
  intro h0
  rw [h0, GenerateToken_length] at h
  exact h rfl

/-! ## `strconv`: a rendered `int64` parses back -/

theorem digitByte_val (d : Nat) : (digitByte d).val = 48 + d % 10 := by
  have h : d % 10 < 10 := Nat.mod_lt _ (by decide)
  simp only [digitByte, byteOf]
  omega

theorem parseDigits_append (xs ys : GoString) :
    ∀ acc, parseDigits (xs ++ ys) acc = (parseDigits xs acc).bind (fun a => parseDigits ys a) := by
  induction xs with
  | nil => intro acc; rfl
  | cons b rest ih =>
    intro acc
    simp only [List.cons_append, parseDigits]
    split
    · exact ih _
    · rfl

theorem parseDigits_digitByte (d acc : Nat) :
    parseDigits [digitByte d] acc = some (acc * 10 + d % 10) := by
  have h : d % 10 < 10 := Nat.mod_lt _ (by decide)
  simp only [parseDigits, digitByte_val]
  rw [if_pos (by omega)]
  congr 2
  omega

theorem parseDigits_formatDigits (fuel : Nat) :
    ∀ n, n < fuel → parseDigits (formatDigits fuel n) 0 = some n := by
  induction fuel with
  | zero => intro n h; exact absurd h (Nat.not_lt_zero n)
  | succ fuel ih =>
    intro n h
    unfold formatDigits
    by_cases h10 : n < 10
    · rw [if_pos h10, parseDigits_digitByte]
      congr 1
      omega
    · rw [if_neg h10, parseDigits_append, ih (n / 10) (by omega)]
      simp only [Option.bind]
      rw [parseDigits_digitByte]
      congr 1
      omega

theorem formatDigits_head (fuel : Nat) :
    ∀ n, n < fuel → ∃ b rest, formatDigits fuel n = b :: rest ∧ 48 ≤ b.val ∧ b.val ≤ 57 := by
  induction fuel with
  | zero => intro n h; exact absurd h (Nat.not_lt_zero n)
  | succ fuel ih =>
    intro n h
    unfold formatDigits
    by_cases h10 : n < 10
    · rw [if_pos h10]
      refine ⟨digitByte n, [], rfl, ?_, ?_⟩ <;> rw [digitByte_val] <;> omega
    · rw [if_neg h10]
      obtain ⟨b, rest, hb, hlo, hhi⟩ := ih (n / 10) (by omega)
      exact ⟨b, rest ++ [digitByte n], by rw [hb]; rfl, hlo, hhi⟩

theorem ParseInt_FormatUint (n : Nat) (h : n ≤ 9223372036854775807) :
    ParseInt (FormatUint n) = some (n : Int) := by
  obtain ⟨b, rest, hb, hlo, hhi⟩ := formatDigits_head (n + 1) n (Nat.lt_succ_self n)
  have hp := parseDigits_formatDigits (n + 1) n (Nat.lt_succ_self n)
  unfold FormatUint
  rw [hb] at hp ⊢
  have h43 : (b.val == 43) = false := by
    rw [beq_eq_false_iff_ne]
    omega
  have h45 : (b.val == 45) = false := by
    rw [beq_eq_false_iff_ne]
    omega
  simp only [ParseInt, h43, h45, Bool.false_eq_true, or_self, if_false, hp]
  rw [if_pos h]

theorem ParseInt_neg_FormatUint (n : Nat) (h : n ≤ 9223372036854775808) :
    ParseInt (lit "-" ++ FormatUint n) = some (-(n : Int)) := by
  obtain ⟨b, rest, hb, _, _⟩ := formatDigits_head (n + 1) n (Nat.lt_succ_self n)
  have hp := parseDigits_formatDigits (n + 1) n (Nat.lt_succ_self n)
  have hlit : lit "-" = [byteOf 45] := by decide
  unfold FormatUint
  rw [hb] at hp ⊢
  rw [hlit]
  have h45 : ((byteOf 45).val == 45) = true := by decide
  simp only [List.cons_append, List.nil_append, ParseInt, h45, Bool.or_true, or_true, if_true,
    hp]
  rw [if_pos h]

/-- The decimal rendering of an `int64` parses back to it. -/
theorem ParseInt_FormatInt (t : Int) (h : isInt64 t) : ParseInt (FormatInt t) = some t := by
  unfold isInt64 minInt64 maxInt64 at h
  unfold FormatInt
  by_cases hneg : t < 0
  · rw [if_pos hneg, ParseInt_neg_FormatUint _ (by omega)]
    congr 1
    omega
  · rw [if_neg hneg, ParseInt_FormatUint _ (by omega)]
    congr 1
    omega

/-! ## The token under another timestamp -/

theorem hexDigit_val (n : Nat) (h : n < 16) :
    (hexDigit n).val = if n < 10 then 48 + n else 87 + n := by
  unfold hexDigit
  split
  · exact byteOf_val_of_lt _ (by omega)
  · exact byteOf_val_of_lt _ (by omega)

theorem hexDigit_injective (a b : Nat) (ha : a < 16) (hb : b < 16)
    (h : hexDigit a = hexDigit b) : a = b := by
  have := congrArg Fin.val h
  rw [hexDigit_val a ha, hexDigit_val b hb] at this
  split at this <;> split at this <;> omega

theorem hexEncodeToString_injective (xs : List Byte) :
    ∀ ys, hexEncodeToString xs = hexEncodeToString ys → xs = ys := by
  induction xs with
  | nil =>
    intro ys h
    cases ys with
    | nil => rfl
    | cons b rest => simp [hexEncodeToString] at h
  | cons a rest ih =>
    intro ys h
    cases ys with
    | nil => simp [hexEncodeToString] at h
    | cons b rest' =>
      simp only [hexEncodeToString, List.cons.injEq] at h
      obtain ⟨h1, h2, h3⟩ := h
      have ha := a.isLt
      have hb := b.isLt
      have e1 := hexDigit_injective _ _ (by omega) (by omega) h1
      have e2 := hexDigit_injective _ _ (by omega) (by omega) h2
      have : a = b := by
        apply Fin.ext
        omega
      rw [this, ih rest' h3]

theorem FormatInt_injective (t1 t2 : Int) (h1 : isInt64 t1) (h2 : isInt64 t2)
    (h : FormatInt t1 = FormatInt t2) : t1 = t2 := by
  have := ParseInt_FormatInt t1 h1
  rw [h, ParseInt_FormatInt t2 h2] at this
  exact (Option.some.inj this).symm

/-- What it takes for a token issued at `t1` to be rejected at `t2`: the two
signed messages differ whenever `t1 ≠ t2`, and the token is rejected exactly
when HMAC-SHA256 under `secretKey` does not collide on them. -/
theorem ValidateToken_other_timestamp (email : GoString) (t1 t2 : Int)
    (h1 : isInt64 t1) (h2 : isInt64 t2) (hne : t1 ≠ t2) :
    tokenData email t1 ≠ tokenData email t2
      ∧ (ValidateToken email (GenerateToken email t1) t2 = false
          ↔ hmacSha256 secretKey (tokenData email t1)
              ≠ hmacSha256 secretKey (tokenData email t2)) := by
  constructor
  · intro h
    unfold tokenData at h
    exact hne (FormatInt_injective t1 t2 h1 h2 (List.append_cancel_left h))
  · rw [Bool.eq_false_iff, ne_eq, ValidateToken_iff]
    unfold GenerateToken
    constructor
    · intro h hc
      exact h (by simp only [hc])
    · intro h hc
      exact h (hexEncodeToString_injective _ _ hc)

/-! ## C1, C2: the token and `Confirm` -/

/-- C1: for every email and every timestamp (every `int64` in particular),
`ValidateToken(email, GenerateToken(email, t), t)` returns true. -/
theorem C1_validate_accepts_generated (email : GoString) (t : Int) :
    ValidateToken email (GenerateToken email t) t = true :=
  (ValidateToken_iff email (GenerateToken email t) t).2 rfl

/-- C2, as stated, fails: with an empty `token` parameter `ValidateToken` is
false, yet `Confirm` answers 422 "Parametrii trebuie completati." and not 401. -/
theorem C2_confirm_empty_token_is_422 :
    ValidateToken (lit "test@test.ro") [] 1700000000 = false
      ∧ ParseInt (lit "1700000000") = some 1700000000
      ∧ (UserHandler.Confirm (lit "test@test.ro") [] (lit "1700000000") quietWorld).1
          = jsonResponse 422 ⟨true, "Parametrii trebuie completati."⟩
      ∧ (UserHandler.Confirm (lit "test@test.ro") [] (lit "1700000000") quietWorld).1.status
          ≠ 401 := by
  refine ⟨ValidateToken_nil _ _, by decide, ?_, ?_⟩ <;> simp [UserHandler.Confirm, jsonResponse]

/-- C2, amended: `ValidateToken(email, token, timestamp)` is true exactly when
`token` equals `GenerateToken(email, timestamp)` byte for byte. Whenever it
is false, `Confirm` on the request that carries `email`, `token` and a
`timestamp` parameter parsing to `timestamp` (the decimal rendering of an
`int64` is one, `ParseInt_FormatInt`) leaves the world as it was (no call of
`ActivateAccount`, no call at all); it answers 401 "Token-ul este incorect."
when `email` and `token` are both non-empty, and 422 "Parametrii trebuie
completati." when one of them is empty. -/
theorem C2_validate_iff_equal_and_confirm_rejects (email token timestampStr : GoString)
    (timestamp : Int) (w : World) (hparse : ParseInt timestampStr = some timestamp) :
    (ValidateToken email token timestamp = true ↔ token = GenerateToken email timestamp)
      ∧ (ValidateToken email token timestamp = false →
          (UserHandler.Confirm email token timestampStr w).2 = w
          ∧ (email ≠ [] → token ≠ [] →
              (UserHandler.Confirm email token timestampStr w).1
                = jsonResponse 401 ⟨true, "Token-ul este incorect."⟩)
          ∧ (email = [] ∨ token = [] →
              (UserHandler.Confirm email token timestampStr w).1
                = jsonResponse 422 ⟨true, "Parametrii trebuie completati."⟩)) := by
  refine ⟨ValidateToken_iff email token timestamp, fun hfalse => ?_⟩
  have hts : timestampStr ≠ [] := by
    intro h
    rw [h] at hparse
    simp [ParseInt] at hparse
  refine ⟨?_, ?_, ?_⟩
  · unfold UserHandler.Confirm
    split
    · rfl
    · simp [hparse, hfalse]
  · intro he ht
    simp [UserHandler.Confirm, he, ht, hts, hparse, hfalse]
  · intro h
    have hg : email = [] ∨ token = [] ∨ timestampStr = [] := by tauto
    simp [UserHandler.Confirm, hg]

/-- C2, amended, at a concrete request: a one-byte token for
"test@test.ro" and "1700000000". -/
theorem C2_validate_iff_equal_and_confirm_rejects_witness :
    ParseInt (lit "1700000000") = some 1700000000
      ∧ ((ValidateToken (lit "test@test.ro") (lit "x") 1700000000 = true
            ↔ lit "x" = GenerateToken (lit "test@test.ro") 1700000000)
        ∧ (ValidateToken (lit "test@test.ro") (lit "x") 1700000000 = false →
            (UserHandler.Confirm (lit "test@test.ro") (lit "x") (lit "1700000000") quietWorld).2
              = quietWorld
            ∧ (lit "test@test.ro" ≠ [] → lit "x" ≠ [] →
                (UserHandler.Confirm (lit "test@test.ro") (lit "x") (lit "1700000000")
                  quietWorld).1 = jsonResponse 401 ⟨true, "Token-ul este incorect."⟩)
            ∧ (lit "test@test.ro" = [] ∨ lit "x" = [] →
                (UserHandler.Confirm (lit "test@test.ro") (lit "x") (lit "1700000000")
                  quietWorld).1 = jsonResponse 422 ⟨true, "Parametrii trebuie completati."⟩))) :=
  ⟨by decide, C2_validate_iff_equal_and_confirm_rejects (lit "test@test.ro") (lit "x")
    (lit "1700000000") 1700000000 quietWorld (by decide)⟩

/-! ## Frame lemmas: what the storage primitives leave alone -/

@[simp] theorem tick_calls (w : World) : w.tick.calls = w.calls := rfl
@[simp] theorem tick_db (w : World) : w.tick.db = w.db := rfl
@[simp] theorem tick_session (w : World) : w.tick.session = w.session := rfl
@[simp] theorem tick_now (w : World) : w.tick.now = w.now := rfl
@[simp] theorem tick_fault (w : World) : w.tick.fault = w.fault := rfl
@[simp] theorem tick_ops (w : World) : w.tick.ops = w.ops + 1 := rfl
@[simp] theorem record_calls (w : World) (c : Call) : (w.record c).calls = w.calls ++ [c] := rfl
@[simp] theorem record_db (w : World) (c : Call) : (w.record c).db = w.db := rfl
@[simp] theorem record_session (w : World) (c : Call) : (w.record c).session = w.session := rfl
@[simp] theorem record_now (w : World) (c : Call) : (w.record c).now = w.now := rfl
@[simp] theorem record_fault (w : World) (c : Call) : (w.record c).fault = w.fault := rfl
@[simp] theorem record_ops (w : World) (c : Call) : (w.record c).ops = w.ops := rfl

theorem sameFrame_refl (w : World) : sameFrame w w := ⟨rfl, rfl, rfl, rfl⟩

theorem sameFrame_trans {a b c : World} (h1 : sameFrame a b) (h2 : sameFrame b c) :
    sameFrame a c :=
  ⟨h1.1.trans h2.1, h1.2.1.trans h2.2.1, h1.2.2.1.trans h2.2.2.1, h1.2.2.2.trans h2.2.2.2⟩

theorem sameFrame_tick (w : World) : sameFrame w.tick w := ⟨rfl, rfl, rfl, rfl⟩

theorem sameFrame_setDb (w : World) (d : DB) : sameFrame { w with db := d } w :=
  ⟨rfl, rfl, rfl, rfl⟩

theorem dbGet_frame {ρ : Type} (table : DB → List ρ) (p : ρ → Bool) (w : World) :
    sameFrame (dbGet table p w).2 w ∧ (dbGet table p w).2.db = w.db := by
  unfold dbGet
  split
  · exact ⟨sameFrame_tick w, rfl⟩
  · split <;> exact ⟨sameFrame_tick w, rfl⟩

theorem execUpdateAccounts_frame (p : AccountRow → Bool) (f : AccountRow → AccountRow)
    (w : World) : sameFrame (execUpdateAccounts p f w).2 w := by
  unfold execUpdateAccounts
  split
  · exact sameFrame_tick w
  · exact ⟨rfl, rfl, rfl, rfl⟩

theorem execInsertAccount_frame (row : AccountRow) (w : World) :
    sameFrame (execInsertAccount row w).2 w := by
  unfold execInsertAccount
  split
  · exact sameFrame_tick w
  · exact ⟨rfl, rfl, rfl, rfl⟩

theorem expectRows_snd (r : (Nat × Option GoError) × World) : (expectRows r).2 = r.2 := by
  obtain ⟨⟨rows, err⟩, w⟩ := r
  cases err with
  | some e => rfl
  | none =>
    simp only [expectRows]
    split <;> rfl

theorem withTransaction_frame (txFunc : World → Option GoError × World)
    (h : ∀ x, sameFrame (txFunc x).2 x) (w : World) :
    sameFrame (withTransaction txFunc w).2 w := by
  unfold withTransaction
  split
  · exact sameFrame_tick w
  · have h1 := h w.tick
    split
    · rename_i err w1 heq
      rw [heq] at h1
      have h2 : sameFrame w1 w := sameFrame_trans h1 (sameFrame_tick w)
      split <;> exact sameFrame_trans (sameFrame_setDb _ _) (sameFrame_trans (sameFrame_tick _) h2)
    · rename_i w1 heq
      rw [heq] at h1
      have h2 : sameFrame w1 w := sameFrame_trans h1 (sameFrame_tick w)
      split
      · exact sameFrame_trans (sameFrame_setDb _ _) (sameFrame_trans (sameFrame_tick _) h2)
      · exact sameFrame_trans (sameFrame_tick _) h2

theorem Activate_frame (email : GoString) (w : World) :
    sameFrame (UserRepository.Activate email w).2 w := by
  unfold UserRepository.Activate
  apply withTransaction_frame
  intro x
  rw [expectRows_snd]
  exact execUpdateAccounts_frame _ _ x

theorem UpdatePassword_frame (email password : GoString) (w : World) :
    sameFrame (UserRepository.UpdatePassword email password w).2 w := by
  unfold UserRepository.UpdatePassword
  apply withTransaction_frame
  intro x
  rw [expectRows_snd]
  exact execUpdateAccounts_frame _ _ x

theorem ActivateAccount_calls (email : GoString) (w : World) :
    (UserService.ActivateAccount email w).2.calls = w.calls ++ [Call.ActivateAccount email] := by
  unfold UserService.ActivateAccount
  rw [(Activate_frame email _).1]
  rfl

theorem UserService_UpdatePassword_calls (lib : Lib) (email password : GoString) (w : World) :
    (UserService.UpdatePassword lib email password w).2.calls
      = w.calls ++ [Call.UpdatePassword email password] := by
  unfold UserService.UpdatePassword
  rw [(UpdatePassword_frame email _ _).1]
  rfl

/-! ## C4, C5: the window and the status of token failures -/

theorem wrapInt64_of_isInt64 (x : Int) (h : isInt64 x) : wrapInt64 x = x := by
  unfold isInt64 minInt64 maxInt64 at h
  unfold wrapInt64
  norm_num
  omega

theorem token_ne_nil_of_valid {email token : GoString} {timestamp : Int}
    (h : ValidateToken email token timestamp = true) : token ≠ [] := by
  intro h0
  rw [h0, ValidateToken_nil] at h
  exact Bool.false_ne_true h

theorem ne_nil_of_ParseInt {s : GoString} {t : Int} (h : ParseInt s = some t) : s ≠ [] := by
  intro h0
  rw [h0] at h
  simp [ParseInt] at h

/-- The method `Confirm` on a request that passes the parameter checks and
the signature check. -/
theorem Confirm_of_valid_signature (email token timestampStr : GoString) (timestamp : Int)
    (w : World) (hemail : email ≠ []) (hparse : ParseInt timestampStr = some timestamp)
    (hsig : ValidateToken email token timestamp = true) :
    UserHandler.Confirm email token timestampStr w =
      if wrapInt64 (w.now - timestamp) > 15 * 60 then
        (jsonResponse 401 ⟨true, "Token-ul a expirat."⟩, w)
      else
        match UserService.ActivateAccount email w with
        | (some _, w1) => (jsonResponse 500 ⟨true, "Contul nu poate fi activat."⟩, w1)
        | (none, w1) => (⟨302, .redirect (lit "/")⟩, w1) := by
  simp [UserHandler.Confirm, hemail, token_ne_nil_of_valid hsig, ne_nil_of_ParseInt hparse,
    hparse, hsig]

/-- The method `UpdatePassword` on a body that passes `Validate`. -/
theorem UpdatePassword_of_valid_body (lib : Lib) (body : UpdatePassword) (w : World)
    (hvalid : body.Validate lib = none) :
    UserHandler.UpdatePassword lib (some body) w =
      if wrapInt64 (w.now - body.Timestamp) > 15 * 60 then
        (jsonResponse 400 ⟨true, "Token-ul este expirat."⟩, w)
      else if !ValidateToken body.Email body.Token body.Timestamp then
        (jsonResponse 400 ⟨true, "Token-ul este invalid."⟩, w)
      else
        match UserService.UpdatePassword lib body.Email body.NewPassword w with
        | (some _, w1) => (jsonResponse 500 ⟨true, "A fost intampinata o eroare interna."⟩, w1)
        | (none, w1) => (jsonResponse 200 ⟨false, ""⟩, w1) := by
  simp [UserHandler.UpdatePassword, hvalid]

theorem Confirm_expired_iff (email token timestampStr : GoString) (issuedAt : Int) (w : World)
    (hemail : email ≠ []) (hparse : ParseInt timestampStr = some issuedAt)
    (hsig : ValidateToken email token issuedAt = true) :
    (UserHandler.Confirm email token timestampStr w).1
        = jsonResponse 401 ⟨true, "Token-ul a expirat."⟩
      ↔ wrapInt64 (w.now - issuedAt) > 900 := by
  rw [Confirm_of_valid_signature email token timestampStr issuedAt w hemail hparse hsig]
  by_cases h : wrapInt64 (w.now - issuedAt) > 15 * 60
  · have h' : wrapInt64 (w.now - issuedAt) > 900 := by simpa using h
    simp [h, h']
  · have h' : ¬ wrapInt64 (w.now - issuedAt) > 900 := by simpa using h
    rw [if_neg h]
    constructor
    · intro heq
      exfalso
      revert heq
      split <;> simp [jsonResponse]
    · intro hgt
      exact absurd hgt h'

theorem Confirm_activates_of_fresh (email token timestampStr : GoString) (issuedAt : Int)
    (w : World) (hemail : email ≠ []) (hparse : ParseInt timestampStr = some issuedAt)
    (hsig : ValidateToken email token issuedAt = true)
    (hfresh : ¬ wrapInt64 (w.now - issuedAt) > 900) :
    (UserHandler.Confirm email token timestampStr w).2.calls
      = w.calls ++ [Call.ActivateAccount email] := by
  rw [Confirm_of_valid_signature email token timestampStr issuedAt w hemail hparse hsig]
  have h : ¬ wrapInt64 (w.now - issuedAt) > 15 * 60 := by simpa using hfresh
  rw [if_neg h]
  have hc := ActivateAccount_calls email w
  split
  · rename_i heq
    rw [heq] at hc
    exact hc
  · rename_i heq
    rw [heq] at hc
    exact hc

theorem UpdatePassword_expired_iff (lib : Lib) (body : UpdatePassword) (w : World)
    (hvalid : body.Validate lib = none)
    (hsig : ValidateToken body.Email body.Token body.Timestamp = true) :
    (UserHandler.UpdatePassword lib (some body) w).1
        = jsonResponse 400 ⟨true, "Token-ul este expirat."⟩
      ↔ wrapInt64 (w.now - body.Timestamp) > 900 := by
  rw [UpdatePassword_of_valid_body lib body w hvalid]
  by_cases h : wrapInt64 (w.now - body.Timestamp) > 15 * 60
  · have h' : wrapInt64 (w.now - body.Timestamp) > 900 := by simpa using h
    simp [h, h']
  · have h' : ¬ wrapInt64 (w.now - body.Timestamp) > 900 := by simpa using h
    rw [if_neg h]
    simp only [hsig, Bool.not_true, Bool.false_eq_true, if_false]
    constructor
    · intro heq
      exfalso
      revert heq
      split <;> simp [jsonResponse]
    · intro hgt
      exact absurd hgt h'

theorem UpdatePassword_updates_of_fresh (lib : Lib) (body : UpdatePassword) (w : World)
    (hvalid : body.Validate lib = none)
    (hsig : ValidateToken body.Email body.Token body.Timestamp = true)
    (hfresh : ¬ wrapInt64 (w.now - body.Timestamp) > 900) :
    (UserHandler.UpdatePassword lib (some body) w).2.calls
      = w.calls ++ [Call.UpdatePassword body.Email body.NewPassword] := by
  rw [UpdatePassword_of_valid_body lib body w hvalid]
  have h : ¬ wrapInt64 (w.now - body.Timestamp) > 15 * 60 := by simpa using hfresh
  rw [if_neg h]
  simp only [hsig, Bool.not_true, Bool.false_eq_true, if_false]
  have hc := UserService_UpdatePassword_calls lib body.Email body.NewPassword w
  split
  · rename_i heq
    rw [heq] at hc
    exact hc
  · rename_i heq
    rw [heq] at hc
    exact hc

/-- C4, as stated, fails at the guards that come before the window: `Confirm`
with an empty `email` parameter and a signature `ValidateToken` accepts for it
answers 422 at token age 900 (the claim has the request accepted), and
`UpdatePassword` with such a signature and a new password that fails
validation answers 422 at age 901 (the claim has it rejected as expired). -/
theorem C4_guards_answer_before_the_window :
    ValidateToken [] (GenerateToken [] 1699999100) 1699999100 = true
      ∧ ParseInt (lit "1699999100") = some 1699999100
      ∧ quietWorld.now - 1699999100 = 900
      ∧ (UserHandler.Confirm [] (GenerateToken [] 1699999100) (lit "1699999100") quietWorld).1
          = jsonResponse 422 ⟨true, "Parametrii trebuie completati."⟩
      ∧ ValidateToken (lit "test@test.ro") (GenerateToken (lit "test@test.ro") 1699999099)
          1699999099 = true
      ∧ quietWorld.now - 1699999099 = 901
      ∧ (UserHandler.UpdatePassword sampleLib
          (some ⟨lit "test@test.ro", GenerateToken (lit "test@test.ro") 1699999099, 1699999099,
            lit "short"⟩) quietWorld).1
          = jsonResponse 422
              ⟨true, "Parola trebuie sa aiba minim 8 caractere (litere, cifre si caractere speciale)"⟩ := by
  refine ⟨ValidateToken_GenerateToken _ _, by decide, by decide, ?_,
    ValidateToken_GenerateToken _ _, by decide, ?_⟩
  · simp [UserHandler.Confirm]
  · have hv : (⟨lit "test@test.ro", GenerateToken (lit "test@test.ro") 1699999099, 1699999099,
        lit "short"⟩ : UpdatePassword).Validate sampleLib
        = some "password length must be greater than 8" := by
      have h1 : ParseAddress sampleLib (lit "test@test.ro") = true := by decide
      have h2 : (lit "short").length < 8 := by decide
      simp [UpdatePassword.Validate, h1, h2]
    simp only [UserHandler.UpdatePassword, hv]
    decide

/-- C4, amended: for a request to `Confirm` with a non-empty `email` parameter,
and for a request to `UpdatePassword` whose body passes `Validate`, each
carrying a signature `ValidateToken` accepts, with `now - issuedAt` inside the
range of `int64`: the request is rejected as expired exactly when
`now - issuedAt > 900`, and a request that is not expired goes on to
`ActivateAccount`, respectively `UpdatePassword` of the user service. Ages 899
and 900 are therefore accepted and age 901 is rejected, for every `issuedAt`. -/
theorem C4_expired_exactly_above_900 (lib : Lib) (email token timestampStr : GoString)
    (issuedAt : Int) (body : UpdatePassword) (w : World)
    (hemail : email ≠ []) (hparse : ParseInt timestampStr = some issuedAt)
    (hsig : ValidateToken email token issuedAt = true)
    (hrange : isInt64 (w.now - issuedAt))
    (hvalid : body.Validate lib = none)
    (hbsig : ValidateToken body.Email body.Token body.Timestamp = true)
    (hbrange : isInt64 (w.now - body.Timestamp)) :
    ((UserHandler.Confirm email token timestampStr w).1
          = jsonResponse 401 ⟨true, "Token-ul a expirat."⟩
        ↔ w.now - issuedAt > 900)
      ∧ (w.now - issuedAt ≤ 900 →
          (UserHandler.Confirm email token timestampStr w).2.calls
            = w.calls ++ [Call.ActivateAccount email])
      ∧ ((UserHandler.UpdatePassword lib (some body) w).1
          = jsonResponse 400 ⟨true, "Token-ul este expirat."⟩
        ↔ w.now - body.Timestamp > 900)
      ∧ (w.now - body.Timestamp ≤ 900 →
          (UserHandler.UpdatePassword lib (some body) w).2.calls
            = w.calls ++ [Call.UpdatePassword body.Email body.NewPassword]) := by
  have e1 := wrapInt64_of_isInt64 _ hrange
  have e2 := wrapInt64_of_isInt64 _ hbrange
  refine ⟨?_, ?_, ?_, ?_⟩
  · rw [Confirm_expired_iff email token timestampStr issuedAt w hemail hparse hsig, e1]
  · intro hle
    apply Confirm_activates_of_fresh email token timestampStr issuedAt w hemail hparse hsig
    rw [e1]
    omega
  · rw [UpdatePassword_expired_iff lib body w hvalid hbsig, e2]
  · intro hle
    apply UpdatePassword_updates_of_fresh lib body w hvalid hbsig
    rw [e2]
    omega

theorem sampleReset_signed :
    ValidateToken sampleReset.Email sampleReset.Token sampleReset.Timestamp = true := by
  show ValidateToken testEmail (GenerateToken testEmail 1699999100) 1699999100 = true
  exact ValidateToken_GenerateToken testEmail 1699999100

theorem sampleReset_valid : sampleReset.Validate sampleLib = none := by
  have h1 : ParseAddress sampleLib testEmail = true := by decide
  have h2 : ¬ testPassword.length < 8 := by decide
  have h3 : containsLetter sampleLib testPassword = true := by decide
  have h4 : containsDigit sampleLib testPassword = true := by decide
  have h5 : containsSpecialChar testPassword = true := by decide
  simp [UpdatePassword.Validate, sampleReset, h1, h2, h3, h4, h5]

/-- C4, amended, at a concrete request: the token issued for `testEmail` at
1699999100, presented at 1700000000 (age 900). -/
theorem C4_expired_exactly_above_900_witness :
    (testEmail ≠ [] ∧ ParseInt (lit "1699999100") = some 1699999100
        ∧ ValidateToken testEmail (GenerateToken testEmail 1699999100) 1699999100 = true
        ∧ isInt64 (quietWorld.now - 1699999100)
        ∧ sampleReset.Validate sampleLib = none
        ∧ ValidateToken sampleReset.Email sampleReset.Token sampleReset.Timestamp = true
        ∧ isInt64 (quietWorld.now - sampleReset.Timestamp))
      ∧ (((UserHandler.Confirm testEmail (GenerateToken testEmail 1699999100)
              (lit "1699999100") quietWorld).1
            = jsonResponse 401 ⟨true, "Token-ul a expirat."⟩
          ↔ quietWorld.now - 1699999100 > 900)
        ∧ (quietWorld.now - 1699999100 ≤ 900 →
            (UserHandler.Confirm testEmail (GenerateToken testEmail 1699999100)
              (lit "1699999100") quietWorld).2.calls
              = quietWorld.calls ++ [Call.ActivateAccount testEmail])
        ∧ ((UserHandler.UpdatePassword sampleLib (some sampleReset) quietWorld).1
            = jsonResponse 400 ⟨true, "Token-ul este expirat."⟩
          ↔ quietWorld.now - sampleReset.Timestamp > 900)
        ∧ (quietWorld.now - sampleReset.Timestamp ≤ 900 →
            (UserHandler.UpdatePassword sampleLib (some sampleReset) quietWorld).2.calls
              = quietWorld.calls
                ++ [Call.UpdatePassword sampleReset.Email sampleReset.NewPassword])) :=
  ⟨⟨by decide, by decide, ValidateToken_GenerateToken testEmail 1699999100, by decide,
      sampleReset_valid, sampleReset_signed, by decide⟩,
    C4_expired_exactly_above_900 sampleLib testEmail (GenerateToken testEmail 1699999100)
      (lit "1699999100") 1699999100 sampleReset quietWorld (by decide) (by decide)
      (ValidateToken_GenerateToken testEmail 1699999100) (by decide) sampleReset_valid
      sampleReset_signed (by decide)⟩

/-- The window at the ends of `int64`: `now - issuedAt` is computed in `int64`
and wraps. A token signed for `issuedAt = -9223372036854775808` is not
rejected as expired at `now = 1700000000`, although `now - issuedAt`, as an
integer, exceeds 900: `Confirm` goes on to `ActivateAccount`. -/
theorem Confirm_window_wraps_at_minInt64 :
    ParseInt (lit "-9223372036854775808") = some (-9223372036854775808)
      ∧ quietWorld.now - (-9223372036854775808) > 900
      ∧ (UserHandler.Confirm testEmail (GenerateToken testEmail (-9223372036854775808))
          (lit "-9223372036854775808") quietWorld).1
          ≠ jsonResponse 401 ⟨true, "Token-ul a expirat."⟩
      ∧ (UserHandler.Confirm testEmail (GenerateToken testEmail (-9223372036854775808))
          (lit "-9223372036854775808") quietWorld).2.calls = [Call.ActivateAccount testEmail] := by
  have hparse : ParseInt (lit "-9223372036854775808") = some (-9223372036854775808) := by decide
  have hsig := ValidateToken_GenerateToken testEmail (-9223372036854775808)
  have hemail : testEmail ≠ [] := by decide
  have hfresh : ¬ wrapInt64 (quietWorld.now - (-9223372036854775808)) > 900 := by decide
  refine ⟨hparse, by decide, ?_, ?_⟩
  · intro h
    exact hfresh ((Confirm_expired_iff _ _ _ _ quietWorld hemail hparse hsig).1 h)
  · exact Confirm_activates_of_fresh _ _ _ _ quietWorld hemail hparse hsig hfresh

/-- C5, as stated, fails: in `UpdatePassword` an expired window is answered
400 "Token-ul este expirat.", and in `ConfirmReset` a bad signature is answered
400 "Token-ul este invalid."; neither is answered 401. -/
theorem C5_reset_token_failures_are_400 :
    sampleReset.Validate sampleLib = none
      ∧ wrapInt64 (1700001000 - sampleReset.Timestamp) > 900
      ∧ (UserHandler.UpdatePassword sampleLib (some sampleReset)
          { quietWorld with now := 1700001000 }).1
          = jsonResponse 400 ⟨true, "Token-ul este expirat."⟩
      ∧ ValidateToken testEmail (lit "x") 1699999100 = false
      ∧ (UserHandler.ConfirmReset sampleLib testEmail (lit "x") (lit "1699999100") quietWorld).1
          = jsonResponse 400 ⟨true, "Token-ul este invalid."⟩ := by
  have hx : ValidateToken testEmail (lit "x") 1699999100 = false :=
    ValidateToken_of_length_ne _ _ _ (by decide)
  have hexp : wrapInt64 (1700001000 - sampleReset.Timestamp) > 900 := by decide
  refine ⟨sampleReset_valid, hexp, ?_, hx, ?_⟩
  · rw [UpdatePassword_of_valid_body _ _ _ sampleReset_valid]
    have h : wrapInt64 (1700001000 - sampleReset.Timestamp) > 15 * 60 := by decide
    rw [show ({ quietWorld with now := 1700001000 } : World).now = 1700001000 from rfl, if_pos h]
  · have h1 : ParseAddress sampleLib testEmail = true := by decide
    have h2 : QueryInt (lit "1699999100") = 1699999100 := by decide
    have h3 : lit "x" ≠ [] := by decide
    have h4 : ¬ 900 < wrapInt64 (quietWorld.now - 1699999100) := by decide
    simp only [UserHandler.ConfirmReset, h1, h2, h3, hx]
    simp [h4]

/-- C5, amended: a token failure (a signature `ValidateToken` rejects, or
`now - issuedAt`, computed in `int64`, above 900) of a request that carries
the three parameters is answered 401 by `Confirm`; it is answered 400 by
`ConfirmReset` (for an email that parses and a timestamp other than 0) and by
`UpdatePassword` (for a body that passes `Validate`). In all three the world
is left as it was. -/
theorem C5_token_failure_status (lib : Lib) (email token timestampStr : GoString)
    (timestamp : Int) (w : World)
    (hemail : email ≠ []) (htoken : token ≠ [])
    (hparse : ParseInt timestampStr = some timestamp)
    (hfail : ValidateToken email token timestamp = false
      ∨ wrapInt64 (w.now - timestamp) > 900) :
    ((UserHandler.Confirm email token timestampStr w).1.status = 401
        ∧ (UserHandler.Confirm email token timestampStr w).2 = w)
      ∧ (ParseAddress lib email = true → timestamp ≠ 0 →
          (UserHandler.ConfirmReset lib email token timestampStr w).1.status = 400
          ∧ (UserHandler.ConfirmReset lib email token timestampStr w).2 = w)
      ∧ (∀ newPassword : GoString,
          (⟨email, token, timestamp, newPassword⟩ : UpdatePassword).Validate lib = none →
          (UserHandler.UpdatePassword lib (some ⟨email, token, timestamp, newPassword⟩) w).1.status
              = 400
          ∧ (UserHandler.UpdatePassword lib (some ⟨email, token, timestamp, newPassword⟩) w).2
              = w) := by
  have hts := ne_nil_of_ParseInt hparse
  have hq : QueryInt timestampStr = timestamp := by simp [QueryInt, hparse]
  refine ⟨?_, ?_, ?_⟩
  · cases hv : ValidateToken email token timestamp with
    | false => simp [UserHandler.Confirm, hemail, htoken, hts, hparse, hv, jsonResponse]
    | true =>
      have hexp : wrapInt64 (w.now - timestamp) > 900 := by
        rcases hfail with h | h
        · rw [hv] at h
          exact absurd h (by decide)
        · exact h
      have hexp' : wrapInt64 (w.now - timestamp) > 15 * 60 := by simpa using hexp
      rw [Confirm_of_valid_signature email token timestampStr timestamp w hemail hparse hv,
        if_pos hexp']
      exact ⟨rfl, rfl⟩
  · intro haddr hne
    by_cases hexp : 900 < wrapInt64 (w.now - timestamp)
    · simp [UserHandler.ConfirmReset, haddr, htoken, hq, hne, hexp, jsonResponse]
    · have hv : ValidateToken email token timestamp = false := by
        rcases hfail with h | h
        · exact h
        · exact absurd h hexp
      simp [UserHandler.ConfirmReset, haddr, htoken, hq, hne, hexp, hv, jsonResponse]
  · intro newPassword hvalid
    rw [UpdatePassword_of_valid_body lib _ w hvalid]
    by_cases hexp : 900 < wrapInt64 (w.now - timestamp)
    · simp [hexp, jsonResponse]
    · have hv : ValidateToken email token timestamp = false := by
        rcases hfail with h | h
        · exact h
        · exact absurd h hexp
      simp [hexp, hv, jsonResponse]

/-- C5, amended, at a concrete request: the one-byte token "x" for `testEmail`
and 1699999100. -/
theorem C5_token_failure_status_witness :
    (testEmail ≠ [] ∧ lit "x" ≠ [] ∧ ParseInt (lit "1699999100") = some 1699999100
        ∧ (ValidateToken testEmail (lit "x") 1699999100 = false
          ∨ wrapInt64 (quietWorld.now - 1699999100) > 900))
      ∧ (((UserHandler.Confirm testEmail (lit "x") (lit "1699999100") quietWorld).1.status = 401
          ∧ (UserHandler.Confirm testEmail (lit "x") (lit "1699999100") quietWorld).2 = quietWorld)
        ∧ (ParseAddress sampleLib testEmail = true → (1699999100 : Int) ≠ 0 →
            (UserHandler.ConfirmReset sampleLib testEmail (lit "x") (lit "1699999100")
              quietWorld).1.status = 400
            ∧ (UserHandler.ConfirmReset sampleLib testEmail (lit "x") (lit "1699999100")
              quietWorld).2 = quietWorld)
        ∧ (∀ newPassword : GoString,
            (⟨testEmail, lit "x", 1699999100, newPassword⟩ : UpdatePassword).Validate sampleLib
              = none →
            (UserHandler.UpdatePassword sampleLib
              (some ⟨testEmail, lit "x", 1699999100, newPassword⟩) quietWorld).1.status = 400
            ∧ (UserHandler.UpdatePassword sampleLib
              (some ⟨testEmail, lit "x", 1699999100, newPassword⟩) quietWorld).2 = quietWorld)) :=
  ⟨⟨by decide, by decide, by decide, Or.inl (ValidateToken_of_length_ne _ _ _ (by decide))⟩,
    C5_token_failure_status sampleLib testEmail (lit "x") (lit "1699999100") 1699999100
      quietWorld (by decide) (by decide) (by decide)
      (Or.inl (ValidateToken_of_length_ne _ _ _ (by decide)))⟩

/-! ## The steps of `Login` and `Register` when the round trip succeeds -/

theorem exists_step (w : World) (c : Call) :
    ∃ w1, w1 = (w.record c).tick ∧ w1.db = w.db ∧ w1.session = w.session ∧ w1.now = w.now
      ∧ w1.fault = w.fault ∧ w1.calls = w.calls ++ [c] :=
  ⟨_, rfl, rfl, rfl, rfl, rfl, rfl⟩

theorem dbGet_of_no_fault {ρ : Type} (table : DB → List ρ) (p : ρ → Bool) (w : World)
    (h : w.fault w.ops = none) :
    dbGet table p w =
      (match (table w.db).find? p with
        | some row => Except.ok row
        | none => Except.error ErrNoRows, w.tick) := by
  unfold dbGet
  rw [h]
  cases (table w.db).find? p <;> rfl

theorem find?_exists_of_mem {ρ : Type} (l : List ρ) (p : ρ → Bool) (r : ρ) (hr : r ∈ l)
    (hp : p r = true) : ∃ r', l.find? p = some r' ∧ p r' = true ∧ r' ∈ l := by
  cases hf : l.find? p with
  | none =>
    rw [List.find?_eq_none] at hf
    exact absurd hp (hf r hr)
  | some r' => exact ⟨r', rfl, List.find?_some hf, List.mem_of_find?_eq_some hf⟩

theorem CheckForBan_banned (name : GoString) (w : World) (h : w.fault w.ops = none)
    (hname : name ≠ [])
    (hrow : ∃ r ∈ w.db.blacklist, r.Username = name ∧ r.Expire ≥ w.now) :
    UserService.CheckForBan name w
      = ((true, none), (w.record (Call.CheckForBan name)).tick) := by
  obtain ⟨r, hr, hu, he⟩ := hrow
  obtain ⟨r', hfind, hp, _⟩ := find?_exists_of_mem w.db.blacklist
    (fun r => r.Username == name && decide (r.Expire ≥ w.now)) r hr (by simp [hu, he])
  have hu' : r'.Username = name := by
    simp only [Bool.and_eq_true, beq_iff_eq] at hp
    exact hp.1
  have hlen : r'.Username.length > 0 := by
    rw [hu']
    exact List.length_pos.2 hname
  unfold UserService.CheckForBan UserRepository.CheckForBan
  rw [dbGet_of_no_fault _ _ _ (by simpa using h)]
  simp only [record_db, record_now, hfind]
  simp [hlen]

theorem CheckForBan_clear (name : GoString) (w : World) (h : w.fault w.ops = none)
    (hno : ∀ r ∈ w.db.blacklist, r.Username = name → r.Expire < w.now) :
    UserService.CheckForBan name w
      = ((false, none), (w.record (Call.CheckForBan name)).tick) := by
  have hfind : w.db.blacklist.find?
      (fun r => r.Username == name && decide (r.Expire ≥ w.now)) = none := by
    rw [List.find?_eq_none]
    intro r hr
    simp only [Bool.and_eq_true, beq_iff_eq, decide_eq_true_eq, not_and, not_le, ge_iff_le]
    intro hu
    exact hno r hr hu
  unfold UserService.CheckForBan UserRepository.CheckForBan
  rw [dbGet_of_no_fault _ _ _ (by simpa using h)]
  simp only [record_db, record_now, hfind]
  simp [ErrNoRows]

theorem Fetch_found (name email : GoString) (w : World) (h : w.fault w.ops = none)
    (hnames : ∀ r ∈ w.db.accounts, r.Username ≠ [])
    (hrow : ∃ r ∈ w.db.accounts, r.Username = name ∨ r.Email = email) :
    UserService.Fetch name email w
      = ((true, none), (w.record (Call.Fetch name email)).tick) := by
  obtain ⟨r, hr, hu⟩ := hrow
  obtain ⟨r', hfind, _, hmem⟩ := find?_exists_of_mem w.db.accounts
    (fun r => r.Username == name || r.Email == email) r hr (by simpa using hu)
  have hlen : r'.Username.length ≠ 0 := by
    have := hnames r' hmem
    intro h0
    exact this (List.length_eq_zero.1 h0)
  unfold UserService.Fetch UserRepository.Fetch
  rw [dbGet_of_no_fault _ _ _ (by simpa using h)]
  simp only [record_db, hfind]
  simp [hlen]

theorem CheckActivation_of_find (name : GoString) (w : World) (acct : AccountRow)
    (h : w.fault w.ops = none)
    (hacct : w.db.accounts.find? (fun r => r.Username == name) = some acct) :
    UserService.CheckActivation name w
      = ((acct.Activated == 2, none), (w.record (Call.CheckActivation name)).tick) := by
  unfold UserService.CheckActivation UserRepository.CheckActivation
  rw [dbGet_of_no_fault _ _ _ (by simpa using h)]
  simp only [record_db, hacct]

theorem Verify_of_match (lib : Lib) (data : LoginAPI) (w : World) (h : w.fault w.ops = none)
    (hrow : ∃ r ∈ w.db.accounts, r.Username = data.Username
      ∧ r.Password = hashWP lib data.Password) :
    UserService.Verify lib data w = (none, (w.record (Call.Verify data)).tick) := by
  obtain ⟨r, hr, hu, hp⟩ := hrow
  obtain ⟨r', hfind, _, _⟩ := find?_exists_of_mem w.db.accounts
    (fun r => r.Username == data.Username && r.Password == hashWP lib data.Password) r hr
    (by simp [hu, hp])
  unfold UserService.Verify UserRepository.Verify
  rw [dbGet_of_no_fault _ _ _ (by simpa using h)]
  simp only [record_db, hfind]

theorem IsTester_of_find (name : GoString) (w : World) (acct : AccountRow)
    (h : w.fault w.ops = none)
    (hacct : w.db.accounts.find? (fun r => r.Username == name) = some acct) :
    UserService.IsTester name w
      = ((decide (acct.Tester > 0), none), (w.record (Call.IsTester name)).tick) := by
  unfold UserService.IsTester UserRepository.FetchTesterLevel
  rw [dbGet_of_no_fault _ _ _ (by simpa using h)]
  simp only [record_db, hacct]

theorem IsAdmin_of_find (name : GoString) (w : World) (acct : AccountRow)
    (h : w.fault w.ops = none)
    (hacct : w.db.accounts.find? (fun r => r.Username == name) = some acct) :
    UserService.IsAdmin name w
      = ((decide (acct.Admin > 0), none), (w.record (Call.IsAdmin name)).tick) := by
  unfold UserService.IsAdmin UserRepository.FetchAdminLevel
  rw [dbGet_of_no_fault _ _ _ (by simpa using h)]
  simp only [record_db, hacct]

theorem SaveSession_of_no_fault (name : GoString) (isTester isAdmin : Bool) (w : World)
    (h0 : w.fault w.ops = none) (h1 : w.fault (w.ops + 1) = none) :
    AuthService.SaveSession name isTester isAdmin w
      = (none, { ((w.record (Call.SaveSession name isTester isAdmin)).tick).tick with
          session := sessSet (sessSet (sessSet w.session "name" (.str name))
            "is_tester" (.bool isTester)) "is_admin" (.bool isAdmin) }) := by
  unfold AuthService.SaveSession
  simp [h0, h1]

theorem Validate_username_ne_nil {req : LoginAPI} (h : req.Validate = none) :
    req.Username ≠ [] := by
  intro h0
  simp [LoginAPI.Validate, h0] at h

/-! ## C6, C7, C8: `Login` -/

theorem Login_banned (lib : Lib) (req : LoginAPI) (w : World)
    (hvalid : req.Validate = none)
    (hban : ∃ r ∈ w.db.blacklist, r.Username = req.Username ∧ w.now < r.Expire)
    (hok : w.fault w.ops = none) :
    UserHandler.Login lib (some req) w
      = (jsonResponse 200 ⟨true, "You are banned."⟩,
          (w.record (Call.CheckForBan req.Username)).tick) := by
  have hrow : ∃ r ∈ w.db.blacklist, r.Username = req.Username ∧ r.Expire ≥ w.now := by
    obtain ⟨r, hr, hu, he⟩ := hban
    exact ⟨r, hr, hu, le_of_lt he⟩
  simp only [UserHandler.Login, hvalid,
    CheckForBan_banned req.Username w hok (Validate_username_ne_nil hvalid) hrow]
  rfl

/-- C6: for every well-formed login request whose username has an active ban
(a ban row of that username with `now < Expire`), when the ban query is
answered, `Login` answers "You are banned." (status 200) and calls nothing
but `CheckForBan`: no `Fetch`, no `CheckActivation`, no `Verify`, no
`SaveSession`; database and session are as before. The answer is the same
for every other well-formed request with that username and every other world
with the same ban rows and clock, whatever its accounts and whatever the
password. -/
theorem C6_banned_login_is_refused_before_lookup (lib : Lib) (req : LoginAPI) (w : World)
    (hvalid : req.Validate = none)
    (hban : ∃ r ∈ w.db.blacklist, r.Username = req.Username ∧ w.now < r.Expire)
    (hok : w.fault w.ops = none) :
    (UserHandler.Login lib (some req) w).1 = jsonResponse 200 ⟨true, "You are banned."⟩
      ∧ (UserHandler.Login lib (some req) w).2.calls
          = w.calls ++ [Call.CheckForBan req.Username]
      ∧ (UserHandler.Login lib (some req) w).2.db = w.db
      ∧ (UserHandler.Login lib (some req) w).2.session = w.session
      ∧ (∀ (req' : LoginAPI) (w' : World), req'.Validate = none →
          req'.Username = req.Username → w'.db.blacklist = w.db.blacklist → w'.now = w.now →
          w'.fault w'.ops = none →
          (UserHandler.Login lib (some req') w').1 = (UserHandler.Login lib (some req) w).1) := by
  rw [Login_banned lib req w hvalid hban hok]
  refine ⟨rfl, rfl, rfl, rfl, ?_⟩
  intro req' w' hvalid' hu hbl hnow hok'
  rw [Login_banned lib req' w' hvalid' (by rw [hbl, hu, hnow]; exact hban) hok']

theorem sampleLogin_valid : sampleLogin.Validate = none := by decide

/-- C6 at a concrete request: the test login in a world where the test
account has a ban that expires in a day. -/
theorem C6_banned_login_is_refused_before_lookup_witness :
    (sampleLogin.Validate = none
        ∧ (∃ r ∈ bannedWorld.db.blacklist, r.Username = sampleLogin.Username
            ∧ bannedWorld.now < r.Expire)
        ∧ bannedWorld.fault bannedWorld.ops = none)
      ∧ ((UserHandler.Login sampleLib (some sampleLogin) bannedWorld).1
            = jsonResponse 200 ⟨true, "You are banned."⟩
        ∧ (UserHandler.Login sampleLib (some sampleLogin) bannedWorld).2.calls
            = bannedWorld.calls ++ [Call.CheckForBan sampleLogin.Username]
        ∧ (UserHandler.Login sampleLib (some sampleLogin) bannedWorld).2.db = bannedWorld.db
        ∧ (UserHandler.Login sampleLib (some sampleLogin) bannedWorld).2.session
            = bannedWorld.session
        ∧ (∀ (req' : LoginAPI) (w' : World), req'.Validate = none →
            req'.Username = sampleLogin.Username →
            w'.db.blacklist = bannedWorld.db.blacklist → w'.now = bannedWorld.now →
            w'.fault w'.ops = none →
            (UserHandler.Login sampleLib (some req') w').1
              = (UserHandler.Login sampleLib (some sampleLogin) bannedWorld).1)) :=
  ⟨⟨sampleLogin_valid, ⟨sampleBan, by decide, by decide, by decide⟩, rfl⟩,
    C6_banned_login_is_refused_before_lookup sampleLib sampleLogin bannedWorld sampleLogin_valid
      ⟨sampleBan, by decide, by decide, by decide⟩ rfl⟩

theorem Login_not_activated (lib : Lib) (req : LoginAPI) (w : World) (acct : AccountRow)
    (hvalid : req.Validate = none)
    (hacct : w.db.accounts.find? (fun r => r.Username == req.Username) = some acct)
    (hnames : ∀ r ∈ w.db.accounts, r.Username ≠ [])
    (hact : acct.Activated ≠ 2)
    (hnoban : ∀ r ∈ w.db.blacklist, r.Username = req.Username → r.Expire < w.now)
    (hok : ∀ n, w.fault n = none) :
    UserHandler.Login lib (some req) w
      = (jsonResponse 409 ⟨true, "Contul nu este activat. Verifica adresa de email."⟩,
          (((((w.record (Call.CheckForBan req.Username)).tick).record
            (Call.Fetch req.Username [])).tick).record
            (Call.CheckActivation req.Username)).tick) := by
  have hmem : acct ∈ w.db.accounts := List.mem_of_find?_eq_some hacct
  have hu : acct.Username = req.Username := by
    have := List.find?_some hacct
    simpa using this
  have hact' : (acct.Activated == 2) = false := by simpa using hact
  simp only [UserHandler.Login, hvalid, CheckForBan_clear req.Username w (hok _) hnoban,
    Bool.false_eq_true, if_false]
  rw [Fetch_found req.Username [] (w.record (Call.CheckForBan req.Username)).tick (hok _) hnames
    ⟨acct, hmem, Or.inl hu⟩]
  simp only [Bool.false_eq_true, if_false, Bool.not_true]
  rw [CheckActivation_of_find req.Username
    (((w.record (Call.CheckForBan req.Username)).tick.record
      (Call.Fetch req.Username [])).tick) acct (hok _) hacct]
  simp [hact']

/-- C7, as stated, fails: for the empty password `Login` answers 422 with the
message "Numele sau parola sunt gresite.", not 409, although the account
exists, is not banned and has activation 0. -/
theorem C7_empty_password_is_422 :
    registeredWorld.db.accounts.find? (fun r => r.Username == testUsername) = some sampleAccount
      ∧ sampleAccount.Activated ≠ 2
      ∧ registeredWorld.db.blacklist = []
      ∧ (UserHandler.Login sampleLib (some ⟨testUsername, []⟩) registeredWorld).1
          = jsonResponse 422 ⟨true, "Numele sau parola sunt gresite."⟩ := by
  refine ⟨by decide, by decide, rfl, ?_⟩
  simp [UserHandler.Login, LoginAPI.Validate]

/-- C7, amended: for every existing, non-banned account (no ban row of its
username with `Expire >= now`) whose stored activation value is not 2, and
every well-formed login request for it (alphanumeric username, non-empty
password, right or wrong), with usernames in storage non-empty and storage
answering, `Login` answers 409 with the message "Contul nu este activat.
Verifica adresa de email."; it calls `CheckForBan`, `Fetch` and
`CheckActivation` and nothing else (no `Verify`, no `SaveSession`), and
session and database are as before. -/
theorem C7_unactivated_login_is_409 (lib : Lib) (req : LoginAPI) (w : World) (acct : AccountRow)
    (hvalid : req.Validate = none)
    (hacct : w.db.accounts.find? (fun r => r.Username == req.Username) = some acct)
    (hnames : ∀ r ∈ w.db.accounts, r.Username ≠ [])
    (hact : acct.Activated ≠ 2)
    (hnoban : ∀ r ∈ w.db.blacklist, r.Username = req.Username → r.Expire < w.now)
    (hok : ∀ n, w.fault n = none) :
    (UserHandler.Login lib (some req) w).1
        = jsonResponse 409 ⟨true, "Contul nu este activat. Verifica adresa de email."⟩
      ∧ (UserHandler.Login lib (some req) w).2.calls
          = w.calls ++ [Call.CheckForBan req.Username, Call.Fetch req.Username [],
              Call.CheckActivation req.Username]
      ∧ (UserHandler.Login lib (some req) w).2.session = w.session
      ∧ (UserHandler.Login lib (some req) w).2.db = w.db := by
  rw [Login_not_activated lib req w acct hvalid hacct hnames hact hnoban hok]
  refine ⟨rfl, ?_, rfl, rfl⟩
  simp

/-- C7, amended, at a concrete request: the test login right after
registration (activation 0). -/
theorem C7_unactivated_login_is_409_witness :
    (sampleLogin.Validate = none
        ∧ registeredWorld.db.accounts.find? (fun r => r.Username == sampleLogin.Username)
            = some sampleAccount
        ∧ (∀ r ∈ registeredWorld.db.accounts, r.Username ≠ [])
        ∧ sampleAccount.Activated ≠ 2
        ∧ (∀ r ∈ registeredWorld.db.blacklist, r.Username = sampleLogin.Username →
            r.Expire < registeredWorld.now)
        ∧ (∀ n, registeredWorld.fault n = none))
      ∧ ((UserHandler.Login sampleLib (some sampleLogin) registeredWorld).1
            = jsonResponse 409 ⟨true, "Contul nu este activat. Verifica adresa de email."⟩
        ∧ (UserHandler.Login sampleLib (some sampleLogin) registeredWorld).2.calls
            = registeredWorld.calls ++ [Call.CheckForBan sampleLogin.Username,
                Call.Fetch sampleLogin.Username [], Call.CheckActivation sampleLogin.Username]
        ∧ (UserHandler.Login sampleLib (some sampleLogin) registeredWorld).2.session
            = registeredWorld.session
        ∧ (UserHandler.Login sampleLib (some sampleLogin) registeredWorld).2.db
            = registeredWorld.db) :=
  ⟨⟨sampleLogin_valid, by decide, by decide, by decide, by decide, fun _ => rfl⟩,
    C7_unactivated_login_is_409 sampleLib sampleLogin registeredWorld sampleAccount
      sampleLogin_valid (by decide) (by decide) (by decide) (by decide) (fun _ => rfl)⟩

theorem CheckSession_of_saved (w : World) (s : List (String × SessionValue)) (name : GoString)
    (isTester isAdmin : Bool) (hok : w.fault w.ops = none)
    (hs : w.session = sessSet (sessSet (sessSet s "name" (.str name))
      "is_tester" (.bool isTester)) "is_admin" (.bool isAdmin)) :
    (AuthService.CheckSession w).1 = ⟨name, isAdmin, isTester, none⟩ := by
  have h1 : sessGet w.session "name" = some (.str name) := by
    rw [hs]
    simp [sessGet, sessSet, List.lookup, List.filter]
  have h2 : sessGet w.session "is_admin" = some (.bool isAdmin) := by
    rw [hs]
    simp [sessGet, sessSet, List.lookup]
  have h3 : sessGet w.session "is_tester" = some (.bool isTester) := by
    rw [hs]
    simp [sessGet, sessSet, List.lookup, List.filter]
  simp [AuthService.CheckSession, hok, h1, h2, h3]

theorem Login_success (lib : Lib) (req : LoginAPI) (w : World) (acct : AccountRow)
    (hvalid : req.Validate = none)
    (hacct : w.db.accounts.find? (fun r => r.Username == req.Username) = some acct)
    (hnames : ∀ r ∈ w.db.accounts, r.Username ≠ [])
    (hact : acct.Activated = 2)
    (hpw : acct.Password = hashWP lib req.Password)
    (hnoban : ∀ r ∈ w.db.blacklist, r.Username = req.Username → r.Expire < w.now)
    (hok : ∀ n, w.fault n = none) :
    ∃ w', UserHandler.Login lib (some req) w = (jsonResponse 202 ⟨false, ""⟩, w')
      ∧ w'.fault = w.fault ∧ w'.db = w.db
      ∧ w'.session = sessSet (sessSet (sessSet w.session "name" (.str req.Username))
          "is_tester" (.bool (decide (acct.Tester > 0)))) "is_admin"
          (.bool (decide (acct.Admin > 0)))
      ∧ w'.calls = w.calls ++ [Call.CheckForBan req.Username, Call.Fetch req.Username [],
          Call.CheckActivation req.Username, Call.Verify req, Call.IsTester req.Username,
          Call.IsAdmin req.Username,
          Call.SaveSession req.Username (decide (acct.Tester > 0)) (decide (acct.Admin > 0))] := by
  have hmem : acct ∈ w.db.accounts := List.mem_of_find?_eq_some hacct
  have hu : acct.Username = req.Username := by
    have := List.find?_some hacct
    simpa using this
  have hact' : (acct.Activated == 2) = true := by simp [hact]
  obtain ⟨w1, hw1, d1, s1, n1, f1, c1⟩ := exists_step w (Call.CheckForBan req.Username)
  obtain ⟨w2, hw2, d2, s2, n2, f2, c2⟩ := exists_step w1 (Call.Fetch req.Username [])
  obtain ⟨w3, hw3, d3, s3, n3, f3, c3⟩ := exists_step w2 (Call.CheckActivation req.Username)
  obtain ⟨w4, hw4, d4, s4, n4, f4, c4⟩ := exists_step w3 (Call.Verify req)
  obtain ⟨w5, hw5, d5, s5, n5, f5, c5⟩ := exists_step w4 (Call.IsTester req.Username)
  obtain ⟨w6, hw6, d6, s6, n6, f6, c6⟩ := exists_step w5 (Call.IsAdmin req.Username)
  rw [d1] at d2
  rw [d2] at d3
  rw [d3] at d4
  rw [d4] at d5
  rw [d5] at d6
  rw [f1] at f2
  rw [f2] at f3
  rw [f3] at f4
  rw [f4] at f5
  rw [f5] at f6
  have e1 : UserService.CheckForBan req.Username w = ((false, none), w1) := by
    rw [hw1]
    exact CheckForBan_clear req.Username w (hok _) hnoban
  have e2 : UserService.Fetch req.Username [] w1 = ((true, none), w2) := by
    rw [hw2]
    exact Fetch_found req.Username [] w1 (by rw [f1]; exact hok _) (by rw [d1]; exact hnames)
      ⟨acct, by rw [d1]; exact hmem, Or.inl hu⟩
  have e3 : UserService.CheckActivation req.Username w2 = ((true, none), w3) := by
    rw [hw3, CheckActivation_of_find req.Username w2 acct (by rw [f2]; exact hok _)
      (by rw [d2]; exact hacct), hact']
  have e4 : UserService.Verify lib req w3 = (none, w4) := by
    rw [hw4]
    exact Verify_of_match lib req w3 (by rw [f3]; exact hok _)
      ⟨acct, by rw [d3]; exact hmem, hu, hpw⟩
  have e5 : UserService.IsTester req.Username w4 = ((decide (acct.Tester > 0), none), w5) := by
    rw [hw5]
    exact IsTester_of_find req.Username w4 acct (by rw [f4]; exact hok _)
      (by rw [d4]; exact hacct)
  have e6 : UserService.IsAdmin req.Username w5 = ((decide (acct.Admin > 0), none), w6) := by
    rw [hw6]
    exact IsAdmin_of_find req.Username w5 acct (by rw [f5]; exact hok _)
      (by rw [d5]; exact hacct)
  have e7 := SaveSession_of_no_fault req.Username (decide (acct.Tester > 0))
    (decide (acct.Admin > 0)) w6 (by rw [f6]; exact hok _) (by rw [f6]; exact hok _)
  refine ⟨{ ((w6.record (Call.SaveSession req.Username (decide (acct.Tester > 0))
      (decide (acct.Admin > 0)))).tick).tick with
      session := sessSet (sessSet (sessSet w6.session "name" (.str req.Username))
        "is_tester" (.bool (decide (acct.Tester > 0)))) "is_admin"
        (.bool (decide (acct.Admin > 0))) }, ?_, ?_, ?_, ?_, ?_⟩
  · simp only [UserHandler.Login, hvalid, e1, e2, e3, e4, e5, e6, e7, Bool.false_eq_true,
      if_false, Bool.not_true]
  · exact f6
  · exact d6
  · show sessSet (sessSet (sessSet w6.session _ _) _ _) _ _ = _
    rw [s6, s5, s4, s3, s2, s1]
  · show w6.calls ++ [_] = _
    rw [c6, c5, c4, c3, c2, c1]
    simp

/-- C8: for every existing account that is not banned (no ban row of its
username with `Expire >= now`) and is activated (stored activation 2), and a
well-formed login request with the matching password (the stored digest is
`hashWP` of it), with usernames in storage non-empty and no storage error,
`Login` answers 202, and `CheckSession` on the world after it returns the
username of the request, `isAdmin = (stored Admin > 0)` and
`isTester = (stored Tester > 0)`, without error; with both levels 0 the flags
are `(false, false)`. -/
theorem C8_login_saves_role_flags (lib : Lib) (req : LoginAPI) (w : World) (acct : AccountRow)
    (hvalid : req.Validate = none)
    (hacct : w.db.accounts.find? (fun r => r.Username == req.Username) = some acct)
    (hnames : ∀ r ∈ w.db.accounts, r.Username ≠ [])
    (hact : acct.Activated = 2)
    (hpw : acct.Password = hashWP lib req.Password)
    (hnoban : ∀ r ∈ w.db.blacklist, r.Username = req.Username → r.Expire < w.now)
    (hok : ∀ n, w.fault n = none) :
    (UserHandler.Login lib (some req) w).1 = jsonResponse 202 ⟨false, ""⟩
      ∧ (AuthService.CheckSession (UserHandler.Login lib (some req) w).2).1
          = ⟨req.Username, decide (acct.Admin > 0), decide (acct.Tester > 0), none⟩
      ∧ (acct.Admin = 0 → acct.Tester = 0 →
          (AuthService.CheckSession (UserHandler.Login lib (some req) w).2).1
            = ⟨req.Username, false, false, none⟩) := by
  obtain ⟨w', hlogin, hfault, _, hsess, _⟩ :=
    Login_success lib req w acct hvalid hacct hnames hact hpw hnoban hok
  have hcs := CheckSession_of_saved w' w.session req.Username (decide (acct.Tester > 0))
    (decide (acct.Admin > 0)) (by rw [hfault]; exact hok _) hsess
  rw [hlogin]
  refine ⟨rfl, hcs, ?_⟩
  intro ha ht
  rw [hcs, ha, ht]
  rfl

/-- C8 at a concrete request: the test login after the test account is
confirmed; both levels are 0. -/
theorem C8_login_saves_role_flags_witness :
    (sampleLogin.Validate = none
        ∧ confirmedWorld.db.accounts.find? (fun r => r.Username == sampleLogin.Username)
            = some { sampleAccount with Activated := 2 }
        ∧ (∀ r ∈ confirmedWorld.db.accounts, r.Username ≠ [])
        ∧ ({ sampleAccount with Activated := 2 } : AccountRow).Activated = 2
        ∧ ({ sampleAccount with Activated := 2 } : AccountRow).Password
            = hashWP sampleLib sampleLogin.Password
        ∧ (∀ r ∈ confirmedWorld.db.blacklist, r.Username = sampleLogin.Username →
            r.Expire < confirmedWorld.now)
        ∧ (∀ n, confirmedWorld.fault n = none))
      ∧ ((UserHandler.Login sampleLib (some sampleLogin) confirmedWorld).1
            = jsonResponse 202 ⟨false, ""⟩
        ∧ (AuthService.CheckSession
              (UserHandler.Login sampleLib (some sampleLogin) confirmedWorld).2).1
            = ⟨sampleLogin.Username,
                decide (({ sampleAccount with Activated := 2 } : AccountRow).Admin > 0),
                decide (({ sampleAccount with Activated := 2 } : AccountRow).Tester > 0), none⟩
        ∧ (({ sampleAccount with Activated := 2 } : AccountRow).Admin = 0 →
            ({ sampleAccount with Activated := 2 } : AccountRow).Tester = 0 →
            (AuthService.CheckSession
                (UserHandler.Login sampleLib (some sampleLogin) confirmedWorld).2).1
              = ⟨sampleLogin.Username, false, false, none⟩)) :=
  ⟨⟨sampleLogin_valid, by decide, by decide, rfl, rfl, by decide, fun _ => rfl⟩,
    C8_login_saves_role_flags sampleLib sampleLogin confirmedWorld
      { sampleAccount with Activated := 2 } sampleLogin_valid (by decide) (by decide) rfl rfl
      (by decide) (fun _ => rfl)⟩

/-! ## C9: `Register` on a duplicate -/

theorem Register_duplicate (lib : Lib) (req : RegisterAPI) (w : World) (acct : AccountRow)
    (hvalid : req.Validate lib = none)
    (hmem : acct ∈ w.db.accounts)
    (hdup : acct.Username = req.Username ∨ acct.Email = req.Email)
    (hnames : ∀ r ∈ w.db.accounts, r.Username ≠ [])
    (hok : w.fault w.ops = none) :
    UserHandler.Register lib (some req) w
      = (jsonResponse 409 ⟨true, "Exista deja un cont cu acest nume sau aceasta adresa de mail."⟩,
          (w.record (Call.Fetch req.Username req.Email)).tick) := by
  simp only [UserHandler.Register, hvalid,
    Fetch_found req.Username req.Email w hok hnames ⟨acct, hmem, hdup⟩, if_true]

/-- C9: for every valid registration request, if an existing account has the
same username or the same email (either one alone suffices), with usernames
in storage non-empty and the lookup answered, `Register` answers 409 with the
message "Exista deja un cont cu acest nume sau aceasta adresa de mail."; it
calls `Fetch` and nothing else (no `Create`) and leaves the database as it
was. The response is the same, byte for byte, for every other valid request
in every other world that collides with an account there, whichever field
collides. -/
theorem C9_duplicate_registration_is_409 (lib : Lib) (req : RegisterAPI) (w : World)
    (acct : AccountRow)
    (hvalid : req.Validate lib = none)
    (hmem : acct ∈ w.db.accounts)
    (hdup : acct.Username = req.Username ∨ acct.Email = req.Email)
    (hnames : ∀ r ∈ w.db.accounts, r.Username ≠ [])
    (hok : w.fault w.ops = none) :
    (UserHandler.Register lib (some req) w).1
        = jsonResponse 409 ⟨true, "Exista deja un cont cu acest nume sau aceasta adresa de mail."⟩
      ∧ (UserHandler.Register lib (some req) w).2.calls
          = w.calls ++ [Call.Fetch req.Username req.Email]
      ∧ (UserHandler.Register lib (some req) w).2.db = w.db
      ∧ (∀ (req' : RegisterAPI) (w' : World) (acct' : AccountRow), req'.Validate lib = none →
          acct' ∈ w'.db.accounts → (acct'.Username = req'.Username ∨ acct'.Email = req'.Email) →
          (∀ r ∈ w'.db.accounts, r.Username ≠ []) → w'.fault w'.ops = none →
          (UserHandler.Register lib (some req') w').1
            = (UserHandler.Register lib (some req) w).1) := by
  rw [Register_duplicate lib req w acct hvalid hmem hdup hnames hok]
  refine ⟨rfl, rfl, rfl, ?_⟩
  intro req' w' acct' hvalid' hmem' hdup' hnames' hok'
  rw [Register_duplicate lib req' w' acct' hvalid' hmem' hdup' hnames' hok']

theorem runes_testPassword : runes testPassword = [116, 101, 115, 116, 49, 50, 51, 46] := by
  decide

theorem runes_specialChars :
    runes specialChars = [33, 64, 35, 36, 37, 94, 38, 42, 40, 41, 45, 95, 61, 43, 91, 93, 123,
      125, 124, 59, 58, 39, 34, 44, 46, 60, 62, 63, 47, 96, 126] := by
  decide

theorem testPassword_checks (lib : Lib) :
    ¬ testPassword.length < 8 ∧ containsLetter lib testPassword = true
      ∧ containsDigit lib testPassword = true ∧ containsSpecialChar testPassword = true := by
  refine ⟨by decide, ?_, ?_, by decide⟩
  · simp [containsLetter, runes_testPassword, IsLetter]
  · simp [containsDigit, runes_testPassword, IsDigit]

theorem ParseAddress_ne_nil {lib : Lib} {s : GoString} (h : ParseAddress lib s = true) :
    s ≠ [] := by
  intro h0
  rw [h0] at h
  simp [ParseAddress] at h

theorem Register_Validate_of_checks (lib : Lib) (r : RegisterAPI)
    (huser : validUsername r.Username = true) (hmail : ParseAddress lib r.Email = true)
    (hpw : ¬ r.Password.length < 8) (hl : containsLetter lib r.Password = true)
    (hd : containsDigit lib r.Password = true) (hs : containsSpecialChar r.Password = true) :
    r.Validate lib = none := by
  have hu : r.Username ≠ [] := by
    intro h0
    rw [h0] at huser
    simp [validUsername] at huser
  have he := ParseAddress_ne_nil hmail
  have hp : r.Password ≠ [] := by
    intro h0
    rw [h0] at hpw
    simp at hpw
  simp [RegisterAPI.Validate, hu, he, hp, huser, hmail, hpw, hl, hd, hs]

theorem sampleRegister_valid (lib : Lib) (hmail : ParseAddress lib testEmail = true) :
    sampleRegister.Validate lib = none := by
  obtain ⟨h1, h2, h3, h4⟩ := testPassword_checks lib
  exact Register_Validate_of_checks lib sampleRegister (by decide) hmail h1 h2 h3 h4

/-- C9 at a concrete request: a second registration with the user name of the
test account and another email. -/
theorem C9_duplicate_registration_is_409_witness :
    (({ sampleRegister with Email := lit "other@test.ro" } : RegisterAPI).Validate sampleLib = none
        ∧ sampleAccount ∈ registeredWorld.db.accounts
        ∧ (sampleAccount.Username
              = ({ sampleRegister with Email := lit "other@test.ro" } : RegisterAPI).Username
            ∨ sampleAccount.Email
              = ({ sampleRegister with Email := lit "other@test.ro" } : RegisterAPI).Email)
        ∧ (∀ r ∈ registeredWorld.db.accounts, r.Username ≠ [])
        ∧ registeredWorld.fault registeredWorld.ops = none)
      ∧ ((UserHandler.Register sampleLib
            (some { sampleRegister with Email := lit "other@test.ro" }) registeredWorld).1
          = jsonResponse 409
              ⟨true, "Exista deja un cont cu acest nume sau aceasta adresa de mail."⟩
        ∧ (UserHandler.Register sampleLib
            (some { sampleRegister with Email := lit "other@test.ro" }) registeredWorld).2.calls
          = registeredWorld.calls ++ [Call.Fetch
              ({ sampleRegister with Email := lit "other@test.ro" } : RegisterAPI).Username
              ({ sampleRegister with Email := lit "other@test.ro" } : RegisterAPI).Email]
        ∧ (UserHandler.Register sampleLib
            (some { sampleRegister with Email := lit "other@test.ro" }) registeredWorld).2.db
          = registeredWorld.db
        ∧ (∀ (req' : RegisterAPI) (w' : World) (acct' : AccountRow),
            req'.Validate sampleLib = none → acct' ∈ w'.db.accounts →
            (acct'.Username = req'.Username ∨ acct'.Email = req'.Email) →
            (∀ r ∈ w'.db.accounts, r.Username ≠ []) → w'.fault w'.ops = none →
            (UserHandler.Register sampleLib (some req') w').1
              = (UserHandler.Register sampleLib
                  (some { sampleRegister with Email := lit "other@test.ro" }) registeredWorld).1)) :=
  have hv : ({ sampleRegister with Email := lit "other@test.ro" } : RegisterAPI).Validate sampleLib
      = none :=
    Register_Validate_of_checks sampleLib _ (by decide) (by decide)
      (testPassword_checks sampleLib).1 (testPassword_checks sampleLib).2.1
      (testPassword_checks sampleLib).2.2.1 (testPassword_checks sampleLib).2.2.2
  ⟨⟨hv, by decide, Or.inl rfl, by decide, rfl⟩,
    C9_duplicate_registration_is_409 sampleLib { sampleRegister with Email := lit "other@test.ro" }
      registeredWorld sampleAccount hv (by decide) (Or.inl rfl) (by decide) rfl⟩

/-! ## C10: `RegisterAPI.Validate` -/

theorem validUsername_iff (s : GoString) :
    validUsername s = true ↔
      s ≠ [] ∧ ∀ b ∈ s, (97 ≤ b.val ∧ b.val ≤ 122) ∨ (65 ≤ b.val ∧ b.val ≤ 90)
        ∨ (48 ≤ b.val ∧ b.val ≤ 57) := by
  cases s with
  | nil => simp [validUsername]
  | cons a rest => simp [validUsername, List.all_eq_true]

/-- C10: for every `RegisterAPI` whose username is a non-empty string of ASCII
letters and digits and whose email parses as a mail address, `Validate`
returns nil exactly when the password is at least 8 bytes long and its
decoding contains a letter (`unicode.IsLetter`), a digit (`unicode.IsDigit`)
and one of the 31 characters ``!@#$%^&*()-_=+[]{}|;:'",.<>?/`~`` (listed by
code point); the 8-byte password "test123." is accepted. -/
theorem C10_register_validate_password_rule (lib : Lib) (r : RegisterAPI)
    (hne : r.Username ≠ [])
    (halnum : ∀ b ∈ r.Username, (97 ≤ b.val ∧ b.val ≤ 122) ∨ (65 ≤ b.val ∧ b.val ≤ 90)
      ∨ (48 ≤ b.val ∧ b.val ≤ 57))
    (hmail : ParseAddress lib r.Email = true) :
    (r.Validate lib = none ↔
        8 ≤ r.Password.length
          ∧ (∃ c ∈ runes r.Password, IsLetter lib c = true)
          ∧ (∃ c ∈ runes r.Password, IsDigit lib c = true)
          ∧ (∃ c ∈ runes r.Password, c ∈ [33, 64, 35, 36, 37, 94, 38, 42, 40, 41, 45, 95, 61, 43,
              91, 93, 123, 125, 124, 59, 58, 39, 34, 44, 46, 60, 62, 63, 47, 96, 126]))
      ∧ testPassword.length = 8
      ∧ ({ r with Password := testPassword } : RegisterAPI).Validate lib = none := by
  have huser : validUsername r.Username = true := (validUsername_iff _).2 ⟨hne, halnum⟩
  have he := ParseAddress_ne_nil hmail
  refine ⟨?_, by decide, ?_⟩
  · have hl : containsLetter lib r.Password = true ↔ ∃ c ∈ runes r.Password, IsLetter lib c = true := by
      simp [containsLetter, List.any_eq_true]
    have hd : containsDigit lib r.Password = true ↔ ∃ c ∈ runes r.Password, IsDigit lib c = true := by
      simp [containsDigit, List.any_eq_true]
    have hs : containsSpecialChar r.Password = true ↔
        ∃ c ∈ runes r.Password, c ∈ [33, 64, 35, 36, 37, 94, 38, 42, 40, 41, 45, 95, 61, 43,
          91, 93, 123, 125, 124, 59, 58, 39, 34, 44, 46, 60, 62, 63, 47, 96, 126] := by
      unfold containsSpecialChar
      rw [runes_specialChars, List.any_eq_true]
      constructor
      · rintro ⟨c, hc, h⟩
        rw [List.any_eq_true] at h
        obtain ⟨sc, hsc, heq⟩ := h
        have : c = sc := by simpa using heq
        exact ⟨c, hc, this ▸ hsc⟩
      · rintro ⟨c, hc, h⟩
        refine ⟨c, hc, ?_⟩
        rw [List.any_eq_true]
        exact ⟨c, h, by simp⟩
    rw [← hl, ← hd, ← hs]
    by_cases hp : r.Password = []
    · simp [RegisterAPI.Validate, hp]
    · by_cases h8 : r.Password.length < 8
      · have : ¬ 8 ≤ r.Password.length := by omega
        simp [RegisterAPI.Validate, hne, he, hp, huser, hmail, h8, this]
      · have h8' : 8 ≤ r.Password.length := by omega
        cases h1 : containsLetter lib r.Password <;> cases h2 : containsDigit lib r.Password <;>
          cases h3 : containsSpecialChar r.Password <;>
          simp [RegisterAPI.Validate, hne, he, hp, huser, hmail, h8, h8', h1, h2, h3]
  · obtain ⟨h1, h2, h3, h4⟩ := testPassword_checks lib
    exact Register_Validate_of_checks lib _ huser hmail h1 h2 h3 h4

/-- C10 at a concrete request: the registration of the tests. -/
theorem C10_register_validate_password_rule_witness :
    (sampleRegister.Username ≠ []
        ∧ (∀ b ∈ sampleRegister.Username, (97 ≤ b.val ∧ b.val ≤ 122) ∨ (65 ≤ b.val ∧ b.val ≤ 90)
            ∨ (48 ≤ b.val ∧ b.val ≤ 57))
        ∧ ParseAddress sampleLib sampleRegister.Email = true)
      ∧ ((sampleRegister.Validate sampleLib = none ↔
            8 ≤ sampleRegister.Password.length
              ∧ (∃ c ∈ runes sampleRegister.Password, IsLetter sampleLib c = true)
              ∧ (∃ c ∈ runes sampleRegister.Password, IsDigit sampleLib c = true)
              ∧ (∃ c ∈ runes sampleRegister.Password, c ∈ [33, 64, 35, 36, 37, 94, 38, 42, 40, 41,
                  45, 95, 61, 43, 91, 93, 123, 125, 124, 59, 58, 39, 34, 44, 46, 60, 62, 63, 47,
                  96, 126]))
        ∧ testPassword.length = 8
        ∧ ({ sampleRegister with Password := testPassword } : RegisterAPI).Validate sampleLib
            = none) :=
  ⟨⟨by decide, ((validUsername_iff sampleRegister.Username).1 (by decide)).2, by decide⟩,
    C10_register_validate_password_rule sampleLib sampleRegister (by decide)
      ((validUsername_iff sampleRegister.Username).1 (by decide)).2 (by decide)⟩

/-! ## C11: `ResetRequest` -/

/-- C11: for every email and every world, the response of `ResetRequest` is
400 "Adresa de email este invalida." when the email does not parse, and
otherwise 500 "Nu a putut fi trimis mailul catre adresa oferita." or 200
according to whether the delivery (the round trip to the mail relay) fails;
the handler calls nothing but `SendEmail` and leaves the database as it was.
So two worlds that agree on the outcome of the delivery get the same response,
whatever their accounts. -/
theorem C11_reset_request_ignores_accounts (lib : Lib) (email : GoString) (w : World) :
    (UserHandler.ResetRequest lib email w).1
        = (if ParseAddress lib email = false then
            jsonResponse 400 ⟨true, "Adresa de email este invalida."⟩
           else if (w.fault w.ops).isSome then
            jsonResponse 500 ⟨true, "Nu a putut fi trimis mailul catre adresa oferita."⟩
           else jsonResponse 200 ⟨false, ""⟩)
      ∧ (UserHandler.ResetRequest lib email w).2.db = w.db
      ∧ (∀ c ∈ (UserHandler.ResetRequest lib email w).2.calls,
          c ∈ w.calls ∨ ∃ subject body, c = Call.SendEmail email subject body)
      ∧ (∀ w' : World, w'.fault w'.ops = w.fault w.ops →
          (UserHandler.ResetRequest lib email w').1 = (UserHandler.ResetRequest lib email w).1) := by
  have key : ∀ x : World, (UserHandler.ResetRequest lib email x).1
      = (if ParseAddress lib email = false then
          jsonResponse 400 ⟨true, "Adresa de email este invalida."⟩
         else if (x.fault x.ops).isSome then
          jsonResponse 500 ⟨true, "Nu a putut fi trimis mailul catre adresa oferita."⟩
         else jsonResponse 200 ⟨false, ""⟩) := by
    intro x
    unfold UserHandler.ResetRequest EmailService.SendEmail
    cases hp : ParseAddress lib email
    · simp
    · cases hf : x.fault x.ops <;> simp [hf]
  refine ⟨key w, ?_, ?_, ?_⟩
  · unfold UserHandler.ResetRequest EmailService.SendEmail
    cases hp : ParseAddress lib email
    · simp
    · cases hf : w.fault w.ops <;> simp [hf]
  · unfold UserHandler.ResetRequest EmailService.SendEmail
    cases hp : ParseAddress lib email
    · simp only [Bool.not_false, if_true]
      exact fun c hc => Or.inl hc
    · cases hf : w.fault w.ops <;> simp only [Bool.not_true, Bool.false_eq_true, if_false, record_fault, record_ops, hf,
        tick_calls, record_calls, List.mem_append, List.mem_singleton] <;>
      · intro c hc
        rcases hc with h | h
        · exact Or.inl h
        · exact Or.inr ⟨_, _, h⟩
  · intro w' h
    rw [key w', key w, h]

/-! ## C12: `Register` when the mail cannot be sent -/

theorem Fetch_db_now (name email : GoString) (w : World) :
    (UserService.Fetch name email w).2.db = w.db
      ∧ (UserService.Fetch name email w).2.now = w.now := by
  unfold UserService.Fetch UserRepository.Fetch
  have h := dbGet_frame DB.accounts (fun r => r.Username == name || r.Email == email)
    (w.record (Call.Fetch name email))
  revert h
  cases dbGet DB.accounts (fun r => r.Username == name || r.Email == email)
    (w.record (Call.Fetch name email)) with
  | mk r w1 =>
    intro h
    have h1 : w1.db = w.db := h.2
    have h2 : w1.now = w.now := h.1.2.2.1
    cases r with
    | error e => by_cases he : e = ErrNoRows <;> simp [he, h1, h2]
    | ok row => exact ⟨h1, h2⟩

/-- A transaction that returns nil: `Beginx` succeeded, the body returned nil,
`Commit` succeeded. -/
theorem withTransaction_ok {txFunc : World → Option GoError × World} {w w2 : World}
    (h : withTransaction txFunc w = (none, w2)) :
    w.fault w.ops = none
      ∧ ∃ w1, txFunc w.tick = (none, w1) ∧ w1.fault w1.ops = none ∧ w2 = w1.tick := by
  unfold withTransaction at h
  cases h0 : w.fault w.ops with
  | some e => simp [h0] at h
  | none =>
    simp only [h0] at h
    refine ⟨rfl, ?_⟩
    cases hb : txFunc w.tick with
    | mk r w1 =>
      rw [hb] at h
      cases r with
      | some e =>
        exfalso
        simp only [] at h
        split at h <;> simp at h
      | none =>
        cases h1 : w1.fault w1.ops with
        | some e => simp [h1] at h
        | none =>
          simp only [h1, Prod.mk.injEq, true_and] at h
          exact ⟨w1, rfl, h1, h.symm⟩

/-- The database after a transaction is the one before it or the one its body
left. -/
theorem withTransaction_db (txFunc : World → Option GoError × World) (w : World) :
    (withTransaction txFunc w).2.db = w.db
      ∨ (withTransaction txFunc w).2.db = (txFunc w.tick).2.db := by
  unfold withTransaction
  cases w.fault w.ops with
  | some e => exact Or.inl rfl
  | none =>
    cases hb : txFunc w.tick with
    | mk r w1 =>
      cases r with
      | some e =>
        simp only []
        split <;> exact Or.inl rfl
      | none =>
        simp only []
        split
        · exact Or.inl rfl
        · exact Or.inr rfl

theorem expectRows_ok {r : (Nat × Option GoError) × World} {w1 : World}
    (h : expectRows r = (none, w1)) : r.1.2 = none ∧ r.1.1 ≠ 0 ∧ r.2 = w1 := by
  obtain ⟨⟨rows, err⟩, w⟩ := r
  cases err with
  | some e => simp [expectRows] at h
  | none =>
    simp only [expectRows] at h
    by_cases h0 : rows = 0
    · simp [h0] at h
    · simp only [h0, if_false, Prod.mk.injEq, true_and] at h
      exact ⟨rfl, h0, h⟩

theorem execInsertAccount_ok {row : AccountRow} {w : World}
    (h : (execInsertAccount row w).1.2 = none) :
    (execInsertAccount row w).2.db = { w.db with accounts := w.db.accounts ++ [row] } := by
  unfold execInsertAccount at h ⊢
  cases h0 : w.fault w.ops with
  | some e => simp [h0] at h
  | none => rfl

/-- When `UserRepository.Create` returns nil, the new row is in `accounts`,
after the rows that were there, and the other tables are as they were. -/
theorem Create_ok_db (data : UserDB) (w w2 : World)
    (h : UserRepository.Create data w = (none, w2)) :
    w2.db = { w.db with accounts := w.db.accounts ++ [newAccountRow data] } := by
  unfold UserRepository.Create UserRepository.valueExists at h
  cases h0 : w.fault w.ops with
  | some e => simp [h0] at h
  | none =>
    simp only [h0] at h
    split at h
    · simp at h
    · obtain ⟨_, w1, hb, _, rfl⟩ := withTransaction_ok h
      obtain ⟨he, _, hw⟩ := expectRows_ok hb
      have := execInsertAccount_ok he
      rw [hw] at this
      exact this

/-- C12: for every valid registration request, if the lookup finds no account,
`UserService.Create` returns nil (the account is created) and the delivery of
the confirmation mail fails, `Register` answers 500 with the message
"Nu a putut fi trimis mailul catre adresa oferita." and the table `accounts`
it leaves is the one it found with the new row after it: the account stays
in storage. -/
theorem C12_register_keeps_account_when_mail_fails (lib : Lib) (req : RegisterAPI)
    (w w1 w2 : World) (err : GoError)
    (hvalid : req.Validate lib = none)
    (hfetch : UserService.Fetch req.Username req.Email w = ((false, none), w1))
    (hcreate : UserService.Create lib req w1 = (none, w2))
    (hmail : w2.fault w2.ops = some err) :
    (UserHandler.Register lib (some req) w).1
        = jsonResponse 500 ⟨true, "Nu a putut fi trimis mailul catre adresa oferita."⟩
      ∧ (UserHandler.Register lib (some req) w).2.db = w2.db
      ∧ w2.db.accounts = w.db.accounts ++
          [newAccountRow { Username := req.Username, Email := req.Email,
                           Password := hashWP lib req.Password,
                           RegisterDate := lib.formatDateTime w.now }]
      ∧ w2.db.characters = w.db.characters ∧ w2.db.blacklist = w.db.blacklist := by
  have hf := Fetch_db_now req.Username req.Email w
  rw [hfetch] at hf
  have hc := Create_ok_db _ _ _ hcreate
  simp only [record_db, record_now] at hc
  refine ⟨?_, ?_, ?_, ?_, ?_⟩
  · simp [UserHandler.Register, hvalid, hfetch, hcreate, EmailService.SendEmail, hmail]
  · simp [UserHandler.Register, hvalid, hfetch, hcreate, EmailService.SendEmail, hmail]
  · rw [hc]
    show w1.db.accounts ++ _ = _
    rw [hf.1, hf.2]
  · rw [hc]; show w1.db.characters = _; rw [hf.1]
  · rw [hc]; show w1.db.blacklist = _; rw [hf.1]

/-- C12 at a concrete request: the registration of the tests in a world with
empty tables where the mail relay is down. -/
theorem C12_register_keeps_account_when_mail_fails_witness :
    (sampleRegister.Validate sampleLib = none
        ∧ mailDownWorld.fault 5 = some "mail relay down")
      ∧ (UserHandler.Register sampleLib (some sampleRegister) mailDownWorld).1
          = jsonResponse 500 ⟨true, "Nu a putut fi trimis mailul catre adresa oferita."⟩
      ∧ (UserHandler.Register sampleLib (some sampleRegister) mailDownWorld).2.db.accounts
          = [sampleAccount] :=
  have hv : sampleRegister.Validate sampleLib = none := sampleRegister_valid sampleLib (by decide)
  have h := C12_register_keeps_account_when_mail_fails sampleLib sampleRegister mailDownWorld
    (UserService.Fetch sampleRegister.Username sampleRegister.Email mailDownWorld).2
    (UserService.Create sampleLib sampleRegister
      (UserService.Fetch sampleRegister.Username sampleRegister.Email mailDownWorld).2).2
    "mail relay down" hv rfl rfl rfl
  ⟨⟨hv, rfl⟩, h.1, by rw [h.2.1]; rfl⟩

/-! ## C13: activation is monotonic -/

theorem activationKept_append (l added : List AccountRow) :
    activationKept l (l ++ added) = true := by
  induction l with
  | nil => rfl
  | cons r rs ih => simp [activationKept, ih]

theorem activationKept_refl (l : List AccountRow) : activationKept l l = true := by
  have h := activationKept_append l []
  rwa [List.append_nil] at h

theorem activationKept_map (l : List AccountRow) (f : AccountRow → AccountRow)
    (hf : ∀ r, (f r).Username = r.Username ∧ (f r).Email = r.Email
      ∧ ((f r).Activated = r.Activated ∨ (r.Activated = 0 ∧ (f r).Activated = 2))) :
    activationKept l (l.map f) = true := by
  induction l with
  | nil => rfl
  | cons r rs ih =>
    obtain ⟨h1, h2, h3⟩ := hf r
    simp only [List.map_cons, activationKept, ih, Bool.and_true, h1, h2, beq_self_eq_true,
      Bool.true_and]
    rcases h3 with h3 | ⟨h3, h4⟩
    · simp [h3]
    · simp [h3, h4]

/-- What `activationKept` says about one row: a row at position `i` whose
activation is 2 is, after the operation, a row at position `i` of the same
account whose activation is 2. -/
theorem activationKept_activated {before after : List AccountRow}
    (h : activationKept before after = true) (i : Nat) (r : AccountRow)
    (hr : before[i]? = some r) (h2 : r.Activated = 2) :
    ∃ r', after[i]? = some r' ∧ r'.Username = r.Username ∧ r'.Email = r.Email
      ∧ r'.Activated = 2 := by
  induction before generalizing after i with
  | nil => simp at hr
  | cons b bs ih =>
    cases after with
    | nil => simp [activationKept] at h
    | cons a as =>
      simp only [activationKept, Bool.and_eq_true, beq_iff_eq, Bool.or_eq_true] at h
      cases i with
      | zero =>
        simp only [List.getElem?_cons_zero, Option.some.injEq] at hr
        subst hr
        refine ⟨a, List.getElem?_cons_zero, h.1.1.1, h.1.1.2, ?_⟩
        rcases h.1.2 with h3 | ⟨h3, _⟩
        · rw [h3, h2]
        · rw [h2] at h3; exact absurd h3 (by decide)
      | succ j =>
        simp only [List.getElem?_cons_succ] at hr ⊢
        exact ih h.2 j hr

theorem withTransaction_kept (txFunc : World → Option GoError × World)
    (h : ∀ x, activationKept x.db.accounts (txFunc x).2.db.accounts = true) (w : World) :
    activationKept w.db.accounts (withTransaction txFunc w).2.db.accounts = true := by
  rcases withTransaction_db txFunc w with h1 | h1
  · rw [h1]; exact activationKept_refl _
  · rw [h1]; exact h w.tick

theorem execStatement_accounts (effect : World → Nat × DB)
    (h : ∀ x, (effect x).2.accounts = x.db.accounts) (w : World) :
    (execStatement effect w).2.db.accounts = w.db.accounts := by
  unfold execStatement
  split
  · rfl
  · exact h w

theorem statement_kept (effect : World → Nat × DB)
    (h : ∀ x, (effect x).2.accounts = x.db.accounts) (w : World) :
    activationKept w.db.accounts
      (withTransaction (fun tx => expectRows (execStatement effect tx)) w).2.db.accounts = true := by
  apply withTransaction_kept
  intro x
  rw [expectRows_snd, execStatement_accounts effect h]
  exact activationKept_refl _

theorem execUpdateAccounts_accounts (p : AccountRow → Bool) (f : AccountRow → AccountRow)
    (w : World) :
    (execUpdateAccounts p f w).2.db.accounts = w.db.accounts
      ∨ (execUpdateAccounts p f w).2.db.accounts
          = w.db.accounts.map (fun r => if p r then f r else r) := by
  unfold execUpdateAccounts
  split
  · exact Or.inl rfl
  · exact Or.inr rfl

theorem execUpdateAccounts_kept (p : AccountRow → Bool) (f : AccountRow → AccountRow)
    (hf : ∀ r, p r = true → (f r).Username = r.Username ∧ (f r).Email = r.Email
      ∧ ((f r).Activated = r.Activated ∨ (r.Activated = 0 ∧ (f r).Activated = 2)))
    (w : World) :
    activationKept w.db.accounts (execUpdateAccounts p f w).2.db.accounts = true := by
  rcases execUpdateAccounts_accounts p f w with h | h
  · rw [h]; exact activationKept_refl _
  · rw [h]
    apply activationKept_map
    intro r
    by_cases hp : p r = true
    · simp only [hp, if_true]; exact hf r hp
    · simp only [hp]; exact ⟨rfl, rfl, Or.inl rfl⟩

theorem Create_kept (data : UserDB) (w : World) :
    activationKept w.db.accounts (UserRepository.Create data w).2.db.accounts = true := by
  unfold UserRepository.Create UserRepository.valueExists
  cases w.fault w.ops with
  | some e => exact activationKept_refl _
  | none =>
    simp only []
    split
    · exact activationKept_refl _
    · have := withTransaction_kept
        (fun tx => expectRows (execInsertAccount (newAccountRow data) tx)) ?_ w.tick
      · exact this
      · intro x
        rw [expectRows_snd]
        unfold execInsertAccount
        split
        · exact activationKept_refl _
        · exact activationKept_append _ _

theorem Activate_kept (email : GoString) (w : World) :
    activationKept w.db.accounts (UserRepository.Activate email w).2.db.accounts = true := by
  apply withTransaction_kept
  intro x
  rw [expectRows_snd]
  apply execUpdateAccounts_kept
  intro r hp
  simp only [Bool.and_eq_true, beq_iff_eq] at hp
  exact ⟨rfl, rfl, Or.inr ⟨hp.2, rfl⟩⟩

theorem UpdatePassword_kept (email password : GoString) (w : World) :
    activationKept w.db.accounts
      (UserRepository.UpdatePassword email password w).2.db.accounts = true := by
  apply withTransaction_kept
  intro x
  rw [expectRows_snd]
  apply execUpdateAccounts_kept
  intro r _
  exact ⟨rfl, rfl, Or.inl rfl⟩

theorem AcceptCharacter_kept (username characterName acceptedBy : GoString) (w : World) :
    activationKept w.db.accounts
      (UserRepository.AcceptCharacter username characterName acceptedBy w).2.db.accounts
        = true := by
  apply withTransaction_kept
  intro x
  unfold acceptCharacterTx
  have h1 := (dbGet_frame DB.accounts (fun r => r.Username == username) x).2
  revert h1
  cases dbGet DB.accounts (fun r => r.Username == username) x with
  | mk res x1 =>
    intro h1
    cases res with
    | error e => simp only []; rw [h1]; exact activationKept_refl _
    | ok row =>
      simp only []
      have h2 := execStatement_accounts
        (updateCharacters (fun c => c.Character == characterName)
          (fun c => { c with Created := 1, Status := 1 })) (fun _ => rfl) x1
      have h3 := expectRows_snd (execStatement
        (updateCharacters (fun c => c.Character == characterName)
          (fun c => { c with Created := 1, Status := 1 })) x1)
      revert h3
      cases expectRows (execStatement
        (updateCharacters (fun c => c.Character == characterName)
          (fun c => { c with Created := 1, Status := 1 })) x1) with
      | mk r2 x2 =>
        intro h3
        simp only [] at h3
        have h4 : x2.db.accounts = x.db.accounts := by
          rw [h3, h2]; exact congrArg DB.accounts h1
        cases r2 with
        | some e => simp only []; rw [h4]; exact activationKept_refl _
        | none =>
          simp only []
          rw [expectRows_snd, ← h4]
          apply execUpdateAccounts_kept
          intro r _
          exact ⟨rfl, rfl, Or.inl rfl⟩

theorem AddBan_kept (data : BlacklistDB) (w : World) :
    activationKept w.db.accounts (UserRepository.AddBan data w).2.db.accounts = true := by
  unfold UserRepository.AddBan
  have h1 := (dbGet_frame DB.accounts (fun r => r.Username == data.Username) w).2
  revert h1
  cases dbGet DB.accounts (fun r => r.Username == data.Username) w with
  | mk res w1 =>
    intro h1
    simp only [] at h1
    cases res with
    | error e => simp only []; rw [h1]; exact activationKept_refl _
    | ok row =>
      simp only []
      split
      · rw [h1]; exact activationKept_refl _
      · rw [← h1]
        exact statement_kept _ (fun _ => rfl) w1

theorem DeleteExp_kept (w : World) :
    activationKept w.db.accounts (UserRepository.DeleteExp w).2.db.accounts = true := by
  apply withTransaction_kept
  intro x
  have h := execStatement_accounts (deleteCharacters (fun c => c.Created == -1)) (fun _ => rfl) x
  revert h
  cases execStatement (deleteCharacters (fun c => c.Created == -1)) x with
  | mk r x1 =>
    obtain ⟨n, e⟩ := r
    intro h
    cases e <;> simp only [] <;> rw [← h] <;> exact activationKept_refl _

/-- C13: `Create` stores activation 0 (the row it adds, when it returns nil,
is `newAccountRow`, whose activation is 0); `Activate` leaves `accounts` as it
was or sets the activation of the rows of the email whose activation is 0 to
2, and changes nothing else; and each of `Create`, `Activate`,
`UpdatePassword`, `AcceptCharacter`, `AddBan`, `Unban`, `Ajail`,
`DeclineCharacter`, `DeleteExp`, in every world and whatever it returns,
leaves every account row at its place with its user name and email, its
activation unchanged or gone from 0 to 2; so a row whose activation is 2 has
activation 2 afterwards. -/
theorem C13_activation_is_monotonic (w : World) :
    (∀ data, (newAccountRow data).Activated = 0
        ∧ ∀ w2, UserRepository.Create data w = (none, w2) →
            w2.db.accounts = w.db.accounts ++ [newAccountRow data])
      ∧ (∀ email, (UserRepository.Activate email w).2.db.accounts = w.db.accounts
          ∨ (UserRepository.Activate email w).2.db.accounts
              = w.db.accounts.map (fun r =>
                  if r.Email = email ∧ r.Activated = 0 then { r with Activated := 2 } else r))
      ∧ (∀ (op : World → Option GoError × World),
          ((∃ data, op = UserRepository.Create data)
            ∨ (∃ email, op = UserRepository.Activate email)
            ∨ (∃ email password, op = UserRepository.UpdatePassword email password)
            ∨ (∃ username characterName acceptedBy,
                op = UserRepository.AcceptCharacter username characterName acceptedBy)
            ∨ (∃ data, op = UserRepository.AddBan data)
            ∨ (∃ name, op = UserRepository.Unban name)
            ∨ (∃ data, op = UserRepository.Ajail data)
            ∨ (∃ characterName, op = UserRepository.DeclineCharacter characterName)
            ∨ op = UserRepository.DeleteExp) →
          activationKept w.db.accounts (op w).2.db.accounts = true
            ∧ ∀ (i : Nat) (r : AccountRow), w.db.accounts[i]? = some r → r.Activated = 2 →
                ∃ r', (op w).2.db.accounts[i]? = some r' ∧ r'.Username = r.Username
                  ∧ r'.Email = r.Email ∧ r'.Activated = 2) := by
  refine ⟨fun data => ⟨rfl, fun w2 h => ?_⟩, fun email => ?_, fun op hop => ?_⟩
  · rw [Create_ok_db data w w2 h]
  · unfold UserRepository.Activate
    rcases withTransaction_db (fun tx => expectRows
      (execUpdateAccounts (fun r => r.Email == email && r.Activated == 0)
        (fun r => { r with Activated := 2 }) tx)) w with h | h
    · exact Or.inl (congrArg DB.accounts h)
    · rw [h, expectRows_snd]
      rcases execUpdateAccounts_accounts (fun r => r.Email == email && r.Activated == 0)
        (fun r => { r with Activated := 2 }) w.tick with h1 | h1
      · exact Or.inl h1
      · refine Or.inr (h1.trans ?_)
        simp only [tick_db, Bool.and_eq_true, beq_iff_eq]
  · have hk : activationKept w.db.accounts (op w).2.db.accounts = true := by
      rcases hop with ⟨d, rfl⟩ | ⟨e, rfl⟩ | ⟨e, p, rfl⟩ | ⟨u, c, a, rfl⟩ | ⟨d, rfl⟩ | ⟨n, rfl⟩
        | ⟨d, rfl⟩ | ⟨c, rfl⟩ | rfl
      · exact Create_kept d w
      · exact Activate_kept e w
      · exact UpdatePassword_kept e p w
      · exact AcceptCharacter_kept u c a w
      · exact AddBan_kept d w
      · exact statement_kept _ (fun _ => rfl) w
      · exact statement_kept _ (fun _ => rfl) w
      · exact statement_kept _ (fun _ => rfl) w
      · exact DeleteExp_kept w
    exact ⟨hk, fun i r hr h2 => activationKept_activated hk i r hr h2⟩

/-! ## C14: the validation of `UserService.Ban` -/

theorem dbGet_ops {ρ : Type} (table : DB → List ρ) (p : ρ → Bool) (w : World) :
    (dbGet table p w).2.ops = w.ops + 1 := by
  unfold dbGet
  split
  · rfl
  · split <;> rfl

theorem withTransaction_ops (txFunc : World → Option GoError × World)
    (h : ∀ x, x.ops ≤ (txFunc x).2.ops) (w : World) :
    w.ops < (withTransaction txFunc w).2.ops := by
  unfold withTransaction
  split
  · exact Nat.lt_succ_self _
  · have h1 := h w.tick
    rw [tick_ops] at h1
    split
    · rename_i err w1 heq
      rw [heq] at h1
      split <;> exact Nat.lt_succ_of_le (Nat.le_of_succ_le h1)
    · rename_i w1 heq
      rw [heq] at h1
      split <;> exact Nat.lt_succ_of_le (Nat.le_of_succ_le h1)

theorem execStatement_ops (effect : World → Nat × DB) (w : World) :
    (execStatement effect w).2.ops = w.ops + 1 := by
  unfold execStatement
  split <;> rfl

/-- The method `UserRepository.AddBan` makes at least one round trip to the
database. -/
theorem AddBan_ops (data : BlacklistDB) (w : World) :
    w.ops < (UserRepository.AddBan data w).2.ops := by
  unfold UserRepository.AddBan
  have h1 := dbGet_ops DB.accounts (fun r => r.Username == data.Username) w
  revert h1
  cases dbGet DB.accounts (fun r => r.Username == data.Username) w with
  | mk res w1 =>
    intro h1
    simp only [] at h1
    cases res with
    | error e => simp only []; omega
    | ok row =>
      simp only []
      split
      · show w.ops < w1.ops
        omega
      · have := withTransaction_ops (fun tx => expectRows (execStatement
          (fun x => insertBlacklist (newBlacklistRow data row.IP x.now) x) tx))
          (fun x => by rw [expectRows_snd, execStatement_ops]; exact Nat.le_succ _) w1
        omega

/-- C14: for every ban request and every world: when admin name, user name
and reason are all non-empty and 0 < days < 30, `UserService.Ban` is the call
of `UserRepository.AddBan` with the ban (and makes a round trip to the
database); in every other case it returns an error, makes no round trip and
leaves the database as it was. So the ban reaches the repository exactly when
the request is of the first kind. With the three texts non-empty, 0 and 30
days are rejected with "invalid expire value", and 1 and 29 days go to
`AddBan`. -/
theorem C14_ban_validation (lib : Lib) (data : BanAPI) (w : World) :
    ((data.AdminName ≠ [] ∧ data.Username ≠ [] ∧ data.Reason ≠ []
          ∧ 0 < data.Expire ∧ data.Expire < 30) →
        UserService.Ban lib data w
          = UserRepository.AddBan
              { IP := [], Username := data.Username, BannedBy := data.AdminName,
                Reason := data.Reason, Date := lib.formatDateTime w.now, Expire := data.Expire }
              (w.record (Call.Ban data)))
      ∧ (¬ (data.AdminName ≠ [] ∧ data.Username ≠ [] ∧ data.Reason ≠ []
            ∧ 0 < data.Expire ∧ data.Expire < 30) →
          (UserService.Ban lib data w).1.isSome = true
            ∧ (UserService.Ban lib data w).2 = w.record (Call.Ban data)
            ∧ (UserService.Ban lib data w).2.db = w.db)
      ∧ (w.ops < (UserService.Ban lib data w).2.ops ↔
          (data.AdminName ≠ [] ∧ data.Username ≠ [] ∧ data.Reason ≠ []
            ∧ 0 < data.Expire ∧ data.Expire < 30))
      ∧ (data.AdminName ≠ [] ∧ data.Username ≠ [] ∧ data.Reason ≠ [] →
          UserService.Ban lib { data with Expire := 0 } w
              = (some "invalid expire value", w.record (Call.Ban { data with Expire := 0 }))
            ∧ UserService.Ban lib { data with Expire := 30 } w
              = (some "invalid expire value", w.record (Call.Ban { data with Expire := 30 }))
            ∧ UserService.Ban lib { data with Expire := 1 } w
              = UserRepository.AddBan
                  { IP := [], Username := data.Username, BannedBy := data.AdminName,
                    Reason := data.Reason, Date := lib.formatDateTime w.now, Expire := 1 }
                  (w.record (Call.Ban { data with Expire := 1 }))
            ∧ UserService.Ban lib { data with Expire := 29 } w
              = UserRepository.AddBan
                  { IP := [], Username := data.Username, BannedBy := data.AdminName,
                    Reason := data.Reason, Date := lib.formatDateTime w.now, Expire := 29 }
                  (w.record (Call.Ban { data with Expire := 29 }))) := by
  have hgood : (data.AdminName ≠ [] ∧ data.Username ≠ [] ∧ data.Reason ≠ []
          ∧ 0 < data.Expire ∧ data.Expire < 30) →
        UserService.Ban lib data w
          = UserRepository.AddBan
              { IP := [], Username := data.Username, BannedBy := data.AdminName,
                Reason := data.Reason, Date := lib.formatDateTime w.now, Expire := data.Expire }
              (w.record (Call.Ban data)) := by
    rintro ⟨h1, h2, h3, h4, h5⟩
    have h6 : ¬ (data.Expire ≤ 0 ∨ data.Expire ≥ 30) := by omega
    simp only [UserService.Ban, h1, h2, h3, h6, or_self, if_false]
  have hbad : ¬ (data.AdminName ≠ [] ∧ data.Username ≠ [] ∧ data.Reason ≠ []
            ∧ 0 < data.Expire ∧ data.Expire < 30) →
          (UserService.Ban lib data w).1.isSome = true
            ∧ (UserService.Ban lib data w).2 = w.record (Call.Ban data) := by
    intro h
    unfold UserService.Ban
    by_cases h1 : data.AdminName = [] ∨ data.Username = [] ∨ data.Reason = []
    · simp only [h1, if_true, Option.isSome_some, and_self]
    · have h6 : data.Expire ≤ 0 ∨ data.Expire ≥ 30 := by
        by_contra h6
        apply h
        simp only [not_or] at h1
        exact ⟨h1.1, h1.2.1, h1.2.2, by omega, by omega⟩
      simp only [h1, h6, if_true, if_false, Option.isSome_some, and_self]
  refine ⟨hgood, fun h => ⟨(hbad h).1, (hbad h).2, by rw [(hbad h).2]; rfl⟩, ⟨fun h => ?_, fun h => ?_⟩,
    fun ⟨h1, h2, h3⟩ => ⟨?_, ?_, ?_, ?_⟩⟩
  · by_contra hn
    rw [(hbad hn).2] at h
    exact Nat.lt_irrefl _ h
  · rw [hgood h]
    exact AddBan_ops _ (w.record (Call.Ban data))
  · simp [UserService.Ban, h1, h2, h3]
  · simp [UserService.Ban, h1, h2, h3]
  · simp [UserService.Ban, h1, h2, h3]
  · simp [UserService.Ban, h1, h2, h3]

/-! ## C15: when a ban is active -/

theorem Repository_CheckForBan_iff (name : GoString) (w : World) (hname : name ≠ [])
    (hok : w.fault w.ops = none) :
    (UserRepository.CheckForBan name w).1
      = (decide (∃ r ∈ w.db.blacklist, r.Username = name ∧ w.now ≤ r.Expire), none) := by
  unfold UserRepository.CheckForBan
  rw [dbGet_of_no_fault _ _ _ hok]
  cases hfind : w.db.blacklist.find? (fun r => r.Username == name && decide (r.Expire ≥ w.now)) with
  | none =>
    rw [List.find?_eq_none] at hfind
    have : ¬ ∃ r ∈ w.db.blacklist, r.Username = name ∧ w.now ≤ r.Expire := by
      rintro ⟨r, hr, hu, he⟩
      exact hfind r hr (by simp [hu, he])
    simp [this, ErrNoRows]
  | some r' =>
    have hp := List.find?_some hfind
    have hm := List.mem_of_find?_eq_some hfind
    simp only [Bool.and_eq_true, beq_iff_eq, decide_eq_true_eq] at hp
    have hlen : r'.Username.length > 0 := by
      rw [hp.1]
      exact List.length_pos.2 hname
    have : ∃ r ∈ w.db.blacklist, r.Username = name ∧ w.now ≤ r.Expire := ⟨r', hm, hp.1, hp.2⟩
    simp [this, hlen]

/-- C15, the claim as written fails: in `expiringBanWorld` the clock is at
1700000000, the one ban of the test account expires at 1700000000, so the
current time is not before the expiry instant, and `CheckForBan` reports the
test account banned. -/
theorem C15_ban_at_expiry_instant_is_active :
    expiringBanWorld.db.blacklist = [expiringBan]
      ∧ ¬ (expiringBanWorld.now < expiringBan.Expire)
      ∧ expiringBanWorld.now = expiringBan.Expire
      ∧ (UserRepository.CheckForBan expiringBan.Username expiringBanWorld).1 = (true, none) := by
  refine ⟨rfl, by decide, rfl, ?_⟩
  rw [Repository_CheckForBan_iff _ _ (by decide) rfl]
  decide

/-- C15 (amended): for every ban row of a non-empty user name, every current
time and every world that holds the row, where the other rows of that user
have expired and the query is answered, `CheckForBan` reports the user banned
exactly when current time ≤ the expiry instant of the row: a ban whose expiry
instant equals the current time is active, and one second later it is not. -/
theorem C15_ban_active_through_expiry_instant (row : BlacklistRow) (w : World)
    (hname : row.Username ≠ [])
    (hrow : row ∈ w.db.blacklist)
    (hothers : ∀ r ∈ w.db.blacklist, r ≠ row → r.Username = row.Username → r.Expire < w.now)
    (hok : w.fault w.ops = none) :
    (UserRepository.CheckForBan row.Username w).1 = (decide (w.now ≤ row.Expire), none)
      ∧ (w.now = row.Expire → (UserRepository.CheckForBan row.Username w).1 = (true, none))
      ∧ (w.now = row.Expire + 1 →
          (UserRepository.CheckForBan row.Username w).1 = (false, none)) := by
  have key : (UserRepository.CheckForBan row.Username w).1
      = (decide (w.now ≤ row.Expire), none) := by
    rw [Repository_CheckForBan_iff _ _ hname hok]
    congr 1
    rw [decide_eq_decide]
    constructor
    · rintro ⟨r, hr, hu, he⟩
      by_cases h : r = row
      · rw [← h]; exact he
      · exact absurd (hothers r hr h hu) (not_lt.2 he)
    · intro h
      exact ⟨row, hrow, rfl, h⟩
  refine ⟨key, fun h => ?_, fun h => ?_⟩
  · rw [key]; simp [h]
  · rw [key]; simp [h]

/-- C15 (amended) at a concrete world: the ban that expires at the instant of
the clock. -/
theorem C15_ban_active_through_expiry_instant_witness :
    (expiringBan.Username ≠ [] ∧ expiringBan ∈ expiringBanWorld.db.blacklist
        ∧ expiringBanWorld.fault expiringBanWorld.ops = none)
      ∧ (UserRepository.CheckForBan expiringBan.Username expiringBanWorld).1
          = (decide (expiringBanWorld.now ≤ expiringBan.Expire), none) :=
  ⟨⟨by decide, by decide, rfl⟩,
    (C15_ban_active_through_expiry_instant expiringBan expiringBanWorld (by decide) (by decide)
      (by decide) rfl).1⟩

/-! ## C16: `CheckForBan` right after `Ban` and right after `Unban` -/

theorem execStatement_frame (effect : World → Nat × DB) (w : World) :
    sameFrame (execStatement effect w).2 w := by
  unfold execStatement
  split
  · exact sameFrame_tick w
  · exact ⟨rfl, rfl, rfl, rfl⟩

theorem execStatement_ok {effect : World → Nat × DB} {w : World}
    (h : (execStatement effect w).1.2 = none) :
    (execStatement effect w).2.db = (effect w).2 := by
  unfold execStatement at h ⊢
  cases h0 : w.fault w.ops with
  | some e => simp [h0] at h
  | none => rfl

/-- A transaction of one statement that returns nil leaves the database the
statement made, and the rest of the world as it was. -/
theorem statement_ok {effect : World → Nat × DB} {w w2 : World}
    (h : withTransaction (fun tx => expectRows (execStatement effect tx)) w = (none, w2)) :
    w2.db = (effect w.tick).2 ∧ sameFrame w2 w := by
  obtain ⟨_, w1, hb, _, rfl⟩ := withTransaction_ok h
  obtain ⟨he, _, hw⟩ := expectRows_ok hb
  have h1 := execStatement_ok he
  have h2 := execStatement_frame effect w.tick
  rw [hw] at h1 h2
  exact ⟨h1, sameFrame_trans (sameFrame_tick _) (sameFrame_trans h2 (sameFrame_tick _))⟩

/-- When `UserRepository.AddBan` returns nil, the new row is in `blacklist`,
with the user name of the ban and the expiry instant `now + days * 86400`. -/
theorem AddBan_ok {data : BlacklistDB} {w w2 : World}
    (h : UserRepository.AddBan data w = (none, w2)) :
    (∃ ip, w2.db.blacklist = w.db.blacklist ++ [newBlacklistRow data ip w.now])
      ∧ sameFrame w2 w := by
  unfold UserRepository.AddBan at h
  have h1 := dbGet_frame DB.accounts (fun r => r.Username == data.Username) w
  revert h h1
  cases dbGet DB.accounts (fun r => r.Username == data.Username) w with
  | mk res w1 =>
    intro h h1
    cases res with
    | error e => simp at h
    | ok row =>
      simp only [] at h h1
      split at h
      · simp at h
      · obtain ⟨hdb, hfr⟩ := statement_ok h
        refine ⟨⟨row.IP, ?_⟩, sameFrame_trans hfr h1.1⟩
        rw [hdb]
        show w1.db.blacklist ++ [newBlacklistRow data row.IP w1.now] = _
        rw [h1.2, h1.1.2.2.1]

/-- When `UserRepository.Unban` returns nil, every row of the name has the
expiry instant `now - 1`. -/
theorem Unban_ok {name : GoString} {w w2 : World}
    (h : UserRepository.Unban name w = (none, w2)) :
    w2.db.blacklist = w.db.blacklist.map
        (fun r => if r.Username == name then { r with Expire := w.now - 1 } else r)
      ∧ sameFrame w2 w := by
  unfold UserRepository.Unban at h
  obtain ⟨hdb, hfr⟩ := statement_ok h
  refine ⟨?_, hfr⟩
  rw [hdb]
  rfl

/-- A call of `UserService.Ban` that returns nil passed the validation. -/
theorem Ban_ok {lib : Lib} {data : BanAPI} {w w1 : World}
    (h : UserService.Ban lib data w = (none, w1)) :
    (data.AdminName ≠ [] ∧ data.Username ≠ [] ∧ data.Reason ≠ []
        ∧ 0 < data.Expire ∧ data.Expire < 30)
      ∧ UserRepository.AddBan
          { IP := [], Username := data.Username, BannedBy := data.AdminName,
            Reason := data.Reason, Date := lib.formatDateTime w.now, Expire := data.Expire }
          (w.record (Call.Ban data)) = (none, w1) := by
  unfold UserService.Ban at h
  by_cases h1 : data.AdminName = [] ∨ data.Username = [] ∨ data.Reason = []
  · simp [h1] at h
  · by_cases h2 : data.Expire ≤ 0 ∨ data.Expire ≥ 30
    · rw [if_neg h1, if_pos h2] at h
      simp at h
    · rw [if_neg h1, if_neg h2] at h
      simp only [not_or] at h1
      exact ⟨⟨h1.1, h1.2.1, h1.2.2, by omega, by omega⟩, h⟩

/-- C16: the clock stays at one instant through `Ban`, `CheckForBan` and
`Unban`. If `UserService.Ban` returns nil (then 0 < days < 30) and the query
of `CheckForBan` is answered, `CheckForBan` of the user is true in the world
`Ban` left. If then, in any world, `UserService.Unban` of a user returns nil
and the query of `CheckForBan` is answered, `CheckForBan` of the user is false
in the world `Unban` left, whatever rows the table `blacklist` held. -/
theorem C16_banned_after_ban_clear_after_unban (lib : Lib) (data : BanAPI) (w w1 : World)
    (hban : UserService.Ban lib data w = (none, w1))
    (hquery : w1.fault w1.ops = none) :
    (0 < data.Expire ∧ data.Expire < 30)
      ∧ w1.now = w.now
      ∧ (UserService.CheckForBan data.Username w1).1 = (true, none)
      ∧ (UserService.CheckForBan data.Username w1).2.now = w.now
      ∧ (∀ (undata : BanAPI) (x x1 : World),
          UserService.Unban undata x = (none, x1) → x1.fault x1.ops = none →
          x1.now = x.now
            ∧ (UserService.CheckForBan undata.Username x1).1 = (false, none)) := by
  obtain ⟨⟨_, hname, _, hd1, hd2⟩, hadd⟩ := Ban_ok hban
  obtain ⟨⟨ip, hdb⟩, hfr⟩ := AddBan_ok hadd
  have hnow : w1.now = w.now := hfr.2.2.1
  have hrow : ∃ r ∈ w1.db.blacklist, r.Username = data.Username ∧ r.Expire ≥ w1.now := by
    rw [hdb]
    refine ⟨_, List.mem_append_right _ (List.mem_singleton.2 rfl), rfl, ?_⟩
    show w.now + (data.Expire : Int) * 86400 ≥ w1.now
    rw [hnow]
    have : (0 : Int) ≤ (data.Expire : Int) := Int.ofNat_nonneg _
    show w.now ≤ w.now + (data.Expire : Int) * 86400
    omega
  refine ⟨⟨hd1, hd2⟩, hnow, ?_, ?_, ?_⟩
  · rw [CheckForBan_banned data.Username w1 hquery hname hrow]
  · rw [CheckForBan_banned data.Username w1 hquery hname hrow]
    exact hnow
  · intro undata x x1 hun hq
    obtain ⟨hdb1, hfr1⟩ := Unban_ok hun
    have hnow1 : x1.now = x.now := hfr1.2.2.1
    refine ⟨hnow1, ?_⟩
    rw [CheckForBan_clear undata.Username x1 hq]
    intro r hr hu
    rw [hdb1] at hr
    simp only [record_db, record_now, List.mem_map] at hr
    obtain ⟨r0, _, rfl⟩ := hr
    by_cases h0 : (r0.Username == undata.Username) = true
    · simp only [h0, if_true]
      rw [hnow1]
      show x.now - 1 < x.now
      omega
    · simp only [h0] at hu
      simp only [beq_iff_eq] at h0
      exact absurd hu h0

/-- C16 at a concrete world: the test account is banned for seven days, then
unbanned, with `CheckForBan` after each. -/
theorem C16_banned_after_ban_clear_after_unban_witness :
    ((UserService.Ban sampleLib sampleBanRequest registeredWorld).1 = none
        ∧ (UserService.Unban sampleBanRequest
            (UserService.CheckForBan testUsername
              (UserService.Ban sampleLib sampleBanRequest registeredWorld).2).2).1 = none)
      ∧ (UserService.CheckForBan testUsername
          (UserService.Ban sampleLib sampleBanRequest registeredWorld).2).1 = (true, none)
      ∧ (UserService.CheckForBan testUsername
          (UserService.Unban sampleBanRequest
            (UserService.CheckForBan testUsername
              (UserService.Ban sampleLib sampleBanRequest registeredWorld).2).2).2).1
          = (false, none) :=
  have h := C16_banned_after_ban_clear_after_unban sampleLib sampleBanRequest registeredWorld
    (UserService.Ban sampleLib sampleBanRequest registeredWorld).2 rfl rfl
  ⟨⟨rfl, rfl⟩, h.2.2.1,
    (h.2.2.2.2 sampleBanRequest
      (UserService.CheckForBan testUsername
        (UserService.Ban sampleLib sampleBanRequest registeredWorld).2).2
      (UserService.Unban sampleBanRequest
        (UserService.CheckForBan testUsername
          (UserService.Ban sampleLib sampleBanRequest registeredWorld).2).2).2 rfl rfl).2⟩

/-! ## C17: `Authenticate` and `EnsurePrivilege` -/

/-- C17, the divergence: `Authenticate` returns nil exactly when the session
check succeeds with a non-empty name and both flags, the admin flag and the
tester flag, while `EnsurePrivilege` lets through the sessions with a
non-empty name and either flag. In `adminOnlyWorld` (name "test", admin, not
tester) `CheckSession` returns ("test", true, false, nil), `EnsurePrivilege`
calls `Next` and `Authenticate` returns its error about missing admin
rights, with the name of the user in it. No handler of the repository calls
`Authenticate`. -/
theorem C17_authenticate_needs_both_flags :
    (∀ w : World, (AuthService.Authenticate w).1 = none ↔
        ((AuthService.CheckSession (w.record Call.Authenticate)).1.err = none
          ∧ (AuthService.CheckSession (w.record Call.Authenticate)).1.name ≠ []
          ∧ (AuthService.CheckSession (w.record Call.Authenticate)).1.isAdmin = true
          ∧ (AuthService.CheckSession (w.record Call.Authenticate)).1.isTester = true))
      ∧ (∀ w : World, (Middleware.EnsurePrivilege w).1 = none ↔
          ((AuthService.CheckSession w).1.err = none
            ∧ (AuthService.CheckSession w).1.name ≠ []
            ∧ ((AuthService.CheckSession w).1.isAdmin = true
                ∨ (AuthService.CheckSession w).1.isTester = true)))
      ∧ (AuthService.CheckSession adminOnlyWorld).1 = ⟨testUsername, true, false, none⟩
      ∧ (AuthService.CheckSession (adminOnlyWorld.record Call.Authenticate)).1
          = ⟨testUsername, true, false, none⟩
      ∧ (Middleware.EnsurePrivilege adminOnlyWorld).1 = none
      ∧ (AuthService.Authenticate adminOnlyWorld).1
          = some "WaitingList(): user test doesn\x27t have admin rights" := by
  refine ⟨fun w => ?_, fun w => ?_, by decide, by decide, by decide, by decide⟩
  · unfold AuthService.Authenticate
    cases AuthService.CheckSession (w.record Call.Authenticate) with
    | mk info w1 =>
      obtain ⟨name, isAdmin, isTester, err⟩ := info
      cases err with
      | some e => simp
      | none =>
        by_cases hn : name = []
        · simp [hn]
        · cases isAdmin <;> cases isTester <;> simp [hn]
  · unfold Middleware.EnsurePrivilege
    cases AuthService.CheckSession w with
    | mk info w1 =>
      obtain ⟨name, isAdmin, isTester, err⟩ := info
      cases err with
      | some e => simp
      | none =>
        by_cases hn : name = []
        · simp [hn]
        · cases isAdmin <;> cases isTester <;> simp [hn]

/-! ## C18: the format of a character name -/

/-- C18, the divergence: the four names of the claim behave as it says
("John_Smith" is accepted; "johnsmith", "John_smith" and "John_Smith2" are
rejected with "invalid character name"), but the check refuses digits, the
characters of a fixed list and a lower-case first byte, and nothing else: the
name "John Doe_Smith", whose first part has a space (which is not a letter),
is accepted, and so is " ohn_Smith", whose first part starts with a space. -/
theorem C18_name_with_space_is_accepted (lib : Lib) :
    (sampleCharacter (lit "John_Smith")).Validate lib = some none
      ∧ (sampleCharacter (lit "johnsmith")).Validate lib = some (some "invalid character name")
      ∧ (sampleCharacter (lit "John_smith")).Validate lib = some (some "invalid character name")
      ∧ (sampleCharacter (lit "John_Smith2")).Validate lib
          = some (some "invalid character name")
      ∧ splitByte (byteOf 95) (lit "John Doe_Smith") = [lit "John Doe", lit "Smith"]
      ∧ (32 : Nat) ∈ runes (lit "John Doe")
      ∧ IsLetter lib 32 = false
      ∧ checkCharacterName lib (lit "John Doe_Smith") = some true
      ∧ (sampleCharacter (lit "John Doe_Smith")).Validate lib = some none
      ∧ (sampleCharacter (lit " ohn_Smith")).Validate lib = some none := by
  exact ⟨rfl, rfl, rfl, rfl, by decide, by decide, rfl, rfl, rfl, rfl⟩

/-! ## C19: the age of a character -/

/-- C19: for every character request whose name passes the name check and
whose origin passes the origin checks (non-empty, no digit, no listed special
character, at least 4 bytes), and for every age put in its place, `Validate`
returns nil exactly when 13 ≤ age ≤ 79, and returns the error
"age must be between 12 and 80 years old" for every other age; so 12, 80 and
every negative age are rejected with that error, and 13 and 79 are accepted. -/
theorem C19_age_is_13_to_79 (lib : Lib) (c : CharacterDataAPI)
    (hname : c.CharacterName ≠ [])
    (hcheck : checkCharacterName lib c.CharacterName = some true)
    (horigin : c.CharacterOrigin ≠ [])
    (hchars : (containsDigit lib c.CharacterOrigin || containsSpecialChar c.CharacterOrigin)
      = false)
    (hlen : 4 ≤ c.CharacterOrigin.length) :
    (∀ age : Int,
        (({ c with CharacterAge := age } : CharacterDataAPI).Validate lib = some none
          ↔ 13 ≤ age ∧ age ≤ 79)
        ∧ (¬ (13 ≤ age ∧ age ≤ 79) →
            ({ c with CharacterAge := age } : CharacterDataAPI).Validate lib
              = some (some "age must be between 12 and 80 years old")))
      ∧ (c.Validate lib = some none ↔ 13 ≤ c.CharacterAge ∧ c.CharacterAge ≤ 79)
      ∧ ({ c with CharacterAge := 12 } : CharacterDataAPI).Validate lib
          = some (some "age must be between 12 and 80 years old")
      ∧ ({ c with CharacterAge := 80 } : CharacterDataAPI).Validate lib
          = some (some "age must be between 12 and 80 years old")
      ∧ (∀ age : Int, age < 0 →
          ({ c with CharacterAge := age } : CharacterDataAPI).Validate lib
            = some (some "age must be between 12 and 80 years old"))
      ∧ ({ c with CharacterAge := 13 } : CharacterDataAPI).Validate lib = some none
      ∧ ({ c with CharacterAge := 79 } : CharacterDataAPI).Validate lib = some none := by
  have key : ∀ age : Int,
      ({ c with CharacterAge := age } : CharacterDataAPI).Validate lib
        = if 13 ≤ age ∧ age ≤ 79 then some none
          else some (some "age must be between 12 and 80 years old") := by
    intro age
    have hl : ¬ c.CharacterOrigin.length < 4 := by omega
    by_cases h : 13 ≤ age ∧ age ≤ 79
    · have h' : age > 12 ∧ age < 80 := by omega
      simp only [CharacterDataAPI.Validate, hname, hcheck, horigin, hchars, hl, h, h', if_false,
        Bool.not_true, Bool.false_eq_true, not_true_eq_false, if_true, and_self]
    · have h' : ¬ (age > 12 ∧ age < 80) := by omega
      simp only [CharacterDataAPI.Validate, hname, hcheck, horigin, h, h', if_false,
        Bool.not_true, Bool.false_eq_true, not_false_eq_true, if_true]
  have all : ∀ age : Int,
      (({ c with CharacterAge := age } : CharacterDataAPI).Validate lib = some none
          ↔ 13 ≤ age ∧ age ≤ 79)
        ∧ (¬ (13 ≤ age ∧ age ≤ 79) →
            ({ c with CharacterAge := age } : CharacterDataAPI).Validate lib
              = some (some "age must be between 12 and 80 years old")) := by
    intro age
    rw [key age]
    by_cases h : 13 ≤ age ∧ age ≤ 79
    · simp [h]
    · simp [h]
  refine ⟨all, (all c.CharacterAge).1, (all 12).2 (by omega), (all 80).2 (by omega),
    fun age h => (all age).2 (by omega), (all 13).1.2 (by omega), (all 79).1.2 (by omega)⟩

/-- C19 at a concrete request: the character "Test_Test" of the tests, with
origin "test". -/
theorem C19_age_is_13_to_79_witness :
    ((sampleCharacter (lit "Test_Test")).CharacterName ≠ []
        ∧ checkCharacterName sampleLib (sampleCharacter (lit "Test_Test")).CharacterName
            = some true
        ∧ (sampleCharacter (lit "Test_Test")).CharacterOrigin ≠ []
        ∧ (containsDigit sampleLib (sampleCharacter (lit "Test_Test")).CharacterOrigin
            || containsSpecialChar (sampleCharacter (lit "Test_Test")).CharacterOrigin) = false
        ∧ 4 ≤ (sampleCharacter (lit "Test_Test")).CharacterOrigin.length)
      ∧ ((sampleCharacter (lit "Test_Test")).Validate sampleLib = some none
          ↔ 13 ≤ (sampleCharacter (lit "Test_Test")).CharacterAge
            ∧ (sampleCharacter (lit "Test_Test")).CharacterAge ≤ 79)
      ∧ ({ sampleCharacter (lit "Test_Test") with CharacterAge := 12 }
            : CharacterDataAPI).Validate sampleLib
          = some (some "age must be between 12 and 80 years old")
      ∧ ({ sampleCharacter (lit "Test_Test") with CharacterAge := 79 }
            : CharacterDataAPI).Validate sampleLib = some none :=
  have h := C19_age_is_13_to_79 sampleLib (sampleCharacter (lit "Test_Test")) (by decide)
    (by decide) (by decide) (by decide) (by decide)
  ⟨⟨by decide, by decide, by decide, by decide, by decide⟩, h.2.1, h.2.2.1, h.2.2.2.2.2.2⟩

/-! ## C20: the quota of `CreateCharacter` -/

theorem CheckSession_snd (w : World) :
    (AuthService.CheckSession w).2 = (w.record Call.CheckSession).tick := by
  unfold AuthService.CheckSession
  simp only []
  split
  · rfl
  · split
    · rfl
    · split
      · rfl
      · split <;> rfl

theorem dbSelect_of_no_fault {ρ : Type} (table : DB → List ρ) (p : ρ → Bool) (w : World)
    (h : w.fault w.ops = none) :
    dbSelect table p w = (Except.ok ((table w.db).filter p), w.tick) := by
  unfold dbSelect
  rw [h]

/-- The method `UserService.GetStats` when the account exists and the two
queries are answered: `Characters` is the number of the owner's rows of
`characters` with `Created >= 0`. -/
theorem GetStats_of_account (name : GoString) (w : World) (acct : AccountRow)
    (hfind : w.db.accounts.find? (fun r => r.Username == name) = some acct)
    (h1 : w.fault w.ops = none) (h2 : w.fault (w.ops + 1) = none) :
    ∃ st, UserService.GetStats name w
        = ((some st, none), ((w.record (Call.GetStats name)).tick).tick)
      ∧ st.Characters = ((w.db.characters.filter
          (fun c => c.Username == name && decide (c.Created ≥ 0))).length : Int) := by
  unfold UserService.GetStats UserRepository.FetchStats
  rw [dbGet_of_no_fault _ _ _ (by simpa using h1)]
  simp only [record_db, hfind]
  rw [dbSelect_of_no_fault _ _ _ (by simpa using h2)]
  simp only [tick_db, record_db, List.length_map]
  exact ⟨_, rfl, rfl⟩

/-- The quota check of `CreateCharacter` for a logged-in owner with an account
when the queries are answered: 409 when the owner has 5 or more rows of
`characters` with `Created >= 0`, and no 409 otherwise. -/
theorem CreateCharacter_quota (lib : Lib) (body : CharacterDataAPI) (w : World)
    (name : GoString) (isAdmin isTester : Bool) (acct : AccountRow)
    (hsess : (AuthService.CheckSession w).1 = ⟨name, isAdmin, isTester, none⟩)
    (hname : name ≠ [])
    (hfind : w.db.accounts.find? (fun r => r.Username == name) = some acct)
    (hok : ∀ n, w.fault n = none) :
    (5 ≤ (w.db.characters.filter
          (fun c => c.Username == name && decide (c.Created ≥ 0))).length →
        UserHandler.CreateCharacter lib (some body) w
          = some (jsonResponse 409 ⟨true, "Ai atins numarul maxim de caractere."⟩,
              ((((w.record Call.CheckSession).tick).record (Call.GetStats name)).tick).tick))
      ∧ ((w.db.characters.filter
            (fun c => c.Username == name && decide (c.Created ≥ 0))).length ≤ 4 →
          ∀ (br : BaseResponse) (w' : World),
            UserHandler.CreateCharacter lib (some body) w ≠ some (jsonResponse 409 br, w')) := by
  have hs : AuthService.CheckSession w
      = (⟨name, isAdmin, isTester, none⟩, (w.record Call.CheckSession).tick) := by
    rw [← hsess, ← CheckSession_snd]
  obtain ⟨st, hst, hcount⟩ := GetStats_of_account name (w.record Call.CheckSession).tick acct
    hfind (hok _) (hok _)
  simp only [tick_db, record_db] at hcount
  constructor
  · intro h5
    have : st.Characters ≥ 5 := by rw [hcount]; exact_mod_cast h5
    unfold UserHandler.CreateCharacter
    simp only [hs, hname, if_false, hst, this, decide_True, if_true]
  · intro h4 br w'
    have : ¬ st.Characters ≥ 5 := by
      rw [hcount]
      have : ¬ 5 ≤ (w.db.characters.filter
        (fun c => c.Username == name && decide (c.Created ≥ 0))).length := by omega
      exact_mod_cast this
    unfold UserHandler.CreateCharacter
    simp only [hs, hname, if_false, hst, this, decide_False, Bool.false_eq_true]
    cases body.Validate lib with
    | none => simp
    | some v =>
      cases v with
      | some err => simp [jsonResponse]
      | none =>
        simp only []
        cases CharacterService.Create { body with Username := name }
          ((((w.record Call.CheckSession).tick).record (Call.GetStats name)).tick).tick with
        | mk r w3 => cases r <;> simp [jsonResponse]

/-- C20, the claim as written fails: in `proposalsWorld 5` the test account is
logged in and has five characters, all proposed (`Created` 0, `Status` 0) and
none accepted; `CreateCharacter` refuses a well-formed request with 409
"Ai atins numarul maxim de caractere.". -/
theorem C20_five_proposals_are_refused :
    ((proposalsWorld 5).db.characters.filter
          (fun c => c.Username == testUsername && (c.Created == 1 || c.Status == 1))).length = 0
      ∧ ((proposalsWorld 5).db.characters.filter
          (fun c => c.Username == testUsername && c.Created == 0 && c.Status == 0)).length = 5
      ∧ (sampleCharacter (lit "Test_Test")).Validate sampleLib = some none
      ∧ (UserHandler.CreateCharacter sampleLib (some (sampleCharacter (lit "Test_Test")))
            (proposalsWorld 5)).map Prod.fst
          = some (jsonResponse 409 ⟨true, "Ai atins numarul maxim de caractere."⟩) := by
  refine ⟨by decide, by decide, by decide, by decide⟩

/-- C20 (amended): the quota check of `CreateCharacter` counts the rows of
`characters` of the owner with `Created >= 0`, proposed ones as well as
accepted ones. For every logged-in owner who has an account, every parsed
body and every world where the queries are answered, the request is refused
with 409 "Ai atins numarul maxim de caractere." (the database left as it was)
exactly when the owner has 5 or more such rows; with 4 or fewer the answer is
not a 409. -/
theorem C20_quota_counts_created_at_least_0 (lib : Lib) (body : CharacterDataAPI) (w : World)
    (name : GoString) (isAdmin isTester : Bool) (acct : AccountRow)
    (hsess : (AuthService.CheckSession w).1 = ⟨name, isAdmin, isTester, none⟩)
    (hname : name ≠ [])
    (hfind : w.db.accounts.find? (fun r => r.Username == name) = some acct)
    (hok : ∀ n, w.fault n = none) :
    ((∃ w', UserHandler.CreateCharacter lib (some body) w
            = some (jsonResponse 409 ⟨true, "Ai atins numarul maxim de caractere."⟩, w')
          ∧ w'.db = w.db)
        ↔ 5 ≤ (w.db.characters.filter
            (fun c => c.Username == name && decide (c.Created ≥ 0))).length)
      ∧ ((w.db.characters.filter
            (fun c => c.Username == name && decide (c.Created ≥ 0))).length ≤ 4 →
          ∀ (br : BaseResponse) (w' : World),
            UserHandler.CreateCharacter lib (some body) w ≠ some (jsonResponse 409 br, w')) := by
  obtain ⟨h5, h4⟩ := CreateCharacter_quota lib body w name isAdmin isTester acct hsess hname
    hfind hok
  refine ⟨⟨fun ⟨w', hw', _⟩ => ?_, fun h => ⟨_, h5 h, rfl⟩⟩, h4⟩
  by_contra hn
  exact h4 (by omega) _ _ hw'

/-- C20 (amended) at concrete worlds: the test account with four proposed
characters proposes a fifth and gets 201; with five it gets 409. -/
theorem C20_quota_counts_created_at_least_0_witness :
    ((AuthService.CheckSession (proposalsWorld 4)).1 = ⟨testUsername, false, false, none⟩
        ∧ testUsername ≠ []
        ∧ (proposalsWorld 4).db.accounts.find? (fun r => r.Username == testUsername)
            = some { sampleAccount with Activated := 2 }
        ∧ ∀ n, (proposalsWorld 4).fault n = none)
      ∧ ((proposalsWorld 4).db.characters.filter
            (fun c => c.Username == testUsername && decide (c.Created ≥ 0))).length = 4
      ∧ (∀ (br : BaseResponse) (w' : World),
          UserHandler.CreateCharacter sampleLib (some (sampleCharacter (lit "Test_Test")))
            (proposalsWorld 4) ≠ some (jsonResponse 409 br, w'))
      ∧ (UserHandler.CreateCharacter sampleLib (some (sampleCharacter (lit "Test_Test")))
            (proposalsWorld 4)).map Prod.fst = some (jsonResponse 201 ⟨false, ""⟩) :=
  ⟨⟨by decide, by decide, by decide, fun _ => rfl⟩, by decide,
    (C20_quota_counts_created_at_least_0 sampleLib (sampleCharacter (lit "Test_Test"))
      (proposalsWorld 4) testUsername false false { sampleAccount with Activated := 2 }
      (by decide) (by decide) (by decide) (fun _ => rfl)).2 (by decide),
    by decide⟩

/-! ## C28: the signed message determines the email and the timestamp -/

theorem digitByte_ne_colon (d : Nat) : digitByte d ≠ byteOf 58 := by
  intro h
  have := congrArg Fin.val h
  rw [digitByte_val] at this
  have h58 : (byteOf 58).val = 58 := rfl
  omega

theorem formatDigits_no_colon (fuel : Nat) : ∀ n, byteOf 58 ∉ formatDigits fuel n := by
  induction fuel with
  | zero => intro n; simp [formatDigits]
  | succ fuel ih =>
    intro n
    unfold formatDigits
    by_cases h10 : n < 10
    · rw [if_pos h10]
      simp only [List.mem_singleton]
      exact fun h => digitByte_ne_colon n h.symm
    · rw [if_neg h10]
      simp only [List.mem_append, List.mem_singleton, not_or]
      exact ⟨ih _, fun h => digitByte_ne_colon n h.symm⟩

/-- The rendering of an integer has no colon. -/
theorem FormatInt_no_colon (t : Int) : byteOf 58 ∉ FormatInt t := by
  unfold FormatInt FormatUint
  split
  · intro h
    rw [List.mem_append] at h
    rcases h with h | h
    · revert h; decide
    · exact formatDigits_no_colon _ _ h
  · exact formatDigits_no_colon _ _

theorem append_sep_injective {α : Type} (c : α) :
    ∀ (e1 e2 d1 d2 : List α), c ∉ d1 → c ∉ d2 → e1 ++ c :: d1 = e2 ++ c :: d2 →
      e1 = e2 ∧ d1 = d2 := by
  intro e1
  induction e1 with
  | nil =>
    intro e2 d1 d2 h1 h2 h
    cases e2 with
    | nil => simpa using h
    | cons x e2 =>
      exfalso
      simp only [List.nil_append, List.cons_append, List.cons.injEq] at h
      apply h1
      rw [h.2]
      simp
  | cons y e1 ih =>
    intro e2 d1 d2 h1 h2 h
    cases e2 with
    | nil =>
      exfalso
      simp only [List.nil_append, List.cons_append, List.cons.injEq] at h
      apply h2
      rw [← h.2]
      simp
    | cons x e2 =>
      simp only [List.cons_append, List.cons.injEq] at h
      obtain ⟨he, hd⟩ := ih e2 d1 d2 h1 h2 h.2
      exact ⟨by rw [h.1, he], hd⟩

/-- C28: for all emails (any byte strings, colons included) and all `int64`
timestamps, if the messages `tokenData e1 t1` and `tokenData e2 t2` that
`GenerateToken` signs are equal, then `e1 = e2` and `t1 = t2`: the rendering
of the timestamp has no colon, so the last colon of the message is the
separator. -/
theorem C28_signed_message_is_injective (e1 e2 : GoString) (t1 t2 : Int)
    (h1 : isInt64 t1) (h2 : isInt64 t2)
    (h : tokenData e1 t1 = tokenData e2 t2) : e1 = e2 ∧ t1 = t2 := by
  unfold tokenData at h
  have hc : lit ":" = [byteOf 58] := by decide
  rw [hc, List.append_assoc, List.append_assoc] at h
  obtain ⟨he, hd⟩ := append_sep_injective (byteOf 58) e1 e2 (FormatInt t1) (FormatInt t2)
    (FormatInt_no_colon t1) (FormatInt_no_colon t2) h
  exact ⟨he, FormatInt_injective t1 t2 h1 h2 hd⟩

/-- C28 at concrete inputs: an email with colons in it and a negative
timestamp. -/
theorem C28_signed_message_is_injective_witness :
    (isInt64 (-12) ∧ tokenData (lit "a:1:b@test.ro") (-12) = lit "a:1:b@test.ro:-12")
      ∧ lit "a:1:b@test.ro" = lit "a:1:b@test.ro" ∧ (-12 : Int) = -12 :=
  ⟨⟨by decide, by decide⟩,
    C28_signed_message_is_injective (lit "a:1:b@test.ro") (lit "a:1:b@test.ro") (-12) (-12)
      (by decide) (by decide) rfl⟩

/-! ## C26: `Fetch` when the query fails -/

/-- C26, the divergence: `UserRepository.Fetch` never returns an error. When
the query fails with an error other than "sql: no rows in result set" it
returns `(false, nil)`, the very answer it gives when no account matches. In
`storageDownWorld`, where the account of the test user is stored and the
database refuses the connection, `Fetch` of that user returns `(false, nil)`,
and so does `Fetch` in the world `quietWorld` that has no account. -/
theorem C26_fetch_swallows_storage_errors :
    (∀ (name email : GoString) (w : World), (UserRepository.Fetch name email w).1.2 = none)
      ∧ (∀ (name email : GoString) (w : World) (err : GoError),
          w.fault w.ops = some err → err ≠ ErrNoRows →
          (UserRepository.Fetch name email w).1 = (false, none))
      ∧ sampleAccount ∈ storageDownWorld.db.accounts
      ∧ sampleAccount.Username = testUsername
      ∧ (UserRepository.Fetch testUsername testEmail storageDownWorld).1 = (false, none)
      ∧ (UserRepository.Fetch testUsername testEmail quietWorld).1 = (false, none) := by
  refine ⟨fun name email w => ?_, fun name email w err hf hne => ?_, by decide, rfl, by decide,
    by decide⟩
  · unfold UserRepository.Fetch
    cases dbGet DB.accounts (fun r => r.Username == name || r.Email == email) w with
    | mk res w1 =>
      cases res with
      | error e => by_cases he : e = ErrNoRows <;> simp [he]
      | ok row => rfl
  · unfold UserRepository.Fetch dbGet
    simp [hf, hne]

/-! ## C27: `checkCharacterName` on an empty part -/

/-- C27, the divergence: `checkCharacterName` indexes `str[0]` on each of the
two parts, so it panics (`none`) exactly when the name splits at "_" into two
parts one of which is empty. On "John_", "_Smith" and "_" it panics, and so
do `Validate` and, for a logged-in user, the handler `CreateCharacter`. -/
theorem C27_empty_part_panics (lib : Lib) :
    (∀ s : GoString, checkCharacterName lib s = none ↔
        ∃ a b, splitByte (byteOf 95) s = [a, b] ∧ (a = [] ∨ b = []))
      ∧ splitByte (byteOf 95) (lit "John_") = [lit "John", []]
      ∧ checkCharacterName lib (lit "John_") = none
      ∧ checkCharacterName lib (lit "_Smith") = none
      ∧ checkCharacterName lib (lit "_") = none
      ∧ (sampleCharacter (lit "John_")).Validate lib = none
      ∧ (sampleCharacter (lit "_Smith")).Validate lib = none
      ∧ (sampleCharacter (lit "_")).Validate lib = none
      ∧ (AuthService.CheckSession (proposalsWorld 0)).1 = ⟨testUsername, false, false, none⟩
      ∧ UserHandler.CreateCharacter sampleLib (some (sampleCharacter (lit "John_")))
          (proposalsWorld 0) = none := by
  refine ⟨fun s => ?_, by decide, rfl, rfl, rfl, rfl, rfl, rfl, by decide, rfl⟩
  unfold checkCharacterName
  simp only []
  cases hs : splitByte (byteOf 95) s with
  | nil => simp
  | cons a l1 =>
    cases l1 with
    | nil => simp
    | cons b l2 =>
      cases l2 with
      | cons c l3 => simp
      | nil =>
        simp only [List.length_cons, List.length_nil, ne_eq, not_true_eq_false, if_false,
          List.cons.injEq, and_true, exists_and_left]
        cases a with
        | nil =>
          simp only [checkNameParts, true_iff]
          exact ⟨[], b, ⟨rfl, rfl⟩, Or.inl rfl⟩
        | cons a0 as =>
          cases b with
          | nil =>
            simp only [checkNameParts, true_iff]
            exact ⟨a0 :: as, [], ⟨rfl, rfl⟩, Or.inr rfl⟩
          | cons b0 bs => simp [checkNameParts]

/-! ## C21: `AcceptCharacter` is atomic -/

/-- A transaction that returns an error leaves the database as it was at
`Beginx`. -/
theorem withTransaction_err_db (txFunc : World → Option GoError × World) (w : World)
    (h : (withTransaction txFunc w).1 ≠ none) : (withTransaction txFunc w).2.db = w.db := by
  unfold withTransaction at h ⊢
  cases h0 : w.fault w.ops with
  | some e => rfl
  | none =>
    simp only [h0] at h ⊢
    cases hb : txFunc w.tick with
    | mk r w1 =>
      simp only [hb] at h ⊢
      cases r with
      | some e =>
        simp only []
        split <;> rfl
      | none =>
        simp only [] at h ⊢
        cases h1 : w1.fault w1.ops with
        | some e => rfl
        | none => simp [h1] at h

/-- The body of `AcceptCharacter` returns an error when no account has the
user name. -/
theorem acceptCharacterTx_no_account (username characterName acceptedBy : GoString) (tx : World)
    (h : tx.db.accounts.find? (fun r => r.Username == username) = none) :
    (acceptCharacterTx username characterName acceptedBy tx).1 ≠ none := by
  unfold acceptCharacterTx dbGet
  cases tx.fault tx.ops with
  | some e => simp
  | none => simp [h]

/-- The body of `AcceptCharacter` returns an error when the update of
`characters` changes no row. -/
theorem acceptCharacterTx_no_character (username characterName acceptedBy : GoString) (tx : World)
    (h : (tx.db.characters.filter (fun c => c.Character == characterName
      && decide (({ c with Created := 1, Status := 1 } : CharacterRow) ≠ c))).length = 0) :
    (acceptCharacterTx username characterName acceptedBy tx).1 ≠ none := by
  unfold acceptCharacterTx
  have hdb := (dbGet_frame DB.accounts (fun r => r.Username == username) tx).2
  have hops := dbGet_ops DB.accounts (fun r => r.Username == username) tx
  revert hdb hops
  cases dbGet DB.accounts (fun r => r.Username == username) tx with
  | mk res tx1 =>
    intro hdb hops
    simp only [] at hdb hops
    cases res with
    | error e => simp
    | ok row =>
      simp only []
      have : (expectRows (execStatement
          (updateCharacters (fun c => c.Character == characterName)
            (fun c => { c with Created := 1, Status := 1 })) tx1)).1 ≠ none := by
        unfold execStatement expectRows updateCharacters
        cases tx1.fault tx1.ops with
        | some e => simp
        | none =>
          simp only [hdb, h, if_true]
          simp
      revert this
      cases expectRows (execStatement
          (updateCharacters (fun c => c.Character == characterName)
            (fun c => { c with Created := 1, Status := 1 })) tx1) with
      | mk r tx2 =>
        cases r with
        | some e => simp
        | none => simp

theorem withTransaction_err_of_body (txFunc : World → Option GoError × World) (w : World)
    (h : (txFunc w.tick).1 ≠ none) : (withTransaction txFunc w).1 ≠ none := by
  unfold withTransaction
  cases w.fault w.ops with
  | some e => simp
  | none =>
    simp only []
    revert h
    cases txFunc w.tick with
    | mk r w1 =>
      cases r with
      | none => simp
      | some e =>
        intro _
        simp only []
        split <;> simp

/-- C21: for every storage state and every (owner, name, reviewer), if
`UserRepository.AcceptCharacter` returns an error, the database after the
call is the database before it: the rows of `characters` (with their status)
and the rows of `accounts` (with their character count and accepted-by) are
exactly as before. It does return an error when no account has the owner
name, when the update of `characters` changes no row, and when the update of
`accounts` changes no row. -/
theorem C21_accept_is_atomic (username characterName acceptedBy : GoString) (w : World)
    (herr : (UserRepository.AcceptCharacter username characterName acceptedBy w).1 ≠ none) :
    (UserRepository.AcceptCharacter username characterName acceptedBy w).2.db = w.db
      ∧ (UserRepository.AcceptCharacter username characterName acceptedBy w).2.db.characters
          = w.db.characters
      ∧ (UserRepository.AcceptCharacter username characterName acceptedBy w).2.db.accounts
          = w.db.accounts
      ∧ (∀ x : World, x.db.accounts.find? (fun r => r.Username == username) = none →
          (UserRepository.AcceptCharacter username characterName acceptedBy x).1 ≠ none)
      ∧ (∀ x : World,
          (x.db.characters.filter (fun c => c.Character == characterName
            && decide (({ c with Created := 1, Status := 1 } : CharacterRow) ≠ c))).length = 0 →
          (UserRepository.AcceptCharacter username characterName acceptedBy x).1 ≠ none)
      ∧ (∀ (x : World) (charCount : Int),
          (x.db.accounts.filter (fun r => r.Username == username
            && decide (({ r with Characters := charCount + 1, AcceptedBy := acceptedBy,
                                  Accepted := 2 } : AccountRow) ≠ r))).length = 0 →
          (∀ row, x.db.accounts.find? (fun r => r.Username == username) = some row →
            row.Characters = charCount) →
          (UserRepository.AcceptCharacter username characterName acceptedBy x).1 ≠ none) := by
  have hdb := withTransaction_err_db (acceptCharacterTx username characterName acceptedBy) w herr
  refine ⟨hdb, congrArg DB.characters hdb, congrArg DB.accounts hdb, fun x h => ?_,
    fun x h => ?_, fun x charCount h hrow => ?_⟩
  · exact withTransaction_err_of_body _ _ (acceptCharacterTx_no_account _ _ _ _ h)
  · exact withTransaction_err_of_body _ _ (acceptCharacterTx_no_character _ _ _ _ h)
  · apply withTransaction_err_of_body
    apply acceptCharacterTx_no_account
    cases hf : x.db.accounts.find? (fun r => r.Username == username) with
    | none => exact hf
    | some row =>
      exfalso
      have hc := hrow row hf
      have hp := List.find?_some hf
      have hm := List.mem_of_find?_eq_some hf
      have : row ∈ x.db.accounts.filter (fun r => r.Username == username
            && decide (({ r with Characters := charCount + 1, AcceptedBy := acceptedBy,
                                  Accepted := 2 } : AccountRow) ≠ r)) := by
        rw [List.mem_filter]
        refine ⟨hm, ?_⟩
        simp only [Bool.and_eq_true, decide_eq_true_eq]
        refine ⟨hp, fun heq => ?_⟩
        have := congrArg AccountRow.Characters heq
        simp only [] at this
        omega
      rw [List.length_eq_zero.1 h] at this
      exact absurd this (List.not_mem_nil _)

/-- C21 at a concrete world: the update of `characters` goes through and the
update of `accounts` fails; the proposed character is still proposed and the
account is as it was. -/
theorem C21_accept_is_atomic_witness :
    (UserRepository.AcceptCharacter testUsername (lit "Test_A") (lit "admin")
          acceptFailsWorld).1 = some "connection lost"
      ∧ (UserRepository.AcceptCharacter testUsername (lit "Test_A") (lit "admin")
          acceptFailsWorld).2.db = acceptFailsWorld.db
      ∧ acceptFailsWorld.db.characters.map (fun c => (c.Character, c.Status))
          = [(lit "Test_A", 0)] :=
  ⟨by decide,
    (C21_accept_is_atomic testUsername (lit "Test_A") (lit "admin") acceptFailsWorld
      (by decide)).1,
    by decide⟩

/-! ## C23: `DeclineCharacter` -/

theorem execStatement_ok_rows {effect : World → Nat × DB} {w : World}
    (h : (execStatement effect w).1.2 = none) :
    (execStatement effect w).1.1 = (effect w).1 := by
  unfold execStatement at h ⊢
  cases h0 : w.fault w.ops with
  | some e => simp [h0] at h
  | none => rfl

/-- What `UserRepository.DeclineCharacter` does when every round trip is
answered: with a row of the name whose status is 0 it returns nil and the
rows of that name with status 0 are gone; with none it returns an error and
the database is as it was. -/
theorem DeclineCharacter_of_no_fault (characterName : GoString) (w : World)
    (hok : ∀ n, w.fault n = none) :
    (UserRepository.DeclineCharacter characterName w).1
        = (if (w.db.characters.filter
              (fun c => c.Character == characterName && c.Status == 0)).length = 0
            then some "no rows affected, expected one" else none)
      ∧ (UserRepository.DeclineCharacter characterName w).2.db
          = (if (w.db.characters.filter
                (fun c => c.Character == characterName && c.Status == 0)).length = 0
              then w.db
              else { w.db with characters := (w.db.characters.filter
                      (fun c => !(c.Character == characterName && c.Status == 0))) }) := by
  unfold UserRepository.DeclineCharacter withTransaction
  simp only [hok, tick_fault, tick_ops, execStatement, expectRows, deleteCharacters, tick_db]
  by_cases h : (w.db.characters.filter
      (fun c => c.Character == characterName && c.Status == 0)).length = 0
  · simp [h, hok]
  · simp [h, hok]

/-- C23: whatever the storage does, `DeclineCharacter` leaves the table
`characters` as it was or removes from it exactly the rows of the name whose
status is 0, so a row of another name, and a row whose status is not 0, is
never removed; the other tables are untouched. When it returns nil, a row of
the name with status 0 was there and none is left. When every round trip is
answered, it returns nil exactly when a row of the name has status 0; for a
name all of whose rows are accepted it returns an error and leaves the
database unchanged. The service `CharacterService.DeclineCharacter` refuses
an empty name and otherwise is this method. -/
theorem C23_decline_removes_only_proposed (characterName : GoString) (w : World) :
    ((UserRepository.DeclineCharacter characterName w).2.db = w.db
        ∨ (UserRepository.DeclineCharacter characterName w).2.db
            = { w.db with characters := (w.db.characters.filter
                  (fun c => !(c.Character == characterName && c.Status == 0))) })
      ∧ (∀ c ∈ w.db.characters, (c.Character ≠ characterName ∨ c.Status ≠ 0) →
          c ∈ (UserRepository.DeclineCharacter characterName w).2.db.characters)
      ∧ ((UserRepository.DeclineCharacter characterName w).1 = none →
          (∃ c ∈ w.db.characters, c.Character = characterName ∧ c.Status = 0)
            ∧ ∀ c ∈ (UserRepository.DeclineCharacter characterName w).2.db.characters,
                ¬ (c.Character = characterName ∧ c.Status = 0))
      ∧ ((∀ n, w.fault n = none) →
          ((UserRepository.DeclineCharacter characterName w).1 = none
            ↔ ∃ c ∈ w.db.characters, c.Character = characterName ∧ c.Status = 0))
      ∧ ((∀ c ∈ w.db.characters, c.Character = characterName → c.Status ≠ 0) →
          (UserRepository.DeclineCharacter characterName w).1 ≠ none
            ∧ (UserRepository.DeclineCharacter characterName w).2.db = w.db)
      ∧ (∀ data : RejectCharacterAPI,
          CharacterService.DeclineCharacter data w
            = if data.CharacterName = [] then
                (some "unexpected character name data", w.record (Call.DeclineCharacter data))
              else UserRepository.DeclineCharacter data.CharacterName
                (w.record (Call.DeclineCharacter data))) := by
  have hdb : (UserRepository.DeclineCharacter characterName w).2.db = w.db
        ∨ (UserRepository.DeclineCharacter characterName w).2.db
            = { w.db with characters := (w.db.characters.filter
                  (fun c => !(c.Character == characterName && c.Status == 0))) } := by
    unfold UserRepository.DeclineCharacter
    rcases withTransaction_db (fun tx => expectRows (execStatement
      (deleteCharacters (fun c => c.Character == characterName && c.Status == 0)) tx)) w
      with h | h
    · exact Or.inl h
    · rw [h, expectRows_snd]
      unfold execStatement
      cases w.tick.fault w.tick.ops with
      | some e => exact Or.inl rfl
      | none => exact Or.inr rfl
  have hok : (UserRepository.DeclineCharacter characterName w).1 = none →
      (w.db.characters.filter
          (fun c => c.Character == characterName && c.Status == 0)).length ≠ 0
        ∧ (UserRepository.DeclineCharacter characterName w).2.db
            = { w.db with characters := (w.db.characters.filter
                  (fun c => !(c.Character == characterName && c.Status == 0))) } := by
    intro h
    have h' : UserRepository.DeclineCharacter characterName w
        = (none, (UserRepository.DeclineCharacter characterName w).2) := by
      rw [← h]
    unfold UserRepository.DeclineCharacter at h'
    obtain ⟨_, w1, hb, _, hw2⟩ := withTransaction_ok h'
    obtain ⟨he, hrows, hw⟩ := expectRows_ok hb
    have h1 := execStatement_ok he
    constructor
    · intro h0
      apply hrows
      rw [execStatement_ok_rows he]
      exact h0
    · unfold UserRepository.DeclineCharacter
      rw [hw2, ← hw]
      exact h1
  have hex : (w.db.characters.filter
          (fun c => c.Character == characterName && c.Status == 0)).length ≠ 0
      ↔ ∃ c ∈ w.db.characters, c.Character = characterName ∧ c.Status = 0 := by
    rw [Ne, List.length_eq_zero, List.filter_eq_nil_iff]
    simp only [Bool.and_eq_true, beq_iff_eq, not_forall, Classical.not_not, exists_prop]
  refine ⟨hdb, fun c hc hne => ?_, fun h => ⟨hex.1 (hok h).1, fun c hc => ?_⟩, fun hfault => ?_,
    fun hall => ?_, fun data => rfl⟩
  · rcases hdb with h | h
    · rw [h]; exact hc
    · rw [h]
      simp only [List.mem_filter, Bool.not_eq_true', Bool.and_eq_false_imp, beq_iff_eq]
      refine ⟨hc, fun hn => ?_⟩
      rcases hne with hne | hne
      · exact absurd hn hne
      · simpa using hne
  · rw [(hok h).2] at hc
    simp only [List.mem_filter, Bool.not_eq_true', Bool.and_eq_false_imp, beq_iff_eq] at hc
    rintro ⟨h1, h2⟩
    have := hc.2 h1
    simp [h2] at this
  · rw [(DeclineCharacter_of_no_fault characterName w hfault).1, ← hex]
    by_cases h0 : (w.db.characters.filter
        (fun c => c.Character == characterName && c.Status == 0)).length = 0
    · simp [h0]
    · simp [h0]
  · have hnone : ¬ ∃ c ∈ w.db.characters, c.Character = characterName ∧ c.Status = 0 := by
      rintro ⟨c, hc, h1, h2⟩
      exact hall c hc h1 h2
    have hne : (UserRepository.DeclineCharacter characterName w).1 ≠ none :=
      fun h => hnone (hex.1 (hok h).1)
    refine ⟨hne, ?_⟩
    unfold UserRepository.DeclineCharacter at hne ⊢
    exact withTransaction_err_db _ _ hne

/-- The two cases of C23 in `oneAcceptedWorld`: the accepted "Test_A" cannot be
declined, the proposed "Test_B" is removed and "Test_A" stays. -/
theorem DeclineCharacter_examples :
    (UserRepository.DeclineCharacter (lit "Test_A") oneAcceptedWorld).1
        = some "no rows affected, expected one"
      ∧ (UserRepository.DeclineCharacter (lit "Test_A") oneAcceptedWorld).2.db
          = oneAcceptedWorld.db
      ∧ (UserRepository.DeclineCharacter (lit "Test_B") oneAcceptedWorld).1 = none
      ∧ (UserRepository.DeclineCharacter (lit "Test_B") oneAcceptedWorld).2.db.characters.map
            (fun c => (c.Character, c.Status)) = [(lit "Test_A", 1)] := by
  refine ⟨by decide, by decide, by decide, by decide⟩

/-! ## C24: the reviewer `AcceptCharacter` records -/

theorem execUpdateAccounts_ok {p : AccountRow → Bool} {f : AccountRow → AccountRow} {w : World}
    (h : (execUpdateAccounts p f w).1.2 = none) :
    (execUpdateAccounts p f w).2.db
      = { w.db with accounts := w.db.accounts.map (fun r => if p r then f r else r) } := by
  unfold execUpdateAccounts at h ⊢
  cases h0 : w.fault w.ops with
  | some e => simp [h0] at h
  | none => rfl

theorem dbGet_ok {ρ : Type} {table : DB → List ρ} {p : ρ → Bool} {w w1 : World} {row : ρ}
    (h : dbGet table p w = (Except.ok row, w1)) :
    (table w.db).find? p = some row ∧ w1 = w.tick := by
  unfold dbGet at h
  cases hf : w.fault w.ops with
  | some e => simp [hf] at h
  | none =>
    simp only [hf] at h
    cases hfind : (table w.db).find? p with
    | none => simp [hfind] at h
    | some r =>
      simp only [hfind, Prod.mk.injEq, Except.ok.injEq] at h
      exact ⟨by rw [h.1], h.2.symm⟩

/-- When `UserRepository.AcceptCharacter` returns nil, the rows of
`characters` of the name are accepted and the rows of `accounts` of the user
name have the count of the first of them plus one, and the reviewer. -/
theorem AcceptCharacter_ok {username characterName acceptedBy : GoString} {w w2 : World}
    (h : UserRepository.AcceptCharacter username characterName acceptedBy w = (none, w2)) :
    ∃ row, w.db.accounts.find? (fun r => r.Username == username) = some row
      ∧ w2.db = { accounts := w.db.accounts.map (fun r =>
                    if r.Username == username then
                      { r with Characters := row.Characters + 1, AcceptedBy := acceptedBy,
                               Accepted := 2 }
                    else r),
                  characters := w.db.characters.map (fun c =>
                    if c.Character == characterName then { c with Created := 1, Status := 1 }
                    else c),
                  blacklist := w.db.blacklist } := by
  unfold UserRepository.AcceptCharacter at h
  obtain ⟨_, w1, hb, _, rfl⟩ := withTransaction_ok h
  unfold acceptCharacterTx at hb
  cases hg : dbGet DB.accounts (fun r => r.Username == username) w.tick with
  | mk res tx1 =>
    rw [hg] at hb
    cases res with
    | error e => simp at hb
    | ok row =>
      obtain ⟨hfind, htx1⟩ := dbGet_ok hg
      simp only [] at hb
      refine ⟨row, hfind, ?_⟩
      cases hc : expectRows (execStatement
          (updateCharacters (fun c => c.Character == characterName)
            (fun c => { c with Created := 1, Status := 1 })) tx1) with
      | mk r tx2 =>
        rw [hc] at hb
        cases r with
        | some e => simp at hb
        | none =>
          simp only [] at hb
          obtain ⟨he, _, hw⟩ := expectRows_ok hc
          have h1 := execStatement_ok he
          rw [hw] at h1
          obtain ⟨he2, _, hw2⟩ := expectRows_ok hb
          have h2 := execUpdateAccounts_ok he2
          rw [hw2] at h2
          show w1.db = _
          rw [h2, h1, htx1]
          rfl

theorem acceptCharacterTx_frame (username characterName acceptedBy : GoString) (x : World) :
    sameFrame (acceptCharacterTx username characterName acceptedBy x).2 x := by
  unfold acceptCharacterTx
  have h1 := (dbGet_frame DB.accounts (fun r => r.Username == username) x).1
  revert h1
  cases dbGet DB.accounts (fun r => r.Username == username) x with
  | mk res x1 =>
    intro h1
    cases res with
    | error e => exact h1
    | ok row =>
      simp only []
      have h2 := execStatement_frame
        (updateCharacters (fun c => c.Character == characterName)
          (fun c => { c with Created := 1, Status := 1 })) x1
      rw [← expectRows_snd] at h2
      revert h2
      cases expectRows (execStatement
        (updateCharacters (fun c => c.Character == characterName)
          (fun c => { c with Created := 1, Status := 1 })) x1) with
      | mk r x2 =>
        intro h2
        cases r with
        | some e => exact sameFrame_trans h2 h1
        | none =>
          simp only []
          rw [expectRows_snd]
          exact sameFrame_trans (execUpdateAccounts_frame _ _ x2) (sameFrame_trans h2 h1)

theorem CharacterService_AcceptCharacter_calls (data : CharacterAPI) (w : World) :
    (CharacterService.AcceptCharacter data w).2.calls
      = w.calls ++ [Call.AcceptCharacter data] := by
  unfold CharacterService.AcceptCharacter
  split
  · rfl
  · exact (withTransaction_frame _ (acceptCharacterTx_frame _ _ _)
      (w.record (Call.AcceptCharacter data))).1

theorem FetchMail_frame (name : GoString) (w : World) :
    (UserService.FetchMail name w).2.db = w.db
      ∧ (UserService.FetchMail name w).2.calls = w.calls ++ [Call.FetchMail name] := by
  unfold UserService.FetchMail UserRepository.FetchMail
  have h := dbGet_frame DB.accounts (fun r => r.Username == name)
    (w.record (Call.FetchMail name))
  revert h
  cases dbGet DB.accounts (fun r => r.Username == name) (w.record (Call.FetchMail name)) with
  | mk res w1 =>
    intro h
    have h1 : w1.db = w.db := h.2
    have h2 : w1.calls = w.calls ++ [Call.FetchMail name] := h.1.1
    cases res with
    | error e => by_cases he : e = ErrNoRows <;> simp [he, h1, h2]
    | ok row => exact ⟨h1, h2⟩

/-- What `UserHandler.AcceptCharacter` does for a session that passes its
checks: its one call of the character service is `AcceptCharacter` with the
name of the session as `AcceptedBy`, the database it leaves is the one that
call left, and it answers 200 only if that call returned nil. -/
theorem AcceptCharacter_handler (lib : Lib) (body : CharacterAPI) (w : World)
    (name : GoString) (isAdmin isTester : Bool)
    (hsess : (AuthService.CheckSession w).1 = ⟨name, isAdmin, isTester, none⟩)
    (hname : name ≠ [])
    (hpriv : isAdmin = true ∨ isTester = true) :
    (UserHandler.AcceptCharacter lib (some body) w).2.db
        = (CharacterService.AcceptCharacter { body with AcceptedBy := name }
            (w.record Call.CheckSession).tick).2.db
      ∧ ((UserHandler.AcceptCharacter lib (some body) w).1 = jsonResponse 200 ⟨false, ""⟩ →
          (CharacterService.AcceptCharacter { body with AcceptedBy := name }
            (w.record Call.CheckSession).tick).1 = none)
      ∧ (∀ c ∈ (UserHandler.AcceptCharacter lib (some body) w).2.calls, c ∈ w.calls
          ∨ c = Call.CheckSession
          ∨ c = Call.AcceptCharacter { body with AcceptedBy := name }
          ∨ c = Call.FetchMail body.Username
          ∨ ∃ recipient subject text, c = Call.SendEmail recipient subject text) := by
  have hs : AuthService.CheckSession w
      = (⟨name, isAdmin, isTester, none⟩, (w.record Call.CheckSession).tick) := by
    rw [← hsess, ← CheckSession_snd]
  have hp : (!isAdmin && !isTester) = false := by
    rcases hpriv with h | h <;> simp [h]
  have hcalls := CharacterService_AcceptCharacter_calls { body with AcceptedBy := name }
    (w.record Call.CheckSession).tick
  unfold UserHandler.AcceptCharacter
  simp only [hs, hname, if_false, hp, Bool.false_eq_true]
  revert hcalls
  cases CharacterService.AcceptCharacter { body with AcceptedBy := name }
      (w.record Call.CheckSession).tick with
  | mk r w2 =>
    intro hcalls
    simp only [tick_calls, record_calls] at hcalls
    have hmem2 : ∀ c ∈ w2.calls, c ∈ w.calls ∨ c = Call.CheckSession
        ∨ c = Call.AcceptCharacter { body with AcceptedBy := name } := by
      intro c hc
      rw [hcalls] at hc
      simp only [List.mem_append, List.mem_singleton] at hc
      tauto
    cases r with
    | some e =>
      refine ⟨rfl, fun h => ?_, fun c hc => ?_⟩
      · simp [jsonResponse] at h
      · rcases hmem2 c hc with h | h | h <;> tauto
    | none =>
      simp only []
      have hfm := FetchMail_frame body.Username w2
      revert hfm
      cases UserService.FetchMail body.Username w2 with
      | mk r3 w3 =>
        obtain ⟨email, err⟩ := r3
        intro hfm
        simp only [] at hfm
        have hmem3 : ∀ c ∈ w3.calls, c ∈ w.calls ∨ c = Call.CheckSession
            ∨ c = Call.AcceptCharacter { body with AcceptedBy := name }
            ∨ c = Call.FetchMail body.Username := by
          intro c hc
          rw [hfm.2] at hc
          simp only [List.mem_append, List.mem_singleton] at hc
          rcases hc with hc | hc
          · rcases hmem2 c hc with h | h | h <;> tauto
          · tauto
        cases err with
        | some e =>
          refine ⟨hfm.1, fun _ => trivial, fun c hc => ?_⟩
          rcases hmem3 c hc with h | h | h | h <;> tauto
        | none =>
          refine ⟨hfm.1, fun _ => trivial, fun c hc => ?_⟩
          simp only [EmailService.SendEmail, tick_calls, record_calls, List.mem_append,
            List.mem_singleton] at hc
          rcases hc with hc | hc
          · rcases hmem3 c hc with h | h | h | h <;> tauto
          · exact Or.inr (Or.inr (Or.inr (Or.inr ⟨_, _, _, hc⟩)))

/-- C24: for every `AcceptCharacter` request from a session with a non-empty
name and the admin or tester flag, and every body: the handler does the same
whatever `AcceptedBy` the body carries; the only call of `AcceptCharacter` it
makes has the name of the session as `AcceptedBy`; and when it answers 200,
the account of the owner named in the body exists and every row of that user
name has the name of the session as accepted-by. -/
theorem C24_accepted_by_is_the_session_name (lib : Lib) (body : CharacterAPI) (w : World)
    (name : GoString) (isAdmin isTester : Bool)
    (hsess : (AuthService.CheckSession w).1 = ⟨name, isAdmin, isTester, none⟩)
    (hname : name ≠ [])
    (hpriv : isAdmin = true ∨ isTester = true) :
    (∀ other : GoString,
        UserHandler.AcceptCharacter lib (some { body with AcceptedBy := other }) w
          = UserHandler.AcceptCharacter lib (some body) w)
      ∧ (∀ data : CharacterAPI,
          Call.AcceptCharacter data ∈ (UserHandler.AcceptCharacter lib (some body) w).2.calls →
          Call.AcceptCharacter data ∈ w.calls ∨ data = { body with AcceptedBy := name })
      ∧ ((UserHandler.AcceptCharacter lib (some body) w).1 = jsonResponse 200 ⟨false, ""⟩ →
          (∃ r ∈ (UserHandler.AcceptCharacter lib (some body) w).2.db.accounts,
              r.Username = body.Username)
            ∧ ∀ r ∈ (UserHandler.AcceptCharacter lib (some body) w).2.db.accounts,
                r.Username = body.Username → r.AcceptedBy = name) := by
  obtain ⟨hdb, h200, hcalls⟩ := AcceptCharacter_handler lib body w name isAdmin isTester hsess
    hname hpriv
  refine ⟨fun other => ?_, fun data hd => ?_, fun hresp => ?_⟩
  · unfold UserHandler.AcceptCharacter
    rfl
  · rcases hcalls _ hd with h | h | h | h | ⟨_, _, _, h⟩
    · exact Or.inl h
    · exact absurd h (by simp)
    · exact Or.inr (Call.AcceptCharacter.inj h)
    · exact absurd h (by simp)
    · exact absurd h (by simp)
  · have hnone := h200 hresp
    have hacc : CharacterService.AcceptCharacter { body with AcceptedBy := name }
          (w.record Call.CheckSession).tick
        = (none, (CharacterService.AcceptCharacter { body with AcceptedBy := name }
          (w.record Call.CheckSession).tick).2) := by
      rw [← hnone]
    rw [hdb]
    unfold CharacterService.AcceptCharacter at hacc
    split at hacc
    · simp at hacc
    · obtain ⟨row, hfind, hw2⟩ := AcceptCharacter_ok hacc
      unfold CharacterService.AcceptCharacter
      rw [if_neg (by assumption)]
      rw [hw2]
      have hmem := List.mem_of_find?_eq_some hfind
      have hp := List.find?_some hfind
      simp only [beq_iff_eq] at hp
      constructor
      · refine ⟨_, List.mem_map.2 ⟨row, hmem, rfl⟩, ?_⟩
        simp only [hp, beq_self_eq_true, if_true]
      · intro r hr hu
        simp only [List.mem_map] at hr
        obtain ⟨r0, _, rfl⟩ := hr
        by_cases h0 : (r0.Username == body.Username) = true
        · simp only [h0, if_true]
        · simp only [h0] at hu
          simp only [beq_iff_eq] at h0
          exact absurd hu h0

/-- C24 at a concrete request: the administrator "admin" accepts "Other_A"
for the account "other", with a body that names someone else as reviewer. -/
theorem C24_accepted_by_is_the_session_name_witness :
    ((AuthService.CheckSession reviewWorld).1 = ⟨lit "admin", true, false, none⟩
        ∧ lit "admin" ≠ ([] : GoString))
      ∧ (UserHandler.AcceptCharacter sampleLib
            (some ⟨lit "other", lit "Other_A", lit "somebody else"⟩) reviewWorld).1
          = jsonResponse 200 ⟨false, ""⟩
      ∧ (UserHandler.AcceptCharacter sampleLib
            (some ⟨lit "other", lit "Other_A", lit "somebody else"⟩)
            reviewWorld).2.db.accounts.map (fun r => (r.Username, r.AcceptedBy))
          = [(testUsername, []), (lit "other", lit "admin")]
      ∧ (∀ r ∈ (UserHandler.AcceptCharacter sampleLib
            (some ⟨lit "other", lit "Other_A", lit "somebody else"⟩) reviewWorld).2.db.accounts,
          r.Username = lit "other" → r.AcceptedBy = lit "admin") :=
  ⟨⟨by decide, by decide⟩, by decide, by decide,
    ((C24_accepted_by_is_the_session_name sampleLib
      ⟨lit "other", lit "Other_A", lit "somebody else"⟩ reviewWorld (lit "admin") true false
      (by decide) (by decide) (Or.inl rfl)).2.2 (by decide)).2⟩

/-! ## C22: the character count and the accepted characters -/

theorem CreateCharacter_db (data : CharacterDB) (w : World) :
    (UserRepository.CreateCharacter data w).2.db = w.db
      ∨ (UserRepository.CreateCharacter data w).2.db
          = { w.db with characters := w.db.characters ++ [newCharacterRow data] } := by
  have key : ∀ x : World, x.db = w.db →
      (withTransaction (fun tx => expectRows
        (execStatement (insertCharacter (newCharacterRow data)) tx)) x).2.db = w.db
      ∨ (withTransaction (fun tx => expectRows
        (execStatement (insertCharacter (newCharacterRow data)) tx)) x).2.db
          = { w.db with characters := w.db.characters ++ [newCharacterRow data] } := by
    intro x hx
    rcases withTransaction_db (fun tx => expectRows
      (execStatement (insertCharacter (newCharacterRow data)) tx)) x with h | h
    · exact Or.inl (h.trans hx)
    · rw [h, expectRows_snd]
      unfold execStatement
      cases x.tick.fault x.tick.ops with
      | some e => exact Or.inl hx
      | none =>
        right
        show (insertCharacter (newCharacterRow data) x.tick).2 = _
        unfold insertCharacter
        simp only [tick_db, hx]
  unfold UserRepository.CreateCharacter
  have h1 := (dbGet_frame DB.characters (fun c => c.Character == data.Character) w).2
  revert h1
  cases dbGet DB.characters (fun c => c.Character == data.Character) w with
  | mk res w1 =>
    intro h1
    simp only [] at h1
    cases res with
    | error e =>
      simp only []
      split
      · exact Or.inl h1
      · exact key w1 h1
    | ok row =>
      simp only []
      split
      · exact Or.inl h1
      · exact key w1 h1

theorem DeclineCharacter_db (characterName : GoString) (w : World) :
    (UserRepository.DeclineCharacter characterName w).2.db = w.db
      ∨ (UserRepository.DeclineCharacter characterName w).2.db
          = { w.db with characters := (w.db.characters.filter
                (fun c => !(c.Character == characterName && c.Status == 0))) } := by
  unfold UserRepository.DeclineCharacter
  rcases withTransaction_db (fun tx => expectRows (execStatement
    (deleteCharacters (fun c => c.Character == characterName && c.Status == 0)) tx)) w
    with h | h
  · exact Or.inl h
  · rw [h, expectRows_snd]
    unfold execStatement
    cases w.tick.fault w.tick.ops with
    | some e => exact Or.inl rfl
    | none => exact Or.inr rfl

/-- The repository methods behind Propose and Reject keep the invariant of
C22: they leave `accounts` alone, and the rows of `characters` they add or
remove have status 0. -/
theorem propose_and_reject_keep_charactersInvariant (w : World)
    (hinv : charactersInvariant w.db = true) :
    (∀ data, charactersInvariant (UserRepository.CreateCharacter data w).2.db = true)
      ∧ (∀ name, charactersInvariant (UserRepository.DeclineCharacter name w).2.db = true) := by
  constructor
  · intro data
    rcases CreateCharacter_db data w with h | h
    · rw [h]; exact hinv
    · rw [h]
      unfold charactersInvariant at hinv ⊢
      have : ∀ a : AccountRow, (w.db.characters ++ [newCharacterRow data]).filter
            (fun c => c.Username == a.Username && c.Status == 1)
          = w.db.characters.filter (fun c => c.Username == a.Username && c.Status == 1) := by
        intro a
        rw [List.filter_append]
        have : ([newCharacterRow data]).filter
            (fun c => c.Username == a.Username && c.Status == 1) = [] := by
          simp [newCharacterRow]
        rw [this, List.append_nil]
      simp only [this]
      exact hinv
  · intro name
    rcases DeclineCharacter_db name w with h | h
    · rw [h]; exact hinv
    · rw [h]
      unfold charactersInvariant at hinv ⊢
      have : ∀ a : AccountRow, (w.db.characters.filter
            (fun c => !(c.Character == name && c.Status == 0))).filter
            (fun c => c.Username == a.Username && c.Status == 1)
          = w.db.characters.filter (fun c => c.Username == a.Username && c.Status == 1) := by
        intro a
        rw [List.filter_filter]
        apply List.filter_congr
        intro c _
        by_cases h1 : c.Status = 1
        · simp [h1]
        · simp [h1]
      simp only [this]
      exact hinv

/-- C22, the divergence: `AcceptCharacter` adds one to the character count of
the account named in the request and accepts the character of the given name,
without checking that the character belongs to that account and without a
cap. In `reviewWorld` the invariant holds (the test account has five accepted
characters and a count of 5, the account "other" has none and a count of 0);
the administrator accepts "Other_A", a character of "other", with the test
account named as owner; the handler answers 200, and afterwards the count of
the test account is 6, above 5 and not the number of its accepted characters
(5), while "other" has one accepted character and a count of 0. -/
theorem C22_accept_breaks_the_count_invariant :
    charactersInvariant reviewWorld.db = true
      ∧ (UserHandler.AcceptCharacter sampleLib (some ⟨testUsername, lit "Other_A", []⟩)
          reviewWorld).1 = jsonResponse 200 ⟨false, ""⟩
      ∧ (UserHandler.AcceptCharacter sampleLib (some ⟨testUsername, lit "Other_A", []⟩)
          reviewWorld).2.db.accounts.map (fun a => (a.Username, a.Characters))
          = [(testUsername, 6), (lit "other", 0)]
      ∧ ((UserHandler.AcceptCharacter sampleLib (some ⟨testUsername, lit "Other_A", []⟩)
          reviewWorld).2.db.characters.filter (fun c => c.Status == 1)).map
            (fun c => (c.Username, c.Character))
          = [(testUsername, lit "Test_A"), (testUsername, lit "Test_B"),
             (testUsername, lit "Test_C"), (testUsername, lit "Test_D"),
             (testUsername, lit "Test_E"), (lit "other", lit "Other_A")]
      ∧ charactersInvariant (UserHandler.AcceptCharacter sampleLib
          (some ⟨testUsername, lit "Other_A", []⟩) reviewWorld).2.db = false
      ∧ charactersInvariant (UserRepository.AcceptCharacter testUsername (lit "Other_A")
          (lit "admin") reviewWorld).2.db = false := by
  refine ⟨by decide, by decide, by decide, by decide, by decide, by decide⟩

/-! ## C25: the gate of the routes under `/restricted` -/

theorem CheckSession_eq (w : World) :
    AuthService.CheckSession w
      = ((AuthService.CheckSession w).1, (w.record Call.CheckSession).tick) := by
  rw [← CheckSession_snd]

/-- The middleware `EnsurePrivilege` stops every request whose session has an
empty name or neither flag, after its one call of `CheckSession`. -/
theorem EnsurePrivilege_stops (w : World)
    (h : (AuthService.CheckSession w).1.name = []
      ∨ ((AuthService.CheckSession w).1.isAdmin = false
          ∧ (AuthService.CheckSession w).1.isTester = false)) :
    ∃ response, Middleware.EnsurePrivilege w
      = (some response, (w.record Call.CheckSession).tick) := by
  unfold Middleware.EnsurePrivilege
  rw [CheckSession_eq w]
  revert h
  generalize (AuthService.CheckSession w).1 = info
  obtain ⟨name, isAdmin, isTester, err⟩ := info
  intro h
  cases err with
  | some e => exact ⟨_, rfl⟩
  | none =>
    simp only [] at h ⊢
    rcases h with h | ⟨h1, h2⟩
    · simp only [h, true_or, if_true]; exact ⟨_, rfl⟩
    · simp only [h1, h2, Bool.not_false, Bool.and_self, or_true, if_true]; exact ⟨_, rfl⟩

/-- The seven handlers under `/restricted` that check the session themselves
make no call but `CheckSession` for a session with an empty name or neither
flag, also when they are called without the middleware. -/
theorem handlers_with_own_check (lib : Lib) (req : RestrictedRequest) (w : World)
    (hreq : (∀ body, req ≠ RestrictedRequest.ajail body)
      ∧ (∀ body, req ≠ RestrictedRequest.logs body))
    (h : (AuthService.CheckSession w).1.name = []
      ∨ ((AuthService.CheckSession w).1.isAdmin = false
          ∧ (AuthService.CheckSession w).1.isTester = false)) :
    ∃ response, restrictedHandler lib req w
      = some (response, (w.record Call.CheckSession).tick) := by
  have key : ∀ (name : GoString) (isAdmin isTester : Bool),
      (name = [] ∨ (isAdmin = false ∧ isTester = false)) →
      (name = [] ∨ (¬ name = [] ∧ (!isAdmin && !isTester) = true))
        ∧ (name = [] ∨ (¬ name = [] ∧ (!isAdmin) = true)) := by
    intro name isAdmin isTester h
    by_cases hn : name = []
    · exact ⟨Or.inl hn, Or.inl hn⟩
    · rcases h with h | ⟨h1, h2⟩
      · exact absurd h hn
      · exact ⟨Or.inr ⟨hn, by simp [h1, h2]⟩, Or.inr ⟨hn, by simp [h1]⟩⟩
  cases req with
  | ajail body => exact absurd rfl (hreq.1 body)
  | logs body => exact absurd rfl (hreq.2 body)
  | waitingList =>
    unfold restrictedHandler UserHandler.WaitingList
    rw [CheckSession_eq w]
    revert h
    generalize (AuthService.CheckSession w).1 = info
    obtain ⟨name, isAdmin, isTester, err⟩ := info
    intro h
    cases err with
    | some e => exact ⟨_, rfl⟩
    | none =>
      rcases (key name isAdmin isTester h).1 with h | ⟨h1, h2⟩
      · simp only [h, if_true]; exact ⟨_, rfl⟩
      · simp only [h1, h2, if_true, if_false]; exact ⟨_, rfl⟩
  | acceptCharacter body =>
    unfold restrictedHandler UserHandler.AcceptCharacter
    rw [CheckSession_eq w]
    revert h
    generalize (AuthService.CheckSession w).1 = info
    obtain ⟨name, isAdmin, isTester, err⟩ := info
    intro h
    cases err with
    | some e => exact ⟨_, rfl⟩
    | none =>
      rcases (key name isAdmin isTester h).1 with h | ⟨h1, h2⟩
      · simp only [h, if_true]; exact ⟨_, rfl⟩
      · simp only [h1, h2, if_true, if_false]; exact ⟨_, rfl⟩
  | rejectCharacter body =>
    unfold restrictedHandler UserHandler.RejectCharacter
    rw [CheckSession_eq w]
    revert h
    generalize (AuthService.CheckSession w).1 = info
    obtain ⟨name, isAdmin, isTester, err⟩ := info
    intro h
    cases err with
    | some e => exact ⟨_, rfl⟩
    | none =>
      rcases (key name isAdmin isTester h).1 with h | ⟨h1, h2⟩
      · simp only [h, if_true]; exact ⟨_, rfl⟩
      · simp only [h1, h2, if_true, if_false]; exact ⟨_, rfl⟩
  | fetchCharacter body =>
    unfold restrictedHandler UserHandler.FetchCharacter
    rw [CheckSession_eq w]
    revert h
    generalize (AuthService.CheckSession w).1 = info
    obtain ⟨name, isAdmin, isTester, err⟩ := info
    intro h
    cases err with
    | some e => exact ⟨_, rfl⟩
    | none =>
      rcases (key name isAdmin isTester h).2 with h | ⟨h1, h2⟩
      · simp only [h, if_true]; exact ⟨_, rfl⟩
      · simp only [h1, h2, if_true, if_false]; exact ⟨_, rfl⟩
  | banList =>
    unfold restrictedHandler UserHandler.BanList
    rw [CheckSession_eq w]
    revert h
    generalize (AuthService.CheckSession w).1 = info
    obtain ⟨name, isAdmin, isTester, err⟩ := info
    intro h
    cases err with
    | some e => exact ⟨_, rfl⟩
    | none =>
      rcases (key name isAdmin isTester h).2 with h | ⟨h1, h2⟩
      · simp only [h, if_true]; exact ⟨_, rfl⟩
      · simp only [h1, h2, if_true, if_false]; exact ⟨_, rfl⟩
  | ban body =>
    unfold restrictedHandler UserHandler.Ban
    rw [CheckSession_eq w]
    revert h
    generalize (AuthService.CheckSession w).1 = info
    obtain ⟨name, isAdmin, isTester, err⟩ := info
    intro h
    cases err with
    | some e => exact ⟨_, rfl⟩
    | none =>
      rcases (key name isAdmin isTester h).2 with h | ⟨h1, h2⟩
      · simp only [h, if_true]; exact ⟨_, rfl⟩
      · simp only [h1, h2, if_true, if_false]; exact ⟨_, rfl⟩
  | unban body =>
    unfold restrictedHandler UserHandler.Unban
    rw [CheckSession_eq w]
    revert h
    generalize (AuthService.CheckSession w).1 = info
    obtain ⟨name, isAdmin, isTester, err⟩ := info
    intro h
    cases err with
    | some e => exact ⟨_, rfl⟩
    | none =>
      rcases (key name isAdmin isTester h).2 with h | ⟨h1, h2⟩
      · simp only [h, if_true]; exact ⟨_, rfl⟩
      · simp only [h1, h2, if_true, if_false]; exact ⟨_, rfl⟩

/-- The handlers `Ajail` and `Logs` have no check of their own: `Ajail` reads
the name of the session without testing it and `Logs` does not read the
session. Called without the middleware in `quietWorld`, whose session is
empty, `Ajail` calls `UserService.Ajail` and `Logs` calls `UserService.Logs`;
`SetupRoutes` never calls them so. The same two requests served under
`/restricted`, behind the middleware, reach no service. -/
theorem Ajail_and_Logs_rely_on_the_middleware :
    (AuthService.CheckSession quietWorld).1 = ⟨[], false, false, none⟩
      ∧ (UserHandler.Ajail (some sampleAjail) quietWorld).2.calls
          = [Call.CheckSession, Call.Ajail sampleAjail]
      ∧ (UserHandler.Logs sampleLib (some ⟨lit "logs_ban"⟩) quietWorld).map
            (fun r => r.2.calls)
          = some [Call.Logs ⟨lit "logs_ban"⟩, Call.Queryx (FetchLogsQuery (lit "logs_ban"))]
      ∧ (serveRestricted sampleLib (RestrictedRequest.ajail (some sampleAjail)) quietWorld).map
            (fun r => r.2.calls) = some [Call.CheckSession]
      ∧ (serveRestricted sampleLib (RestrictedRequest.logs (some ⟨lit "logs_ban"⟩))
            quietWorld).map (fun r => r.2.calls) = some [Call.CheckSession] := by
  refine ⟨by decide, by decide, by decide, by decide, by decide⟩

/-- C25: for every request to one of the nine routes under
`/restricted` (WaitingList, AcceptCharacter, RejectCharacter, FetchCharacter,
BanList, Ban, Unban, Ajail, Logs), as `SetupRoutes` serves it, with the
middleware `EnsurePrivilege` before the handler, whose session has an empty
name or has neither the admin nor the tester flag: the request is answered
after the one call `CheckSession` of the auth service; no operation of the
user service or of the character service is called, no mail is sent, and the
database is left as it was. Seven of the nine handlers make the same checks
themselves and do the same when called without the middleware; `Ajail` and
`Logs` do not. -/
theorem C25_unprivileged_request_calls_no_service (lib : Lib) (req : RestrictedRequest)
    (w : World)
    (h : (AuthService.CheckSession w).1.name = []
      ∨ ((AuthService.CheckSession w).1.isAdmin = false
          ∧ (AuthService.CheckSession w).1.isTester = false)) :
    ∃ response w1, serveRestricted lib req w = some (response, w1)
      ∧ w1.calls = w.calls ++ [Call.CheckSession]
      ∧ w1.db = w.db
      ∧ (∀ c ∈ w1.calls, c ∈ w.calls ∨ c = Call.CheckSession)
      ∧ (((∀ body, req ≠ RestrictedRequest.ajail body)
            ∧ (∀ body, req ≠ RestrictedRequest.logs body)) →
          ∃ response', restrictedHandler lib req w = some (response', w1)) := by
  obtain ⟨response, hresp⟩ := EnsurePrivilege_stops w h
  refine ⟨response, (w.record Call.CheckSession).tick, ?_, rfl, rfl, fun c hc => ?_,
    fun hreq => handlers_with_own_check lib req w hreq h⟩
  · unfold serveRestricted
    rw [hresp]
  · simp only [tick_calls, record_calls, List.mem_append, List.mem_singleton] at hc
    exact hc

/-- C25 at a concrete request: a logged-in user without a role asks
to ban the test account. -/
theorem C25_unprivileged_request_calls_no_service_witness :
    ((AuthService.CheckSession (proposalsWorld 1)).1.isAdmin = false
        ∧ (AuthService.CheckSession (proposalsWorld 1)).1.isTester = false)
      ∧ ∃ response w1,
          serveRestricted sampleLib (RestrictedRequest.ban (some sampleBanRequest))
              (proposalsWorld 1) = some (response, w1)
            ∧ w1.calls = (proposalsWorld 1).calls ++ [Call.CheckSession]
            ∧ w1.db = (proposalsWorld 1).db :=
  ⟨⟨by decide, by decide⟩,
    (C25_unprivileged_request_calls_no_service sampleLib
      (RestrictedRequest.ban (some sampleBanRequest)) (proposalsWorld 1)
      (Or.inr ⟨by decide, by decide⟩)).imp
      (fun _ h => h.imp (fun _ h1 => ⟨h1.1, h1.2.1, h1.2.2.1⟩))⟩

/-! ## C30: the order of `FetchStaff` -/

theorem stringLess_irrefl (a : GoString) : stringLess a a = false := by
  induction a with
  | nil => rfl
  | cons x xs ih => simp [stringLess, ih]

theorem stringLess_trans : ∀ a b c : GoString,
    stringLess a b = true → stringLess b c = true → stringLess a c = true := by
  intro a
  induction a with
  | nil =>
    intro b c h1 h2
    cases b with
    | nil => simp [stringLess] at h1
    | cons y ys =>
      cases c with
      | nil => simp [stringLess] at h2
      | cons z zs => rfl
  | cons x xs ih =>
    intro b c h1 h2
    cases b with
    | nil => simp [stringLess] at h1
    | cons y ys =>
      cases c with
      | nil => simp [stringLess] at h2
      | cons z zs =>
        simp only [stringLess] at h1 h2 ⊢
        by_cases hxy : x.val < y.val
        · by_cases hyz : y.val < z.val
          · have : x.val < z.val := by omega
            simp [this]
          · by_cases hzy : z.val < y.val
            · simp [hyz, hzy] at h2
            · have : x.val < z.val := by omega
              simp [this]
        · by_cases hyx : y.val < x.val
          · simp [hxy, hyx] at h1
          · simp only [hxy, hyx, if_false] at h1
            by_cases hyz : y.val < z.val
            · have : x.val < z.val := by omega
              simp [this]
            · by_cases hzy : z.val < y.val
              · simp [hyz, hzy] at h2
              · simp only [hyz, hzy, if_false] at h2
                have h3 : ¬ x.val < z.val := by omega
                have h4 : ¬ z.val < x.val := by omega
                simp only [h3, h4, if_false]
                exact ih ys zs h1 h2

theorem stringLess_asymm : ∀ a b : GoString,
    stringLess a b = true → stringLess b a = false := by
  intro a
  induction a with
  | nil =>
    intro b h
    cases b with
    | nil => rfl
    | cons y ys => rfl
  | cons x xs ih =>
    intro b h
    cases b with
    | nil => simp [stringLess] at h
    | cons y ys =>
      simp only [stringLess] at h ⊢
      by_cases hxy : x.val < y.val
      · have : ¬ y.val < x.val := by omega
        simp [this, hxy]
      · by_cases hyx : y.val < x.val
        · simp [hxy, hyx] at h
        · simp only [hxy, hyx, if_false] at h ⊢
          exact ih ys h

theorem stringLess_total : ∀ a b : GoString,
    a ≠ b → stringLess a b = true ∨ stringLess b a = true := by
  intro a
  induction a with
  | nil =>
    intro b h
    cases b with
    | nil => exact absurd rfl h
    | cons y ys => exact Or.inl rfl
  | cons x xs ih =>
    intro b h
    cases b with
    | nil => exact Or.inr rfl
    | cons y ys =>
      simp only [stringLess]
      by_cases hxy : x.val < y.val
      · simp [hxy]
      · by_cases hyx : y.val < x.val
        · simp [hxy, hyx]
        · simp only [hxy, hyx, if_false]
          have hx : x = y := Fin.ext (by omega)
          apply ih ys
          intro hs
          apply h
          rw [hx, hs]

/-- The comparison of `FetchStaff` spelled out: Tester ascending, then Admin
descending, then Username ascending. -/
theorem staffLess_iff (a b : GetStatsDB) :
    staffLess a b = true ↔
      a.Tester < b.Tester
        ∨ (a.Tester = b.Tester
            ∧ (b.Admin < a.Admin
                ∨ (a.Admin = b.Admin ∧ stringLess a.Username b.Username = true))) := by
  unfold staffLess
  by_cases h1 : a.Tester < b.Tester
  · simp [h1]
  · by_cases h2 : a.Tester > b.Tester
    · rw [if_neg h1, if_pos h2]
      constructor
      · intro h; exact absurd h (by decide)
      · rintro (h | ⟨h, _⟩)
        · exact absurd h h1
        · omega
    · have h3 : a.Tester = b.Tester := by omega
      rw [if_neg h1, if_neg h2]
      by_cases h4 : a.Admin = b.Admin
      · rw [if_neg (not_not.2 h4)]
        constructor
        · intro h; exact Or.inr ⟨h3, Or.inr ⟨h4, h⟩⟩
        · rintro (h | ⟨_, h | ⟨_, h⟩⟩)
          · exact absurd h h1
          · omega
          · exact h
      · rw [if_pos h4]
        constructor
        · intro h
          exact Or.inr ⟨h3, Or.inl (of_decide_eq_true h)⟩
        · rintro (h | ⟨_, h | ⟨h, _⟩⟩)
          · exact absurd h h1
          · exact decide_eq_true h
          · exact absurd h h4

theorem staffLess_irrefl (a : GetStatsDB) : staffLess a a = false := by
  cases h : staffLess a a with
  | false => rfl
  | true =>
    rw [staffLess_iff] at h
    rcases h with h | ⟨_, h | ⟨_, h⟩⟩
    · omega
    · omega
    · rw [stringLess_irrefl] at h
      exact absurd h (by decide)

theorem staffLess_trans (a b c : GetStatsDB)
    (h1 : staffLess a b = true) (h2 : staffLess b c = true) : staffLess a c = true := by
  rw [staffLess_iff] at h1 h2 ⊢
  rcases h1 with h1 | ⟨e1, h1 | ⟨f1, h1⟩⟩ <;> rcases h2 with h2 | ⟨e2, h2 | ⟨f2, h2⟩⟩
  · left; omega
  · left; omega
  · left; omega
  · left; omega
  · right; exact ⟨by omega, Or.inl (by omega)⟩
  · right; exact ⟨by omega, Or.inl (by omega)⟩
  · left; omega
  · right; exact ⟨by omega, Or.inl (by omega)⟩
  · right; exact ⟨by omega, Or.inr ⟨by omega, stringLess_trans _ _ _ h1 h2⟩⟩

theorem staffLess_asymm (a b : GetStatsDB) (h : staffLess a b = true) :
    staffLess b a = false := by
  cases h' : staffLess b a with
  | false => rfl
  | true =>
    have := staffLess_trans a b a h h'
    rw [staffLess_irrefl] at this
    exact absurd this (by decide)

theorem staffLess_total (a b : GetStatsDB)
    (h : a.Tester ≠ b.Tester ∨ a.Admin ≠ b.Admin ∨ a.Username ≠ b.Username) :
    staffLess a b = true ∨ staffLess b a = true := by
  rw [staffLess_iff, staffLess_iff]
  by_cases h1 : a.Tester = b.Tester
  · by_cases h2 : a.Admin = b.Admin
    · have h3 : a.Username ≠ b.Username := by
        rcases h with h | h | h
        · exact absurd h1 h
        · exact absurd h2 h
        · exact h
      rcases stringLess_total _ _ h3 with h4 | h4
      · exact Or.inl (Or.inr ⟨h1, Or.inr ⟨h2, h4⟩⟩)
      · exact Or.inr (Or.inr ⟨h1.symm, Or.inr ⟨h2.symm, h4⟩⟩)
    · rcases lt_or_gt_of_ne h2 with h3 | h3
      · exact Or.inr (Or.inr ⟨h1.symm, Or.inl h3⟩)
      · exact Or.inl (Or.inr ⟨h1, Or.inl h3⟩)
  · rcases lt_or_gt_of_ne h1 with h3 | h3
    · exact Or.inl (Or.inl h3)
    · exact Or.inr (Or.inl h3)

/-- The relation "not less the other way round" is transitive: the comparison
is a strict weak order. -/
theorem staffLess_not_trans (a b c : GetStatsDB)
    (h1 : staffLess b a = false) (h2 : staffLess c b = false) : staffLess c a = false := by
  cases h : staffLess c a with
  | false => rfl
  | true =>
    exfalso
    by_cases hk : a.Tester ≠ b.Tester ∨ a.Admin ≠ b.Admin ∨ a.Username ≠ b.Username
    · rcases staffLess_total a b hk with h3 | h3
      · have := staffLess_trans c a b h h3
        rw [h2] at this
        exact absurd this (by decide)
      · rw [h1] at h3
        exact absurd h3 (by decide)
    · simp only [not_or, not_not] at hk
      have : staffLess c b = true := by
        rw [staffLess_iff] at h ⊢
        rw [← hk.1, ← hk.2.1, ← hk.2.2]
        exact h
      rw [h2] at this
      exact absurd this (by decide)

theorem sortSlice_staff_perm (l : List GetStatsDB) : (sortSlice staffLess l).Perm l :=
  List.perm_insertionSort _ l

theorem sortSlice_staff_sorted (l : List GetStatsDB) :
    List.Pairwise (fun a b => staffLess b a = false) (sortSlice staffLess l) := by
  haveI : IsTotal GetStatsDB (fun a b => staffLess b a = false) :=
    ⟨fun a b => by
      cases h : staffLess b a with
      | false => exact Or.inl rfl
      | true => exact Or.inr (staffLess_asymm b a h)⟩
  haveI : IsTrans GetStatsDB (fun a b => staffLess b a = false) :=
    ⟨fun a b c h1 h2 => staffLess_not_trans a b c h1 h2⟩
  exact List.sorted_insertionSort (fun a b => staffLess b a = false) l

/-- Two sorted lists with the same elements are equal when the order is
antisymmetric on these elements. -/
theorem eq_of_perm_of_pairwise {α : Type} {r : α → α → Prop} :
    ∀ {l1 l2 : List α}, l1.Perm l2 → l1.Pairwise r → l2.Pairwise r →
      (∀ a ∈ l1, ∀ b ∈ l1, r a b → r b a → a = b) → l1 = l2 := by
  intro l1
  induction l1 with
  | nil => intro l2 hp _ _ _; exact hp.nil_eq
  | cons a l1 ih =>
    intro l2 hp hs1 hs2 hanti
    have ha : a ∈ l2 := hp.subset (List.mem_cons_self _ _)
    obtain ⟨u, v, rfl⟩ := List.append_of_mem ha
    have hp' : l1.Perm (u ++ v) := (List.perm_cons a).1 (hp.trans List.perm_middle)
    have hs2' : (u ++ v).Pairwise r := hs2.sublist (by simp)
    have hl1 : l1 = u ++ v := ih hp' (List.pairwise_cons.1 hs1).2 hs2'
      (fun x hx y hy => hanti x (List.mem_cons_of_mem _ hx) y (List.mem_cons_of_mem _ hy))
    subst hl1
    have hu : ∀ x ∈ u, x = a := by
      intro x hx
      have h1 : r x a := (List.pairwise_append.1 hs2).2.2 x hx a (List.mem_cons_self _ _)
      have h2 : r a x := (List.pairwise_cons.1 hs1).1 x (List.mem_append_left _ hx)
      exact hanti x (List.mem_cons_of_mem _ (List.mem_append_left _ hx)) a
        (List.mem_cons_self _ _) h1 h2
    clear hp hs1 hs2 hanti ha hp' hs2' ih
    induction u with
    | nil => rfl
    | cons y u ihu =>
      have hy : y = a := hu y (List.mem_cons_self _ _)
      subst hy
      have := ihu (fun x hx => hu x (List.mem_cons_of_mem _ hx))
      simp only [List.cons_append] at this ⊢
      rw [this]

theorem staffRows_fields {db : DB} {a : GetStatsDB} (h : a ∈ staffRows db) :
    a.DonateRank = 0 ∧ a.Characters = 0 ∧ a.LoginDate = 0 ∧ a.CharactersData = [] := by
  unfold staffRows at h
  rw [List.mem_map] at h
  obtain ⟨r, _, rfl⟩ := h
  exact ⟨rfl, rfl, rfl, rfl⟩

/-- C30: the comparison function of `FetchStaff` orders by Tester ascending,
then Admin descending, then Username ascending; it is irreflexive,
asymmetric and transitive, and it decides every two rows whose keys differ.
For every world, the rows `FetchStaff` returns are such that no row compares
less than a row before it, in particular than its predecessor; when the
query is answered they are a permutation of the queried rows, and they are
the only permutation of them in that order, so the result does not depend on
the sorting algorithm. -/
theorem C30_staff_is_sorted (w : World) :
    (∀ a b, staffLess a b = true ↔
        a.Tester < b.Tester
          ∨ (a.Tester = b.Tester
              ∧ (b.Admin < a.Admin
                  ∨ (a.Admin = b.Admin ∧ stringLess a.Username b.Username = true))))
      ∧ (∀ a, staffLess a a = false)
      ∧ (∀ a b, staffLess a b = true → staffLess b a = false)
      ∧ (∀ a b c, staffLess a b = true → staffLess b c = true → staffLess a c = true)
      ∧ (∀ a b, (a.Tester ≠ b.Tester ∨ a.Admin ≠ b.Admin ∨ a.Username ≠ b.Username) →
          staffLess a b = true ∨ staffLess b a = true)
      ∧ List.Chain' (fun a b => staffLess b a = false) (UserRepository.FetchStaff w).1.1
      ∧ List.Pairwise (fun a b => staffLess b a = false) (UserRepository.FetchStaff w).1.1
      ∧ (w.fault w.ops = none →
          (UserRepository.FetchStaff w).1.2 = none
            ∧ (UserRepository.FetchStaff w).1.1.Perm (staffRows w.db)
            ∧ ∀ l : List GetStatsDB, l.Perm (staffRows w.db) →
                List.Chain' (fun a b => staffLess b a = false) l →
                l = (UserRepository.FetchStaff w).1.1) := by
  have hsorted : List.Pairwise (fun a b => staffLess b a = false)
      (UserRepository.FetchStaff w).1.1 := by
    unfold UserRepository.FetchStaff
    cases w.fault w.ops with
    | some e => exact List.Pairwise.nil
    | none => exact sortSlice_staff_sorted _
  refine ⟨staffLess_iff, staffLess_irrefl, staffLess_asymm, staffLess_trans, staffLess_total,
    hsorted.chain', hsorted, fun hok => ?_⟩
  have hres : (UserRepository.FetchStaff w).1 = (sortSlice staffLess (staffRows w.db), none) := by
    unfold UserRepository.FetchStaff
    rw [hok]
  rw [hres]
  refine ⟨rfl, sortSlice_staff_perm _, fun l hp hc => ?_⟩
  haveI : IsTrans GetStatsDB (fun a b => staffLess b a = false) :=
    ⟨fun a b c h1 h2 => staffLess_not_trans a b c h1 h2⟩
  have hl : l.Pairwise (fun a b => staffLess b a = false) := List.chain'_iff_pairwise.1 hc
  refine eq_of_perm_of_pairwise (hp.trans (sortSlice_staff_perm _).symm) hl
    (sortSlice_staff_sorted _) (fun a ha b hb hab hba => ?_)
  have ha' := staffRows_fields (hp.subset ha)
  have hb' := staffRows_fields (hp.subset hb)
  by_cases hk : a.Tester ≠ b.Tester ∨ a.Admin ≠ b.Admin ∨ a.Username ≠ b.Username
  · rcases staffLess_total a b hk with h | h
    · rw [hba] at h; exact absurd h (by decide)
    · rw [hab] at h; exact absurd h (by decide)
  · simp only [not_or, not_not] at hk
    obtain ⟨a1, a2, a3, a4, a5, a6, a7⟩ := a
    obtain ⟨b1, b2, b3, b4, b5, b6, b7⟩ := b
    simp only [] at ha' hb' hk
    obtain ⟨h1, h2, h3⟩ := hk
    obtain ⟨h4, h5, h6, h7⟩ := ha'
    obtain ⟨h8, h9, h10, h11⟩ := hb'
    subst h1 h2 h3 h4 h5 h6 h7 h8 h9 h10 h11
    rfl

/-- The staff of `staffWorld` in the order `FetchStaff` returns them: the
administrators (Tester 0) first, the higher level first, then the testers by
name. -/
theorem FetchStaff_example :
    (UserRepository.FetchStaff staffWorld).1.1.map (fun r => (r.Username, r.Admin, r.Tester))
        = [(lit "amy", 5, 0), (lit "bob", 2, 0), (lit "al", 0, 1), (lit "zoe", 0, 1)]
      ∧ (UserService.GetStaff staffWorld).1.1
          = [⟨lit "amy", lit "Admin"⟩, ⟨lit "bob", lit "Admin"⟩, ⟨lit "al", lit "Tester"⟩,
             ⟨lit "zoe", lit "Tester"⟩] := by
  refine ⟨by decide, by decide⟩

/-! ## C29: the log type that reaches the SQL text -/

theorem runes_cons_ascii (b : Byte) (s : GoString) (h : b.val < 0x80) :
    runes (b :: s) = b.val :: runes s := by
  unfold runes
  simp only [List.length_cons, runesAux]
  have hd : decodeRune (b :: s) = (b.val, 1) := by
    simp only [decodeRune, h, if_true]
  rw [hd]
  rfl

theorem or_ge_128 (a b : Nat) (ha : a < 256) (hb : b < 256) :
    (a ||| b) ≥ 0x80 ↔ a ≥ 0x80 ∨ b ≥ 0x80 := by
  have hor : a ||| b < 256 := Nat.or_lt_two_pow (n := 8) ha hb
  have key : ∀ x, x < 256 → (x ≥ 0x80 ↔ x.testBit 7 = true) := by
    intro x hx
    rw [Nat.testBit_to_div_mod]
    simp only [decide_eq_true_eq]
    omega
  rw [key _ hor, Nat.testBit_or, Bool.or_eq_true, ← key a ha, ← key b hb]

/-- The search of the orbit of a byte of a name, against a rune that is not
ASCII: it stops, and it stops at that rune only for "k" and the Kelvin sign
and for "s" and the long s. -/
theorem foldSearch_name (lib : Lib) (lo hi : Nat)
    (hlo : (97 ≤ lo ∧ lo ≤ 122) ∨ lo = 95) (hhi : 0x80 ≤ hi) :
    ∃ r, foldSearch lib 8 lo hi (SimpleFold lib lo) = some r
      ∧ (r = hi → hi = 0x17F ∨ hi = 0x212A) := by
  by_cases hk : lo = 107
  · subst hk
    by_cases h1 : 0x212A < hi
    · refine ⟨107, ?_, fun h => by omega⟩
      simp [foldSearch, SimpleFold, asciiFold, h1]
      omega
    · refine ⟨0x212A, ?_, fun h => Or.inr h.symm⟩
      simp [foldSearch, SimpleFold, asciiFold, h1]
  · by_cases hs : lo = 115
    · subst hs
      by_cases h1 : 0x17F < hi
      · refine ⟨115, ?_, fun h => by omega⟩
        simp [foldSearch, SimpleFold, asciiFold, h1]
        omega
      · refine ⟨0x17F, ?_, fun h => Or.inl h.symm⟩
        simp [foldSearch, SimpleFold, asciiFold, h1]
    · rcases hlo with hlo | hlo
      · refine ⟨lo, ?_, fun h => by omega⟩
        have e1 : SimpleFold lib lo = lo - 0x20 := by
          unfold SimpleFold asciiFold
          rw [if_pos (by omega), if_neg (by omega), if_neg (by omega), if_neg hk, if_neg hs,
            if_neg (by omega), if_pos (by omega)]
        have e2 : SimpleFold lib (lo - 0x20) = lo := by
          unfold SimpleFold asciiFold
          rw [if_pos (by omega), if_neg (by omega), if_neg (by omega), if_neg (by omega),
            if_neg (by omega), if_pos (by omega)]
          omega
        rw [e1]
        unfold foldSearch
        rw [if_pos (by omega), e2]
        unfold foldSearch
        rw [if_neg (by omega)]
      · subst hlo
        refine ⟨95, ?_, fun h => by omega⟩
        simp [foldSearch, SimpleFold, asciiFold]

/-- The second loop of `strings.EqualFold` against a name: it returns, and it
returns true only when every rune of the first string is an ASCII letter,
"_", the long s or the Kelvin sign. -/
theorem equalFoldRunes_name (lib : Lib) :
    ∀ (rs : List Nat) (t : GoString), (∀ b ∈ t, nameByte b = true) →
      ∃ res, equalFoldRunes lib rs t = some res
        ∧ (res = true → ∀ r ∈ rs, nameRune r = true) := by
  intro rs
  induction rs with
  | nil =>
    intro t _
    exact ⟨t.length == 0, by unfold equalFoldRunes; rfl, fun _ r hr => absurd hr (List.not_mem_nil r)⟩
  | cons sr srs ih =>
    intro t ht
    cases t with
    | nil => exact ⟨false, rfl, fun h => absurd h (by decide)⟩
    | cons t0 trest =>
      have h0 : (97 ≤ t0.val ∧ t0.val ≤ 122) ∨ t0.val = 95 := by
        have := ht t0 (List.mem_cons_self _ _)
        simpa [nameByte] using this
      have h080 : t0.val < 0x80 := by omega
      obtain ⟨res, hres, hall⟩ := ih trest (fun b hb => ht b (List.mem_cons_of_mem _ hb))
      have step : ∀ (hsr : nameRune sr = true),
          ∃ res, equalFoldRunes lib srs trest = some res
            ∧ (res = true → ∀ r ∈ sr :: srs, nameRune r = true) := by
        intro hsr
        refine ⟨res, hres, fun h r hr => ?_⟩
        rcases List.mem_cons.1 hr with e | e
        · rw [e]; exact hsr
        · exact hall h r e
      unfold equalFoldRunes
      simp only [h080, if_true]
      by_cases e1 : t0.val = sr
      · rw [if_pos e1]
        apply step
        rw [← e1]
        simp only [nameRune, decide_eq_true_eq]
        omega
      · rw [if_neg e1]
        by_cases hlt : t0.val < sr
        · simp only [hlt, if_true]
          by_cases hhi : sr < 0x80
          · rw [if_pos hhi]
            by_cases hup : 0x41 ≤ t0.val ∧ t0.val ≤ 0x5A ∧ sr = t0.val + 0x20
            · exfalso; omega
            · rw [if_neg hup]
              exact ⟨false, rfl, fun h => absurd h (by decide)⟩
          · rw [if_neg hhi]
            obtain ⟨r, hr, hrhi⟩ := foldSearch_name lib t0.val sr h0 (by omega)
            rw [hr]
            simp only []
            by_cases e2 : r = sr
            · rw [if_pos e2]
              apply step
              simp only [nameRune, decide_eq_true_eq]
              rcases hrhi e2 with h | h
              · exact Or.inr (Or.inr (Or.inr (Or.inl h)))
              · exact Or.inr (Or.inr (Or.inr (Or.inr h)))
            · rw [if_neg e2]
              exact ⟨false, rfl, fun h => absurd h (by decide)⟩
        · simp only [hlt, if_false]
          rw [if_pos h080]
          by_cases hup : 0x41 ≤ sr ∧ sr ≤ 0x5A ∧ t0.val = sr + 0x20
          · rw [if_pos hup]
            apply step
            simp only [nameRune, decide_eq_true_eq]
            omega
          · rw [if_neg hup]
            exact ⟨false, rfl, fun h => absurd h (by decide)⟩

/-- The function `strings.EqualFold` against a name: it returns, and it returns
true only when every rune of the first string is an ASCII letter, "_", the
long s or the Kelvin sign. -/
theorem EqualFold_name (lib : Lib) :
    ∀ (t s : GoString), (∀ b ∈ t, nameByte b = true) →
      ∃ res, EqualFold lib s t = some res
        ∧ (res = true → ∀ r ∈ runes s, nameRune r = true) := by
  intro t
  induction t with
  | nil =>
    intro s _
    cases s with
    | nil => exact ⟨_, rfl, fun _ r hr => absurd hr (by simp [runes, runesAux])⟩
    | cons sb srest => exact ⟨false, rfl, fun h => absurd h (by decide)⟩
  | cons tb trest ih =>
    intro s ht
    cases s with
    | nil => exact ⟨false, rfl, fun h => absurd h (by decide)⟩
    | cons sb srest =>
      have h0 : (97 ≤ tb.val ∧ tb.val ≤ 122) ∨ tb.val = 95 := by
        have := ht tb (List.mem_cons_self _ _)
        simpa [nameByte] using this
      unfold EqualFold
      by_cases hor : (sb.val ||| tb.val) ≥ 0x80
      · rw [if_pos hor]
        exact equalFoldRunes_name lib _ _ ht
      · rw [if_neg hor]
        have hsb : sb.val < 0x80 := by
          have := (or_ge_128 sb.val tb.val sb.isLt tb.isLt).not.1 hor
          omega
        obtain ⟨res, hres, hall⟩ := ih srest (fun b hb => ht b (List.mem_cons_of_mem _ hb))
        have step : ∀ (hsr : nameRune sb.val = true),
            ∃ res, EqualFold lib srest trest = some res
              ∧ (res = true → ∀ r ∈ runes (sb :: srest), nameRune r = true) := by
          intro hsr
          refine ⟨res, hres, fun h r hr => ?_⟩
          rw [runes_cons_ascii sb srest hsb] at hr
          rcases List.mem_cons.1 hr with e | e
          · rw [e]; exact hsr
          · exact hall h r e
        by_cases e1 : tb = sb
        · rw [if_pos e1]
          apply step
          rw [← e1]
          simp only [nameRune, decide_eq_true_eq]
          omega
        · rw [if_neg e1]
          have e1' : tb.val ≠ sb.val := fun h => e1 (Fin.ext h)
          by_cases hlt : tb.val < sb.val
          · simp only [hlt, if_true]
            by_cases hup : 0x41 ≤ tb.val ∧ tb.val ≤ 0x5A ∧ sb.val = tb.val + 0x20
            · exfalso; omega
            · rw [if_neg hup]
              exact ⟨false, rfl, fun h => absurd h (by decide)⟩
          · simp only [hlt, if_false]
            by_cases hup : 0x41 ≤ sb.val ∧ sb.val ≤ 0x5A ∧ tb.val = sb.val + 0x20
            · rw [if_pos hup]
              apply step
              simp only [nameRune, decide_eq_true_eq]
              omega
            · rw [if_neg hup]
              exact ⟨false, rfl, fun h => absurd h (by decide)⟩

set_option maxRecDepth 100000 in
theorem logsType_nameBytes : ∀ l ∈ logsType, ∀ b ∈ l, nameByte b = true := by decide

/-- The loop of `UserService.Logs` returns, and it leaves `ok` true exactly
when `strings.EqualFold` matches the type with one of the sixteen names. -/
theorem logsTypeMatches_spec (lib : Lib) (s : GoString) :
    ∀ names : List GoString, (∀ l ∈ names, ∀ b ∈ l, nameByte b = true) →
      ∃ res, logsTypeMatches lib s names = some res
        ∧ (res = true ↔ ∃ l ∈ names, EqualFold lib s l = some true) := by
  intro names
  induction names with
  | nil => intro _; exact ⟨false, rfl, by simp⟩
  | cons l rest ih =>
    intro h
    obtain ⟨r0, hr0, _⟩ := EqualFold_name lib l s (h l (List.mem_cons_self _ _))
    obtain ⟨res, hres, hiff⟩ := ih (fun l' hl' => h l' (List.mem_cons_of_mem _ hl'))
    unfold logsTypeMatches
    rw [hr0]
    cases r0 with
    | true => exact ⟨true, rfl, by simp [hr0]⟩
    | false =>
      refine ⟨res, hres, ?_⟩
      rw [hiff]
      simp [hr0]

/-- C29, the claim as written fails: the type "log" + U+017F + "_ban" (the long
s, two bytes in UTF-8) is matched by `strings.EqualFold` with "logs_ban", so
`UserService.Logs` calls `FetchLogs` with it and the query text sent holds
it; its bytes 0xC5 and 0xBF are not among A-Z, a-z and "_". The Kelvin sign
in place of "k" passes the same way. -/
theorem C29_long_s_reaches_the_query :
    EqualFold sampleLib (lit "log\u017f_ban") (lit "logs_ban") = some true
      ∧ (UserService.Logs sampleLib ⟨lit "log\u017f_ban"⟩ quietWorld).map (fun r => (r.1, r.2.calls))
          = some (none, [Call.Logs ⟨lit "log\u017f_ban"⟩,
              Call.Queryx (lit "SELECT * FROM log\u017f_ban ORDER BY ID DESC LIMIT 100")])
      ∧ lit "log\u017f_ban"
          = [byteOf 108, byteOf 111, byteOf 103, byteOf 0xC5, byteOf 0xBF, byteOf 95, byteOf 98,
             byteOf 97, byteOf 110]
      ∧ (∃ b ∈ lit "log\u017f_ban",
          ¬ ((65 ≤ b.val ∧ b.val ≤ 90) ∨ (97 ≤ b.val ∧ b.val ≤ 122) ∨ b.val = 95))
      ∧ EqualFold sampleLib (lit "logs_\u212Aick") (lit "logs_kick") = some true := by
  refine ⟨by decide, by decide, by decide, by decide, by decide⟩

/-- C29 (amended): for every log type and every world, `UserService.Logs`
returns. When `strings.EqualFold` matches the type with one of the sixteen
names of `logsType` it is the call of `FetchLogs` with the type unchanged;
otherwise it returns "invalid log type" and neither sends a query nor makes
a round trip. The matching is Unicode case folding: every rune of a type that
reaches `FetchLogs`, and so of every string interpolated into the SQL text,
is one of A-Z, a-z, "_", U+017F (long s) and U+212A (Kelvin sign). -/
theorem C29_logs_type_reaches_sql_only_if_folded_name (lib : Lib) (data : LogsAPI) (w : World) :
    (∃ res, UserService.Logs lib data w = some res)
      ∧ ((∃ l ∈ logsType, EqualFold lib data.LogType l = some true) →
          UserService.Logs lib data w
              = some (UserRepository.FetchLogs data.LogType (w.record (Call.Logs data)))
            ∧ ∀ r ∈ runes data.LogType, nameRune r = true)
      ∧ ((¬ ∃ l ∈ logsType, EqualFold lib data.LogType l = some true) →
          UserService.Logs lib data w
            = some (some "invalid log type", w.record (Call.Logs data)))
      ∧ (∀ res q, UserService.Logs lib data w = some res →
          Call.Queryx q ∈ res.2.calls →
          Call.Queryx q ∈ w.calls
            ∨ (q = FetchLogsQuery data.LogType
                ∧ (∃ l ∈ logsType, EqualFold lib data.LogType l = some true)
                ∧ ∀ r ∈ runes data.LogType, nameRune r = true)) := by
  obtain ⟨m, hm, hiff⟩ := logsTypeMatches_spec lib data.LogType logsType logsType_nameBytes
  have hrunes : (∃ l ∈ logsType, EqualFold lib data.LogType l = some true) →
      ∀ r ∈ runes data.LogType, nameRune r = true := by
    rintro ⟨l, hl, he⟩
    obtain ⟨res, hres, hall⟩ := EqualFold_name lib l data.LogType (logsType_nameBytes l hl)
    rw [he] at hres
    exact hall (Option.some.inj hres).symm
  have hyes : (∃ l ∈ logsType, EqualFold lib data.LogType l = some true) →
      UserService.Logs lib data w
        = some (UserRepository.FetchLogs data.LogType (w.record (Call.Logs data))) := by
    intro h
    have : m = true := hiff.2 h
    subst this
    unfold UserService.Logs
    rw [hm]
  have hno : (¬ ∃ l ∈ logsType, EqualFold lib data.LogType l = some true) →
      UserService.Logs lib data w
        = some (some "invalid log type", w.record (Call.Logs data)) := by
    intro h
    have : m = false := by
      cases m with
      | false => rfl
      | true => exact absurd (hiff.1 rfl) h
    subst this
    unfold UserService.Logs
    rw [hm]
  refine ⟨?_, fun h => ⟨hyes h, hrunes h⟩, hno, fun res q hres hq => ?_⟩
  · by_cases h : ∃ l ∈ logsType, EqualFold lib data.LogType l = some true
    · exact ⟨_, hyes h⟩
    · exact ⟨_, hno h⟩
  · by_cases h : ∃ l ∈ logsType, EqualFold lib data.LogType l = some true
    · rw [hyes h] at hres
      have := Option.some.inj hres
      rw [← this] at hq
      simp only [UserRepository.FetchLogs, tick_calls, record_calls, List.mem_append,
        List.mem_singleton, Call.Queryx.injEq] at hq
      rcases hq with (hq | hq) | hq
      · exact Or.inl hq
      · exact absurd hq (by simp)
      · exact Or.inr ⟨hq, h, hrunes h⟩
    · rw [hno h] at hres
      have := Option.some.inj hres
      rw [← this] at hq
      simp only [record_calls, List.mem_append, List.mem_singleton] at hq
      rcases hq with hq | hq
      · exact Or.inl hq
      · exact absurd hq (by simp)

/-- Examples for C29: a name in capitals is accepted and passed on as it is; a
name followed by more SQL, and a name with a space before it, are refused
without a query. -/
theorem Logs_examples :
    (UserService.Logs sampleLib ⟨lit "LOGS_BAN"⟩ quietWorld).map (fun r => (r.1, r.2.calls))
        = some (none, [Call.Logs ⟨lit "LOGS_BAN"⟩,
            Call.Queryx (lit "SELECT * FROM LOGS_BAN ORDER BY ID DESC LIMIT 100")])
      ∧ (UserService.Logs sampleLib ⟨lit "logs_ban; DROP TABLE accounts"⟩ quietWorld).map
            (fun r => (r.1, r.2.calls, r.2.ops))
          = some (some "invalid log type", [Call.Logs ⟨lit "logs_ban; DROP TABLE accounts"⟩], 0)
      ∧ (UserService.Logs sampleLib ⟨lit " logs_ban"⟩ quietWorld).map
            (fun r => (r.1, r.2.calls, r.2.ops))
          = some (some "invalid log type", [Call.Logs ⟨lit " logs_ban"⟩], 0) := by
  refine ⟨by decide, by decide, by decide⟩

/-! ## The texts of the formatted errors -/

/-- The errors whose text holds a name, at concrete inputs: the two
type-assertion errors of `CheckSession`, the error of `Authenticate` for a
user without both flags, and the duplicate error of `CreateCharacter`. -/
theorem formatted_error_texts :
    textOf (lit "Test_A") = "Test_A"
      ∧ (AuthService.CheckSession
          { quietWorld with
            session := [("name", .str testUsername), ("is_admin", .str (lit "yes"))] }).1
          = ⟨testUsername, false, false,
              some "can\x27t type cast to bool is_admin for user test"⟩
      ∧ (AuthService.CheckSession
          { quietWorld with
            session := [("name", .str testUsername), ("is_admin", .bool true),
                        ("is_tester", .str (lit "yes"))] }).1
          = ⟨testUsername, true, false,
              some "can\x27t type cast to bool is_tester for user test"⟩
      ∧ (AuthService.CheckSession
          { quietWorld with session := [("name", .bool true)] }).1
          = ⟨[], false, false, some "can\x27t type cast to string session for user "⟩
      ∧ (AuthService.Authenticate (proposalsWorld 0)).1
          = some "WaitingList(): user test doesn\x27t have admin rights"
      ∧ (UserRepository.CreateCharacter
          { Username := testUsername, Character := lit "Test_A", Age := 18, Gender := 1,
            Origin := lit "test", Skin := 98 } (proposalsWorld 1)).1
          = some "character with name Test_A already exists" := by
  refine ⟨by decide, by decide, by decide, by decide, by decide, by decide⟩

end Ucp
